import Mathlib

/-!
# The mxio descriptor table of `system/ulib/mxio/unistd.c`

A shallow embedding of the file-descriptor layer: the global table
`mxio_fdtab`, the root object `mxio_root_handle`, the process handle, and the
entry points that bind, resolve, close, open, pipe, tear down and bootstrap.

* C `int` results are `Int`; a slot index that has passed its range check is a
  `Nat`.
* A pointer `mxio_t*` is `Option mxio_t`, `none` being `NULL`.
* The three globals are the fields of `State`; a fourth field, `calls`, logs
  every call that leaves the file (object operations and constructors), in
  program order.
* Constants that come from headers outside the sources are the fields of
  `Consts`; results of object operations are the fields of `Ops`.
* Where the identity of an object matters (two slots holding one object), a
  `PtrState` keeps the address of the object of each slot next to the globals.
-/

namespace Mxio

/-- Modelled from the spec: the I/O object behind an `mxio_t*`. Its definition
(`mxio/io.h`) is not among the sources; the spec gives it as the tagged union
`Remote{primary_handle, optional_event_handle}`, `Pipe{handle}`, `Null{}`. An
absent event handle is the handle value `0`, as in `mxio_remote_create(h, 0)`. -/
inductive mxio_t where
  | Remote (h : Nat) (e : Nat)
  | Pipe (h : Nat)
  | Null
  deriving DecidableEq, Repr

/-- Modelled from the spec: `mxio_remote_create(h, e)`, defined outside the
sources, constructs a Remote object from a primary and an event handle. -/
def mxio_remote_create (h e : Nat) : mxio_t := mxio_t.Remote h e

/-- Modelled from the spec: `mxio_pipe_create(h)`, defined outside the sources,
constructs a Pipe object from a handle. -/
def mxio_pipe_create (h : Nat) : mxio_t := mxio_t.Pipe h

/-- Modelled from the spec: `mxio_null_create()`, defined outside the sources,
constructs a Null object. -/
def mxio_null_create : mxio_t := mxio_t.Null

/-- A call that leaves `unistd.c`: an operation of an object's `ops` table, one
of the three constructors, `mxio_pipe_pair`, the registration `atexit(mxio_exit)`, or
`mxio_start_process_etc`. -/
inductive Call where
  | close (io : mxio_t)
  | open_ (root : mxio_t) (path : String) (flags : Int)
  | clone (io : mxio_t)
  | read (io : mxio_t)
  | write (io : mxio_t)
  | seek (io : mxio_t)
  | misc (io : mxio_t)
  | ioctl (io : mxio_t)
  | wait (io : mxio_t)
  | remote_create (h e : Nat)
  | pipe_create (h : Nat)
  | null_create
  | pipe_pair
  | atexit
  | start_process_etc
  deriving DecidableEq, Repr

/-- Values of the constants that `unistd.c` takes from headers outside the
sources (`magenta/types.h`, `magenta/processargs.h`, `mxio/io.h`,
`mxio/remoteio.h`, `mxio/vfs.h`, `stdint.h`). `SIZEOF_VNATTR` is
`sizeof(vnattr_t)` and `SIZE_MAX` the largest value of `size_t`. -/
structure Consts where
  ERR_INVALID_ARGS : Int
  ERR_ALREADY_EXISTS : Int
  ERR_NO_RESOURCES : Int
  ERR_BAD_HANDLE : Int
  ERR_IO : Int
  ERR_NO_MEMORY : Int
  ERR_NOT_SUPPORTED : Int
  MX_HND_TYPE_PROC_SELF : Nat
  MX_HND_TYPE_MXIO_ROOT : Nat
  MX_HND_TYPE_MXIO_REMOTE : Nat
  MX_HND_TYPE_MXIO_PIPE : Nat
  MXIO_MAX_HANDLES : Nat
  MX_RIO_STAT : Nat
  MX_RIO_READDIR : Nat
  SIZEOF_VNATTR : Nat
  SIZE_MAX : Nat

/-- One admissible choice of the header constants, used for concrete runs. -/
def sampleConsts : Consts where
  ERR_INVALID_ARGS := -8
  ERR_ALREADY_EXISTS := -28
  ERR_NO_RESOURCES := -5
  ERR_BAD_HANDLE := -41
  ERR_IO := -20
  ERR_NO_MEMORY := -4
  ERR_NOT_SUPPORTED := -24
  MX_HND_TYPE_PROC_SELF := 1
  MX_HND_TYPE_MXIO_ROOT := 0x10
  MX_HND_TYPE_MXIO_REMOTE := 0x11
  MX_HND_TYPE_MXIO_PIPE := 0x12
  MXIO_MAX_HANDLES := 3
  MX_RIO_STAT := 7
  MX_RIO_READDIR := 8
  SIZEOF_VNATTR := 24
  SIZE_MAX := 18446744073709551615

/-- Results of the calls that leave the file. Each result may depend on the
calls made so far (first argument), so an object need not answer the same way
twice. `open_` yields the status and the object stored through the out
pointer (`none` when the callee leaves it `NULL`); `pipe_pair` yields the
status and the two ends. `clone` yields the status `r` and what the callee
left in `handles[i]` and `types[i]`; `read` and `write` get the buffer address
and the count; `seek` gets offset and whence; `misc` gets opcode, length and
buffer address and yields the status and the `(mode, size, inode)` that a
`vnattr_t` at the buffer then holds; `ioctl` is `none` for an object whose
`ops->ioctl` is `NULL`, and otherwise gets `op`, `in_len` and `out_len`; `wait`
gets the event mask and yields the status and `*pending`;
`start_process_etc` gets the argument count and the packed
`(handle, tag)` entries. -/
structure Ops where
  close : List Call → mxio_t → Int
  open_ : List Call → mxio_t → String → Int → Int × Option mxio_t
  pipe_pair : List Call → Int × mxio_t × mxio_t
  clone : List Call → mxio_t → Int × (Nat → Nat) × (Nat → Nat)
  read : List Call → mxio_t → Nat → Nat → Int
  write : List Call → mxio_t → Nat → Nat → Int
  seek : List Call → mxio_t → Int → Int → Int
  misc : List Call → mxio_t → Nat → Nat → Nat → Int × (Nat × Nat × Nat)
  ioctl : mxio_t → Option (List Call → Int → Nat → Nat → Int)
  wait : List Call → mxio_t → Nat → Int × Nat
  start_process_etc : List Call → Int → List (Nat × Nat) → Int

/-- The capacity of the table, `#define MAX_MXIO_FD 256`. -/
def MAX_MXIO_FD : Nat := 256

/-- The globals of `unistd.c`. `mxio_fdtab i` is the array element at index `i`;
only indices below `MAX_MXIO_FD` belong to the array. -/
structure State where
  mxio_root_handle : Option mxio_t
  mxio_process_handle : Nat
  mxio_fdtab : Nat → Option mxio_t
  calls : List Call

/-- The state at program start: all globals zero-initialised, nothing called. -/
def State.init : State where
  mxio_root_handle := none
  mxio_process_handle := 0
  mxio_fdtab := fun _ => none
  calls := []

/-- The array with element `i` replaced by `v`: `mxio_fdtab[i] = v`. -/
def fdtab_set (t : Nat → Option mxio_t) (i : Nat) (v : Option mxio_t) :
    Nat → Option mxio_t :=
  fun j => if j = i then v else t j

/-- The assignment `mxio_fdtab[i] = v` on the state. -/
def State.store (s : State) (i : Nat) (v : Option mxio_t) : State :=
  { s with mxio_fdtab := fdtab_set s.mxio_fdtab i v }

/-- Append one call to the log. -/
def State.log (s : State) (c : Call) : State :=
  { s with calls := s.calls ++ [c] }

/-- The function `mxio_install_root`: install `root` unless a root is installed. -/
def mxio_install_root (s : State) (root : Option mxio_t) : State :=
  match s.mxio_root_handle with
  | none => { s with mxio_root_handle := root }
  | some _ => s

/-- The loop `for (fd = 0; fd < MAX_MXIO_FD; fd++)` of `mxio_bind_to_fd`, entered
at `fd` with `k = MAX_MXIO_FD - fd` iterations left. -/
def mxio_bind_scan (K : Consts) (s : State) (io : Option mxio_t) :
    Nat → Nat → Int × State
  | 0, _ => (K.ERR_NO_RESOURCES, s)
  | k + 1, fd =>
    match s.mxio_fdtab fd with
    | none => ((fd : Int), s.store fd io)
    | some _ => mxio_bind_scan K s io k (fd + 1)

/-- The function `mxio_bind_to_fd`: the returned `int` and the globals afterwards. -/
def mxio_bind_to_fd (K : Consts) (s : State) (io : Option mxio_t) (fd : Int) :
    Int × State :=
  if 0 ≤ fd then
    if (MAX_MXIO_FD : Int) ≤ fd then (K.ERR_INVALID_ARGS, s)
    else
      match s.mxio_fdtab fd.toNat with
      | some _ => (K.ERR_ALREADY_EXISTS, s)
      | none => (fd, s.store fd.toNat io)
  else mxio_bind_scan K s io MAX_MXIO_FD 0

/-- The function `fd_to_io`: the object a descriptor resolves to, if any. -/
def fd_to_io (s : State) (fd : Int) : Option mxio_t :=
  if fd < 0 ∨ (MAX_MXIO_FD : Int) ≤ fd then none else s.mxio_fdtab fd.toNat

/-- The loop of `mxio_exit`, entered at `fd` with `k = MAX_MXIO_FD - fd`
iterations left. -/
def mxio_exit_loop : Nat → Nat → State → State
  | 0, _, s => s
  | k + 1, fd, s =>
    match s.mxio_fdtab fd with
    | some io => mxio_exit_loop k (fd + 1) ((s.log (Call.close io)).store fd none)
    | none => mxio_exit_loop k (fd + 1) s

/-- The function `mxio_exit`, the teardown registered with `atexit`. -/
def mxio_exit (s : State) : State := mxio_exit_loop MAX_MXIO_FD 0 s

/-- The function `__close` (`close`): the returned `int` and the globals afterwards. -/
def __close (K : Consts) (O : Ops) (s : State) (fd : Int) : Int × State :=
  match fd_to_io s fd with
  | none => (K.ERR_BAD_HANDLE, s)
  | some io =>
    let r := O.close s.calls io
    (r, (s.log (Call.close io)).store fd.toNat none)

/-- Modelled from the spec: `mx_close(io)` of `mxio/io.h`, outside the sources,
is the object's own close operation, `io->ops->close(io)`. -/
def mx_close (O : Ops) (s : State) (io : mxio_t) : Int × State :=
  (O.close s.calls io, s.log (Call.close io))

/-- The function `__open` (`open`); `path = none` is the `NULL` path. -/
def __open (K : Consts) (O : Ops) (s : State) (path : Option String) (flags : Int) :
    Int × State :=
  match path with
  | none => (K.ERR_INVALID_ARGS, s)
  | some p =>
    match s.mxio_root_handle with
    | none => (K.ERR_BAD_HANDLE, s)
    | some root =>
      let r := (O.open_ s.calls root p flags).1
      let io := (O.open_ s.calls root p flags).2
      let s1 := s.log (Call.open_ root p flags)
      if r < 0 then (r, s1)
      else
        match io with
        | none => (K.ERR_IO, s1)
        | some obj =>
          let b := mxio_bind_to_fd K s1 (some obj) (-1)
          if b.1 < 0 then (K.ERR_NO_RESOURCES, b.2.log (Call.close obj))
          else (b.1, b.2)

/-- The function `pipe`; the argument `pipefd` is the content of the caller's array before
the call, the second component of the result its content afterwards. -/
def pipe (K : Consts) (O : Ops) (s : State) (pipefd : Int × Int) :
    Int × (Int × Int) × State :=
  let r := (O.pipe_pair s.calls).1
  let a := (O.pipe_pair s.calls).2.1
  let b := (O.pipe_pair s.calls).2.2
  let s0 := s.log Call.pipe_pair
  if r < 0 then (r, pipefd, s0)
  else
    let b0 := mxio_bind_to_fd K s0 (some a) (-1)
    if b0.1 < 0 then
      (b0.1, (b0.1, pipefd.2), (mx_close O (mx_close O b0.2 a).2 b).2)
    else
      let b1 := mxio_bind_to_fd K b0.2 (some b) (-1)
      if b1.1 < 0 then
        (b1.1, (b0.1, b1.1), (mx_close O (__close K O b1.2 b0.1).2 b).2)
      else (0, (b0.1, b1.1), b1.2)

/-- Modelled from the spec: `MX_HND_INFO_TYPE(n)` of `magenta/processargs.h`,
outside the sources: the kind of a tag word, its low 16 bits. -/
def MX_HND_INFO_TYPE (n : Nat) : Nat := n % 65536

/-- Modelled from the spec: `MX_HND_INFO_ARG(n)` of `magenta/processargs.h`,
outside the sources: the slot argument of a tag word, `(n >> 16) & 0xFFFF`. -/
def MX_HND_INFO_ARG (n : Nat) : Nat := (n / 65536) % 65536

/-- Modelled from the spec: `MX_HND_INFO(type, arg)` of `magenta/processargs.h`,
outside the sources: the tag word of a kind and a slot argument. -/
def MX_HND_INFO (type arg : Nat) : Nat := type % 65536 + (arg % 65536) * 65536

/-- The bundle `mx_proc_info_t` as far as bootstrap reads it: the arrays
`handle` and `handle_info` and their common length `handle_count`. -/
structure mx_proc_info_t where
  handle : Nat → Nat
  handle_info : Nat → Nat
  handle_count : Nat

/-- The bundle holding the given `(handle, tag word)` pairs in order. -/
def mx_proc_info_t.ofList (l : List (Nat × Nat)) : mx_proc_info_t where
  handle := fun n => (l.getD n (0, 0)).1
  handle_info := fun n => (l.getD n (0, 0)).2
  handle_count := l.length

/-- The array `a` with `a[i] = v`. -/
def arr_set (a : Nat → Nat) (i v : Nat) : Nat → Nat :=
  fun j => if j = i then v else a j

/-- The two assignments `pi->handle[n] = 0; pi->handle_info[n] = 0;` that end
a consuming iteration. -/
def mx_proc_info_t.consume (p : mx_proc_info_t) (n : Nat) : mx_proc_info_t :=
  { p with handle := arr_set p.handle n 0, handle_info := arr_set p.handle_info n 0 }

/-- The assignment `pi->handle_info[n] = v`. -/
def mx_proc_info_t.set_info (p : mx_proc_info_t) (n v : Nat) : mx_proc_info_t :=
  { p with handle_info := arr_set p.handle_info n v }

/-- The unchecked assignment `mxio_fdtab[arg] = io` of bootstrap: defined when
`arg` indexes the array, and `none` (a write outside the array, undefined
behaviour in C) otherwise. -/
def fdtab_write (s : State) (arg : Nat) (io : mxio_t) : Option State :=
  if arg < MAX_MXIO_FD then some (s.store arg (some io)) else none

/-- One iteration of the first loop of `__libc_extensions_init`, at index `n`. -/
def init_step (K : Consts) (p : mx_proc_info_t) (s : State) (n : Nat) :
    Option (mx_proc_info_t × State) :=
  let info := p.handle_info n
  let arg := MX_HND_INFO_ARG info
  let h := p.handle n
  let ty := MX_HND_INFO_TYPE info
  if ty = K.MX_HND_TYPE_MXIO_ROOT then
    some (p.consume n,
      { s.log (Call.remote_create h 0) with
        mxio_root_handle := some (mxio_remote_create h 0) })
  else if ty = K.MX_HND_TYPE_MXIO_REMOTE then
    if n + 1 < p.handle_count ∧ info = p.handle_info (n + 1) then
      (fdtab_write (s.log (Call.remote_create h (p.handle (n + 1)))) arg
        (mxio_remote_create h (p.handle (n + 1)))).map
        (fun s1 => ((p.set_info (n + 1) 0).consume n, s1))
    else
      (fdtab_write (s.log (Call.remote_create h 0)) arg (mxio_remote_create h 0)).map
        (fun s1 => (p.consume n, s1))
  else if ty = K.MX_HND_TYPE_MXIO_PIPE then
    (fdtab_write (s.log (Call.pipe_create h)) arg (mxio_pipe_create h)).map
      (fun s1 => (p.consume n, s1))
  else if ty = K.MX_HND_TYPE_PROC_SELF then
    some (p, { s with mxio_process_handle := h })
  else some (p, s)

/-- The first loop of `__libc_extensions_init`, entered at `n` with
`k = handle_count - n` iterations left. -/
def init_scan (K : Consts) :
    Nat → Nat → mx_proc_info_t → State → Option (mx_proc_info_t × State)
  | 0, _, p, s => some (p, s)
  | k + 1, n, p, s =>
    match init_step K p s n with
    | none => none
    | some r => init_scan K k (n + 1) r.1 r.2

/-- The second loop of `__libc_extensions_init`, `for (n = 0; n < 3; n++)`,
entered at `n` with `k = 3 - n` iterations left. -/
def init_stdio : Nat → Nat → State → State
  | 0, _, s => s
  | k + 1, n, s =>
    match s.mxio_fdtab n with
    | none => init_stdio k (n + 1) ((s.log Call.null_create).store n (some mxio_null_create))
    | some _ => init_stdio k (n + 1) s

/-- The function `__libc_extensions_init`: the bundle and the globals after bootstrap, or
`none` when a table write fell outside the array. -/
def __libc_extensions_init (K : Consts) (p : mx_proc_info_t) (s : State) :
    Option (mx_proc_info_t × State) :=
  (init_scan K p.handle_count 0 p s).map
    (fun r => (r.1, (init_stdio 3 0 r.2).log Call.atexit))

/-- The function `mxio_get_process_handle`. -/
def mxio_get_process_handle (s : State) : Nat := s.mxio_process_handle

/-! ## The subprocess handle packer -/

/-- The cells `0, …, r - 1` of the arrays a clone operation has filled, as
`(handle, tag)` pairs; none when `r ≤ 0`. -/
def clone_cells (r : Int) (hs ts : Nat → Nat) : List (Nat × Nat) :=
  (List.range r.toNat).map (fun i => (hs i, ts i))

/-- The value of `newfd << 16` as a `uint32_t`. -/
def shl16 (newfd : Int) : Nat := ((newfd * 65536) % 4294967296).toNat

/-- The statement `types[i] |= (newfd << 16)` on one tag word. -/
def stamp (newfd : Int) (t : Nat) : Nat := t ||| shl16 newfd

/-- The function `mxio_clone_root`: `none` when `mxio_root_handle` is `NULL`
(the pointer is dereferenced unchecked); otherwise the status, the cells
written to `handles` and `types`, and the globals afterwards. -/
def mxio_clone_root (K : Consts) (O : Ops) (s : State) :
    Option (Int × List (Nat × Nat) × State) :=
  match s.mxio_root_handle with
  | none => none
  | some root =>
    let c := O.clone s.calls root
    let s1 := s.log (Call.clone root)
    if 0 < c.1 then
      some (c.1, clone_cells c.1 c.2.1 (arr_set c.2.2 0 K.MX_HND_TYPE_MXIO_ROOT), s1)
    else some (c.1, [], s1)

/-- The function `mxio_clone_fd`: the status, the cells written to `handles`
and `types`, and the globals afterwards. -/
def mxio_clone_fd (K : Consts) (O : Ops) (s : State) (fd newfd : Int) :
    Int × List (Nat × Nat) × State :=
  match fd_to_io s fd with
  | none => (K.ERR_BAD_HANDLE, [], s)
  | some io =>
    let c := O.clone s.calls io
    let s1 := s.log (Call.clone io)
    if 0 < c.1 then
      (c.1, (clone_cells c.1 c.2.1 c.2.2).map (fun e => (e.1, stamp newfd e.2)), s1)
    else (c.1, [], s1)

/-- The function `mxio_ioctl`. -/
def mxio_ioctl (K : Consts) (O : Ops) (s : State) (fd : Int) (op : Int)
    (in_len out_len : Nat) : Int × State :=
  match fd_to_io s fd with
  | none => (K.ERR_BAD_HANDLE, s)
  | some io =>
    match O.ioctl io with
    | none => (K.ERR_NOT_SUPPORTED, s)
    | some f => (f s.calls op in_len out_len, s.log (Call.ioctl io))

/-- The `size_t` value of `a + r` for a `size_t` `a` and an `int` `r`. -/
def size_add (K : Consts) (a : Nat) (r : Int) : Nat :=
  (((a : Int) + r) % ((K.SIZE_MAX : Int) + 1)).toNat

/-- The `size_t` value of `a - r` for a `size_t` `a` and an `int` `r`. -/
def size_sub (K : Consts) (a : Nat) (r : Int) : Nat :=
  (((a : Int) - r) % ((K.SIZE_MAX : Int) + 1)).toNat

/-- The value of a `size_t` converted to the 32-bit `mx_status_t`. -/
def to_status (n : Nat) : Int :=
  if n % 4294967296 < 2147483648 then ((n % 4294967296 : Nat) : Int)
  else ((n % 4294967296 : Nat) : Int) - 4294967296

/-- The loop of `mxio_create_subprocess_handles`, entered at `fd` with
`k = MAX_MXIO_FD - fd` iterations left at most. `out` lists the cells written
so far as `(index, (handle, tag))`. The result holds the loop variables `fd`,
`n`, `count` at exit, the cells written, and the globals. -/
def create_loop (K : Consts) (O : Ops) :
    Nat → Nat → Nat → Nat → List (Nat × Nat × Nat) → State →
      Nat × Nat × Nat × List (Nat × Nat × Nat) × State
  | 0, fd, n, count, out, s => (fd, n, count, out, s)
  | k + 1, fd, n, count, out, s =>
    if count < K.MXIO_MAX_HANDLES then (fd, n, count, out, s)
    else
      let c := mxio_clone_fd K O s (fd : Int) (fd : Int)
      if c.1 ≤ 0 then create_loop K O k (fd + 1) n count out c.2.2
      else
        create_loop K O k (fd + 1) (size_add K n c.1) (size_sub K count c.1)
          (out ++ List.enumFrom n c.2.1) c.2.2

/-- The function `mxio_create_subprocess_handles`: `none` when the root pointer
is dereferenced while `NULL`; otherwise the returned status, the cells written
to the output arrays as `(index, (handle, tag))`, and the globals. -/
def mxio_create_subprocess_handles (K : Consts) (O : Ops) (s : State) (count : Nat) :
    Option (Int × List (Nat × Nat × Nat) × State) :=
  if count < K.MXIO_MAX_HANDLES then some (K.ERR_NO_MEMORY, [], s)
  else
    match mxio_clone_root K O s with
    | none => none
    | some c =>
      if c.1 < 0 then some (c.1, List.enumFrom 0 c.2.1, c.2.2)
      else
        let l := create_loop K O MAX_MXIO_FD 0 (size_add K 0 c.1) (size_sub K count c.1)
          (List.enumFrom 0 c.2.1) c.2.2
        some (to_status l.2.1, l.2.2.2.1, l.2.2.2.2)

/-- The length of the array `hnd` of `mxio_start_process`. -/
def start_process_hnd_len (K : Consts) : Nat := (2 + MAX_MXIO_FD) * K.MXIO_MAX_HANDLES

/-- The length of the array `ids` of `mxio_start_process`. -/
def start_process_ids_len (K : Consts) : Nat := (2 + MAX_MXIO_FD) + K.MXIO_MAX_HANDLES

/-- The capacity that `mxio_start_process` passes to the packer. -/
def start_process_capacity (K : Consts) : Nat := (1 + MAX_MXIO_FD) * K.MXIO_MAX_HANDLES

/-- The function `mxio_start_process`: `none` when the packer is undefined or
writes a cell outside `hnd` or `ids` (undefined behaviour in C). -/
def mxio_start_process (K : Consts) (O : Ops) (s : State) (args_count : Int) :
    Option (Int × State) :=
  match mxio_create_subprocess_handles K O s (start_process_capacity K) with
  | none => none
  | some c =>
    if c.2.1.all (fun e => decide (e.1 < start_process_hnd_len K) &&
        decide (e.1 < start_process_ids_len K)) then
      if c.1 < 0 then some (c.1, c.2.2)
      else
        some (O.start_process_etc c.2.2.calls args_count (c.2.1.map Prod.snd),
          c.2.2.log Call.start_process_etc)
    else none

/-! ## The dispatching entry points -/

/-- The function `mxio_wait_fd`: the status, `*pending` afterwards, the globals. -/
def mxio_wait_fd (K : Consts) (O : Ops) (s : State) (fd : Int) (events pending : Nat) :
    Int × Nat × State :=
  match fd_to_io s fd with
  | none => (K.ERR_BAD_HANDLE, pending, s)
  | some io => ((O.wait s.calls io events).1, (O.wait s.calls io events).2,
      s.log (Call.wait io))

/-- The function `read`; `buf = none` is the `NULL` buffer. -/
def read (K : Consts) (O : Ops) (s : State) (fd : Int) (buf : Option Nat) (count : Nat) :
    Int × State :=
  match fd_to_io s fd with
  | none => (K.ERR_BAD_HANDLE, s)
  | some io =>
    match buf with
    | none => (K.ERR_INVALID_ARGS, s)
    | some b => (O.read s.calls io b count, s.log (Call.read io))

/-- The function `write`; `buf = none` is the `NULL` buffer. -/
def write (K : Consts) (O : Ops) (s : State) (fd : Int) (buf : Option Nat) (count : Nat) :
    Int × State :=
  match fd_to_io s fd with
  | none => (K.ERR_BAD_HANDLE, s)
  | some io =>
    match buf with
    | none => (K.ERR_INVALID_ARGS, s)
    | some b => (O.write s.calls io b count, s.log (Call.write io))

/-- The function `lseek`. -/
def lseek (K : Consts) (O : Ops) (s : State) (fd : Int) (offset whence : Int) :
    Int × State :=
  match fd_to_io s fd with
  | none => (K.ERR_BAD_HANDLE, s)
  | some io => (O.seek s.calls io offset whence, s.log (Call.seek io))

/-- The function `getdirents`. -/
def getdirents (K : Consts) (O : Ops) (s : State) (fd : Int) (ptr len : Nat) :
    Int × State :=
  match fd_to_io s fd with
  | none => (K.ERR_BAD_HANDLE, s)
  | some io => ((O.misc s.calls io K.MX_RIO_READDIR len ptr).1, s.log (Call.misc io))

/-- The function `mx_stat`: the status, the `(st_mode, st_size, st_ino)` of
`*s` afterwards (all its other fields are then zero) or `none` when `*s` was
not written, and the globals. `attr` is the address of the local `vnattr_t`. -/
def mx_stat (K : Consts) (O : Ops) (s : State) (io : mxio_t) (attr : Nat) :
    Int × Option (Nat × Nat × Nat) × State :=
  let m := O.misc s.calls io K.MX_RIO_STAT K.SIZEOF_VNATTR attr
  let s1 := s.log (Call.misc io)
  if m.1 < 0 then (m.1, none, s1)
  else if m.1 < (K.SIZEOF_VNATTR : Int) then (K.ERR_IO, none, s1)
  else (0, some m.2, s1)

/-- The function `fstat`. -/
def fstat (K : Consts) (O : Ops) (s : State) (fd : Int) (attr : Nat) :
    Int × Option (Nat × Nat × Nat) × State :=
  match fd_to_io s fd with
  | none => (K.ERR_BAD_HANDLE, none, s)
  | some io => mx_stat K O s io attr

/-! ## Predicates used to state the properties -/

/-- Slot `i` is the smallest empty slot of the table. -/
def FirstFree (s : State) (i : Nat) : Prop :=
  i < MAX_MXIO_FD ∧ s.mxio_fdtab i = none ∧ ∀ j, j < i → s.mxio_fdtab j ≠ none

instance (s : State) (i : Nat) : Decidable (FirstFree s i) := by
  unfold FirstFree
  infer_instance

/-- Every slot of the table is occupied. -/
def TableFull (s : State) : Prop :=
  ∀ i, i < MAX_MXIO_FD → s.mxio_fdtab i ≠ none

instance (s : State) : Decidable (TableFull s) := by
  unfold TableFull
  infer_instance

/-- Slots `i < j` are the two smallest empty slots of the table. -/
def TwoFirstFree (s : State) (i j : Nat) : Prop :=
  i < j ∧ j < MAX_MXIO_FD ∧ s.mxio_fdtab i = none ∧ s.mxio_fdtab j = none ∧
    ∀ k, k < j → k ≠ i → s.mxio_fdtab k ≠ none

instance (s : State) (i j : Nat) : Decidable (TwoFirstFree s i j) := by
  unfold TwoFirstFree
  infer_instance

/-- Slot `i` is the only empty slot of the table. -/
def OnlyFree (s : State) (i : Nat) : Prop :=
  i < MAX_MXIO_FD ∧ s.mxio_fdtab i = none ∧
    ∀ k, k < MAX_MXIO_FD → k ≠ i → s.mxio_fdtab k ≠ none

instance (s : State) (i : Nat) : Decidable (OnlyFree s i) := by
  unfold OnlyFree
  infer_instance

/-- One behaviour of the objects, used for concrete runs: every close fails
with status `-7`, the root opens a Remote object, `mxio_pipe_pair` succeeds; a
Remote object clones into one handle, or two when it has an event handle, a
Pipe into one, a Null object refuses; only Remote objects have an ioctl. -/
def sampleOps : Ops where
  close := fun _ _ => -7
  open_ := fun _ _ p _ => (0, some (mxio_t.Remote p.length 0))
  pipe_pair := fun _ => (0, mxio_t.Pipe 100, mxio_t.Pipe 101)
  clone := fun _ io =>
    match io with
    | mxio_t.Remote h e =>
      (if e = 0 then 1 else 2, fun i => if i = 0 then h + 1000 else e + 1000, fun _ => 0x11)
    | mxio_t.Pipe h => (1, fun _ => h + 1000, fun _ => 0x12)
    | mxio_t.Null => (-24, fun _ => 0, fun _ => 0)
  read := fun _ _ _ count => count
  write := fun _ _ _ count => count
  seek := fun _ _ offset _ => offset
  misc := fun _ _ _ len _ => (len, (1, 2, 3))
  ioctl := fun io =>
    match io with
    | mxio_t.Remote _ _ => some (fun _ op _ _ => op)
    | _ => none
  wait := fun _ _ events => (0, events)
  start_process_etc := fun _ _ l => l.length

/-- The reuse scenario of first-fit binding: bind `a`, `b`, `c` with a negative
request, close the slot returned for `b`, bind `d` with a negative request. The
result holds the four values returned by `mxio_bind_to_fd`, in order, and the
final state. -/
def bind3_close_bind (K : Consts) (O : Ops) (s : State) (a b c d : mxio_t) :
    (Int × Int × Int × Int) × State :=
  let r1 := mxio_bind_to_fd K s (some a) (-1)
  let r2 := mxio_bind_to_fd K r1.2 (some b) (-1)
  let r3 := mxio_bind_to_fd K r2.2 (some c) (-1)
  let cl := __close K O r3.2 r2.1
  let r4 := mxio_bind_to_fd K cl.2 (some d) (-1)
  ((r1.1, r2.1, r3.1, r4.1), r4.2)

/-- The tag kinds of bootstrap are pairwise different (they label the cases of
one `switch`) and none of them is the kind `0` of a nulled tag word. -/
def TagsOk (K : Consts) : Prop :=
  K.MX_HND_TYPE_MXIO_ROOT ≠ 0 ∧ K.MX_HND_TYPE_MXIO_REMOTE ≠ 0 ∧
  K.MX_HND_TYPE_MXIO_PIPE ≠ 0 ∧ K.MX_HND_TYPE_PROC_SELF ≠ 0 ∧
  K.MX_HND_TYPE_MXIO_ROOT ≠ K.MX_HND_TYPE_MXIO_REMOTE ∧
  K.MX_HND_TYPE_MXIO_ROOT ≠ K.MX_HND_TYPE_MXIO_PIPE ∧
  K.MX_HND_TYPE_MXIO_ROOT ≠ K.MX_HND_TYPE_PROC_SELF ∧
  K.MX_HND_TYPE_MXIO_REMOTE ≠ K.MX_HND_TYPE_MXIO_PIPE ∧
  K.MX_HND_TYPE_MXIO_REMOTE ≠ K.MX_HND_TYPE_PROC_SELF ∧
  K.MX_HND_TYPE_MXIO_PIPE ≠ K.MX_HND_TYPE_PROC_SELF

instance (K : Consts) : Decidable (TagsOk K) := by
  unfold TagsOk
  infer_instance

/-- Every remote-object or pipe-endpoint entry of the bundle names a slot inside
the table. -/
def InRange (K : Consts) (p : mx_proc_info_t) : Prop :=
  ∀ m, m < p.handle_count →
    (MX_HND_INFO_TYPE (p.handle_info m) = K.MX_HND_TYPE_MXIO_REMOTE ∨
      MX_HND_INFO_TYPE (p.handle_info m) = K.MX_HND_TYPE_MXIO_PIPE) →
    MX_HND_INFO_ARG (p.handle_info m) < MAX_MXIO_FD

instance (K : Consts) (p : mx_proc_info_t) : Decidable (InRange K p) := by
  unfold InRange
  infer_instance

/-- The bundle `[(1, RootTag), (2, RootTag)]` under `sampleConsts`. -/
def twoRoots : mx_proc_info_t := mx_proc_info_t.ofList [(1, 16), (2, 16)]

/-- The bundle `[(5, RemoteTag@3), (6, RemoteTag@3)]` under `sampleConsts`. -/
def remotePair : mx_proc_info_t := mx_proc_info_t.ofList [(5, 196625), (6, 196625)]

/-- The bundle `[(5, RemoteTag@3), (6, RemoteTag@3), (7, RemoteTag@3)]` under
`sampleConsts`. -/
def remoteTriple : mx_proc_info_t :=
  mx_proc_info_t.ofList [(5, 196625), (6, 196625), (7, 196625)]

/-- The bundle `[(h0, RootTag), (h1, RemoteTag@3), (h2, RemoteTag@3)]` under
`sampleConsts`. -/
def rootAndPair (h0 h1 h2 : Nat) : mx_proc_info_t :=
  mx_proc_info_t.ofList [(h0, 16), (h1, 196625), (h2, 196625)]

/-- The bundle `[(5, RemoteTag@300)]` under `sampleConsts`: a remote-object tag
whose slot argument is 300. -/
def remoteAt300 : mx_proc_info_t := mx_proc_info_t.ofList [(5, 19660817)]

/-- A state with a root installed and all 256 slots bound to Remote objects
that have an event handle, so that under `sampleOps` every clone yields two
handles. -/
def fullState : State where
  mxio_root_handle := some (mxio_t.Remote 1 2)
  mxio_process_handle := 0
  mxio_fdtab := fun i => some (mxio_t.Remote (i + 3) 1)
  calls := []

/-- The calls logged once the packer has cloned the root and visited the slots
`0, …, m - 1`: one clone of the root, then one clone per occupied slot, in
ascending slot order. -/
def pack_hist (s : State) (root : mxio_t) (m : Nat) : List Call :=
  s.calls ++ Call.clone root ::
    (List.range m).filterMap (fun j => (s.mxio_fdtab j).map Call.clone)

/-- The cells the root contributes to the packed bundle: its clone output with
the first tag set to the root kind, nothing when its clone returns no positive
count. -/
def root_cells (K : Consts) (O : Ops) (s : State) (root : mxio_t) : List (Nat × Nat) :=
  if 0 < (O.clone s.calls root).1 then
    clone_cells (O.clone s.calls root).1 (O.clone s.calls root).2.1
      (arr_set (O.clone s.calls root).2.2 0 K.MX_HND_TYPE_MXIO_ROOT)
  else []

/-- The cells slot `j` contributes to the packed bundle: nothing when the slot
is empty or its object's clone returns no positive count, and otherwise the
clone output with every tag stamped with `j`. The clone is asked after the
root and the occupied slots below `j`. -/
def pack_cells (O : Ops) (s : State) (root : mxio_t) (j : Nat) : List (Nat × Nat) :=
  match s.mxio_fdtab j with
  | none => []
  | some io =>
    if 0 < (O.clone (pack_hist s root j) io).1 then
      (clone_cells (O.clone (pack_hist s root j) io).1 (O.clone (pack_hist s root j) io).2.1
        (O.clone (pack_hist s root j) io).2.2).map (fun e => (e.1, stamp (j : Int) e.2))
    else []

/-- The loop state `(fd, n, count, cells, globals)` at which the loop of
`mxio_create_subprocess_handles` exits, when a root `root` is installed and its
clone returned no error. -/
def packer_loop (K : Consts) (O : Ops) (s : State) (count : Nat) (root : mxio_t) :
    Nat × Nat × Nat × List (Nat × Nat × Nat) × State :=
  create_loop K O MAX_MXIO_FD 0 (size_add K 0 (O.clone s.calls root).1)
    (size_sub K count (O.clone s.calls root).1)
    (List.enumFrom 0 (root_cells K O s root)) (s.log (Call.clone root))

/-- A state with a root, a Pipe at slot 0 and a Remote object with an event
handle at slot 2. -/
def sampleState : State where
  mxio_root_handle := some (mxio_t.Remote 1 0)
  mxio_process_handle := 0
  mxio_fdtab := fun i =>
    if i = 0 then some (mxio_t.Pipe 7) else if i = 2 then some (mxio_t.Remote 8 9) else none
  calls := []

/-- No object is held by two slots of the table. -/
def NoShared (s : State) : Prop :=
  ∀ i j, i < MAX_MXIO_FD → j < MAX_MXIO_FD → i ≠ j →
    ∀ x, s.mxio_fdtab i = some x → s.mxio_fdtab j ≠ some x

/-- A table operation: `mxio_bind_to_fd` of an object at a requested slot,
`close`, `open`, `pipe`, or the teardown `mxio_exit`. -/
inductive TableOp where
  | bind (io : mxio_t) (fd : Int)
  | close (fd : Int)
  | open_ (path : Option String) (flags : Int)
  | pipe
  | exit

/-- The globals after one table operation. -/
def table_step (K : Consts) (O : Ops) (s : State) : TableOp → State
  | TableOp.bind io fd => (mxio_bind_to_fd K s (some io) fd).2
  | TableOp.close fd => (__close K O s fd).2
  | TableOp.open_ path flags => (__open K O s path flags).2
  | TableOp.pipe => (pipe K O s (0, 0)).2.2
  | TableOp.exit => mxio_exit s

/-- The globals after a sequence of table operations. -/
def table_run (K : Consts) (O : Ops) (s : State) : List TableOp → State
  | [] => s
  | op :: ops => table_run K O (table_step K O s op) ops

/-- The error codes returned by the table operations are negative, as the
callers assume when they test a result with `< 0`. -/
def ErrNeg (K : Consts) : Prop :=
  K.ERR_INVALID_ARGS < 0 ∧ K.ERR_ALREADY_EXISTS < 0 ∧ K.ERR_NO_RESOURCES < 0 ∧
  K.ERR_BAD_HANDLE < 0 ∧ K.ERR_IO < 0

instance (K : Consts) : Decidable (ErrNeg K) := by
  unfold ErrNeg
  infer_instance

/-- The globals together with the identity of the object each slot holds: the
table of the program is an array of pointers, `st.mxio_fdtab i` is the content
of the object slot `i` points to and `addr i` is the address of that object
(meaningful where the slot is occupied). Two objects with the same content, two
Null objects say, have different addresses. -/
structure PtrState where
  st : State
  addr : Nat → Nat

/-- A table operation with the identities of the objects it brings:
`bind p io fd` is `mxio_bind_to_fd(io, fd)` for the object at address `p` with
content `io`; `open_ path flags p` is `open`, where `p` is the address of the
object the root's open creates; `pipe pa pb` is `pipe`, where `pa` and `pb`
are the addresses of the two ends `mxio_pipe_pair` creates. -/
inductive PtrOp where
  | bind (p : Nat) (io : mxio_t) (fd : Int)
  | close (fd : Int)
  | open_ (path : Option String) (flags : Int) (p : Nat)
  | pipe (pa pb : Nat)
  | exit

/-- The operation without the identities. -/
def PtrOp.erase : PtrOp → TableOp
  | PtrOp.bind _ io fd => TableOp.bind io fd
  | PtrOp.close fd => TableOp.close fd
  | PtrOp.open_ path flags _ => TableOp.open_ path flags
  | PtrOp.pipe _ _ => TableOp.pipe
  | PtrOp.exit => TableOp.exit

/-- The objects an operation brings to the table of the globals `s`, each as
its address and its content: the object passed to `mxio_bind_to_fd`, the object
the root's open creates, the two ends `mxio_pipe_pair` creates. -/
def PtrOp.brings (O : Ops) (s : State) : PtrOp → List (Nat × mxio_t)
  | PtrOp.bind p io _ => [(p, io)]
  | PtrOp.close _ => []
  | PtrOp.open_ path flags p =>
    match path, s.mxio_root_handle with
    | some pth, some root =>
      match (O.open_ s.calls root pth flags).2 with
      | some obj => [(p, obj)]
      | none => []
    | _, _ => []
  | PtrOp.pipe pa pb => [(pa, (O.pipe_pair s.calls).2.1), (pb, (O.pipe_pair s.calls).2.2)]
  | PtrOp.exit => []

/-- One table operation on the globals with identities. The globals change as
the operation says. A successful `mxio_bind_to_fd` or `open` returns the slot
that now holds the object, a successful `pipe` returns 0 and the two slots in
`pipefd`; the address of the object is recorded at that slot. A failed
operation records nothing. -/
def ptr_step (K : Consts) (O : Ops) (σ : PtrState) : PtrOp → PtrState
  | PtrOp.bind p io fd =>
    { st := (mxio_bind_to_fd K σ.st (some io) fd).2
      addr := if 0 ≤ (mxio_bind_to_fd K σ.st (some io) fd).1 then
          arr_set σ.addr (mxio_bind_to_fd K σ.st (some io) fd).1.toNat p
        else σ.addr }
  | PtrOp.close fd => { st := (__close K O σ.st fd).2, addr := σ.addr }
  | PtrOp.open_ path flags p =>
    { st := (__open K O σ.st path flags).2
      addr := if 0 ≤ (__open K O σ.st path flags).1 then
          arr_set σ.addr (__open K O σ.st path flags).1.toNat p
        else σ.addr }
  | PtrOp.pipe pa pb =>
    { st := (pipe K O σ.st (0, 0)).2.2
      addr := if (pipe K O σ.st (0, 0)).1 = 0 then
          arr_set (arr_set σ.addr (pipe K O σ.st (0, 0)).2.1.1.toNat pa)
            (pipe K O σ.st (0, 0)).2.1.2.toNat pb
        else σ.addr }
  | PtrOp.exit => { st := mxio_exit σ.st, addr := σ.addr }

/-- The globals with identities after a sequence of table operations. -/
def ptr_run (K : Consts) (O : Ops) (σ : PtrState) : List PtrOp → PtrState
  | [] => σ
  | op :: ops => ptr_run K O (ptr_step K O σ op) ops

/-- No object is held by two slots: two different occupied slots hold objects
at different addresses. -/
def PtrNoShared (σ : PtrState) : Prop :=
  ∀ i j, i < MAX_MXIO_FD → j < MAX_MXIO_FD → i ≠ j →
    σ.st.mxio_fdtab i ≠ none → σ.st.mxio_fdtab j ≠ none → σ.addr i ≠ σ.addr j

/-- The object at address `p` is held by no slot. -/
def PtrAbsent (σ : PtrState) (p : Nat) : Prop :=
  ∀ i, i < MAX_MXIO_FD → σ.st.mxio_fdtab i ≠ none → σ.addr i ≠ p

instance (σ : PtrState) (p : Nat) : Decidable (PtrAbsent σ p) := by
  unfold PtrAbsent
  infer_instance

/-- The operation brings only new objects to the table: the object passed to
`mxio_bind_to_fd`, the object the root's open creates and the two ends
`mxio_pipe_pair` creates are held by no slot, and the two ends are two
objects. -/
def PtrFreshOp (σ : PtrState) : PtrOp → Prop
  | PtrOp.bind p _ _ => PtrAbsent σ p
  | PtrOp.open_ _ _ p => PtrAbsent σ p
  | PtrOp.pipe pa pb => PtrAbsent σ pa ∧ PtrAbsent σ pb ∧ pa ≠ pb
  | PtrOp.close _ => True
  | PtrOp.exit => True

/-- Every operation of the sequence brings only new objects to the table it
meets. -/
def PtrFreshRun (K : Consts) (O : Ops) (σ : PtrState) : List PtrOp → Prop
  | [] => True
  | op :: ops => PtrFreshOp σ op ∧ PtrFreshRun K O (ptr_step K O σ op) ops

/-- The empty table with the root `Remote(1, 0)` installed; no address is
recorded. -/
def rootedEmpty : PtrState where
  st := mxio_install_root State.init (some (mxio_t.Remote 1 0))
  addr := fun _ => 0

/-- A run of table operations used as a concrete input: two Null objects at the
addresses 10 and 11 are bound, `open` creates an object at address 12, `pipe`
creates its ends at the addresses 13 and 14, and slot 2 is closed. -/
def sampleRun : List PtrOp :=
  [PtrOp.bind 10 mxio_t.Null (-1), PtrOp.bind 11 mxio_t.Null 5,
    PtrOp.open_ (some "ab") 0 12, PtrOp.pipe 13 14, PtrOp.close 2]

/-- The cells the packer has written when it reaches slot `j`: the root's
cells followed, in ascending slot order, by the cells of the slots below `j`. -/
def cells_before (K : Consts) (O : Ops) (s : State) (root : mxio_t) (j : Nat) :
    List (Nat × Nat) :=
  root_cells K O s root ++ (List.range j).flatMap (pack_cells O s root)

/-- The capacity that remains when the packer reaches slot `j`: the capacity
less the number of cells written for the root and the slots below `j`, as a
`size_t`. -/
def remaining (K : Consts) (O : Ops) (s : State) (count : Nat) (root : mxio_t) (j : Nat) :
    Nat :=
  size_sub K count ((cells_before K O s root j).length : Int)

/-! ## Basic facts about the state updates -/

@[simp] theorem fdtab_set_same (t : Nat → Option mxio_t) (i : Nat) (v : Option mxio_t) :
    fdtab_set t i v i = v := by
  simp [fdtab_set]

theorem fdtab_set_other (t : Nat → Option mxio_t) (i j : Nat) (v : Option mxio_t)
    (h : j ≠ i) : fdtab_set t i v j = t j := by
  simp [fdtab_set, h]

theorem fdtab_set_self (t : Nat → Option mxio_t) (i : Nat) :
    fdtab_set t i (t i) = t := by
  funext j
  by_cases h : j = i
  · subst h; simp [fdtab_set]
  · simp [fdtab_set, h]

theorem fdtab_set_set (t : Nat → Option mxio_t) (i : Nat) (v w : Option mxio_t) :
    fdtab_set (fdtab_set t i v) i w = fdtab_set t i w := by
  funext j
  by_cases h : j = i <;> simp [fdtab_set, h]

@[simp] theorem store_fdtab (s : State) (i : Nat) (v : Option mxio_t) :
    (s.store i v).mxio_fdtab = fdtab_set s.mxio_fdtab i v := rfl

@[simp] theorem store_root (s : State) (i : Nat) (v : Option mxio_t) :
    (s.store i v).mxio_root_handle = s.mxio_root_handle := rfl

@[simp] theorem store_process (s : State) (i : Nat) (v : Option mxio_t) :
    (s.store i v).mxio_process_handle = s.mxio_process_handle := rfl

@[simp] theorem store_calls (s : State) (i : Nat) (v : Option mxio_t) :
    (s.store i v).calls = s.calls := rfl

@[simp] theorem log_fdtab (s : State) (c : Call) :
    (s.log c).mxio_fdtab = s.mxio_fdtab := rfl

@[simp] theorem log_root (s : State) (c : Call) :
    (s.log c).mxio_root_handle = s.mxio_root_handle := rfl

@[simp] theorem log_process (s : State) (c : Call) :
    (s.log c).mxio_process_handle = s.mxio_process_handle := rfl

@[simp] theorem log_calls (s : State) (c : Call) :
    (s.log c).calls = s.calls ++ [c] := rfl

theorem store_self (s : State) (i : Nat) : s.store i (s.mxio_fdtab i) = s := by
  cases s
  simp [State.store, fdtab_set_self]

theorem store_store (s : State) (i : Nat) (v w : Option mxio_t) :
    (s.store i v).store i w = s.store i w := by
  simp [State.store, fdtab_set_set]

theorem store_log (s : State) (i : Nat) (v : Option mxio_t) (c : Call) :
    (s.store i v).log c = (s.log c).store i v := rfl

/-- Resolving a slot inside the array reads the array. -/
theorem fd_to_io_of_lt (s : State) (i : Nat) (h : i < MAX_MXIO_FD) :
    fd_to_io s (i : Int) = s.mxio_fdtab i := by
  have h1 : ¬ ((i : Int) < 0 ∨ (MAX_MXIO_FD : Int) ≤ (i : Int)) := by omega
  rw [fd_to_io, if_neg h1, Int.toNat_ofNat]

/-- Resolving never depends on the call log. -/
@[simp] theorem fd_to_io_log (s : State) (c : Call) (fd : Int) :
    fd_to_io (s.log c) fd = fd_to_io s fd := rfl

/-- Resolving after a store inside the array. -/
theorem fd_to_io_store (s : State) (i : Nat) (v : Option mxio_t) (fd : Int)
    (hi : i < MAX_MXIO_FD) :
    fd_to_io (s.store i v) fd = if fd = (i : Int) then v else fd_to_io s fd := by
  unfold fd_to_io
  by_cases hr : fd < 0 ∨ (MAX_MXIO_FD : Int) ≤ fd
  · have hne : fd ≠ (i : Int) := by omega
    rw [if_pos hr, if_pos hr, if_neg hne]
  · by_cases he : fd = (i : Int)
    · subst he
      rw [if_neg hr, if_pos rfl, Int.toNat_ofNat, store_fdtab, fdtab_set_same]
    · have hne : fd.toNat ≠ i := by omega
      rw [if_neg hr, if_neg hr, if_neg he, store_fdtab, fdtab_set_other _ _ _ _ hne]

/-! ## The first-fit scan -/

theorem mxio_bind_scan_full (K : Consts) (s : State) (io : Option mxio_t) :
    ∀ (k fd : Nat), (∀ j, fd ≤ j → j < fd + k → s.mxio_fdtab j ≠ none) →
      mxio_bind_scan K s io k fd = (K.ERR_NO_RESOURCES, s) := by
  intro k
  induction k with
  | zero => intro fd _; rfl
  | succ k ih =>
    intro fd h
    have h0 : s.mxio_fdtab fd ≠ none := h fd (le_refl _) (by omega)
    obtain ⟨x, hx⟩ := Option.ne_none_iff_exists'.mp h0
    simp only [mxio_bind_scan, hx]
    exact ih (fd + 1) (fun j h1 h2 => h j (by omega) (by omega))

theorem mxio_bind_scan_first (K : Consts) (s : State) (io : Option mxio_t) (i : Nat)
    (hfree : s.mxio_fdtab i = none) :
    ∀ (k fd : Nat), fd ≤ i → i < fd + k →
      (∀ j, fd ≤ j → j < i → s.mxio_fdtab j ≠ none) →
      mxio_bind_scan K s io k fd = ((i : Int), s.store i io) := by
  intro k
  induction k with
  | zero => intro fd h1 h2 _; omega
  | succ k ih =>
    intro fd h1 h2 h
    by_cases he : fd = i
    · subst he
      simp only [mxio_bind_scan, hfree]
    · have h0 : s.mxio_fdtab fd ≠ none := h fd (le_refl _) (by omega)
      obtain ⟨x, hx⟩ := Option.ne_none_iff_exists'.mp h0
      simp only [mxio_bind_scan, hx]
      exact ih (fd + 1) (by omega) (by omega) (fun j h3 h4 => h j (by omega) h4)

theorem firstFree_or_full (s : State) : TableFull s ∨ ∃ i, FirstFree s i := by
  classical
  by_cases h : ∃ i, i < MAX_MXIO_FD ∧ s.mxio_fdtab i = none
  · right
    refine ⟨Nat.find h, (Nat.find_spec h).1, (Nat.find_spec h).2, ?_⟩
    intro j hj hnone
    exact Nat.find_min h hj ⟨lt_trans hj (Nat.find_spec h).1, hnone⟩
  · left
    intro i hi hnone
    exact h ⟨i, hi, hnone⟩

theorem firstFree_unique (s : State) (i j : Nat) (hi : FirstFree s i) (hj : FirstFree s j) :
    i = j := by
  rcases Nat.lt_trichotomy i j with h | h | h
  · exact absurd hi.2.1 (hj.2.2 i h)
  · exact h
  · exact absurd hj.2.1 (hi.2.2 j h)

theorem bind_auto_first (K : Consts) (s : State) (io : Option mxio_t) (fd : Int)
    (hfd : fd < 0) (i : Nat) (hi : FirstFree s i) :
    mxio_bind_to_fd K s io fd = ((i : Int), s.store i io) := by
  have h0 : ¬ (0 ≤ fd) := by omega
  simp only [mxio_bind_to_fd, h0, if_false]
  exact mxio_bind_scan_first K s io i hi.2.1 MAX_MXIO_FD 0 (Nat.zero_le _)
    (by have := hi.1; omega) (fun j _ hj => hi.2.2 j hj)

theorem bind_auto_full (K : Consts) (s : State) (io : Option mxio_t) (fd : Int)
    (hfd : fd < 0) (hfull : TableFull s) :
    mxio_bind_to_fd K s io fd = (K.ERR_NO_RESOURCES, s) := by
  have h0 : ¬ (0 ≤ fd) := by omega
  simp only [mxio_bind_to_fd, h0, if_false]
  exact mxio_bind_scan_full K s io MAX_MXIO_FD 0 (fun j _ hj => hfull j (by omega))

/-- A bind that returns a non-negative result stored the object at the returned
slot, which was empty and inside the array. -/
theorem bind_success (K : Consts) (s : State) (io : Option mxio_t) (req : Int)
    (h1 : K.ERR_INVALID_ARGS < 0) (h2 : K.ERR_ALREADY_EXISTS < 0)
    (h3 : K.ERR_NO_RESOURCES < 0) (hok : 0 ≤ (mxio_bind_to_fd K s io req).1) :
    ∃ i, i < MAX_MXIO_FD ∧ s.mxio_fdtab i = none ∧
      (req < 0 → FirstFree s i) ∧ (0 ≤ req → req = (i : Int)) ∧
      mxio_bind_to_fd K s io req = ((i : Int), s.store i io) := by
  by_cases hreq : 0 ≤ req
  · by_cases hmax : (MAX_MXIO_FD : Int) ≤ req
    · simp only [mxio_bind_to_fd, hreq, hmax, if_true] at hok
      omega
    · cases hslot : s.mxio_fdtab req.toNat with
      | some x =>
        simp only [mxio_bind_to_fd, hreq, hmax, if_true, if_false, hslot] at hok
        omega
      | none =>
        refine ⟨req.toNat, by omega, hslot, fun h => by omega, fun _ => by omega, ?_⟩
        simp only [mxio_bind_to_fd, hreq, hmax, if_true, if_false, hslot]
        rw [Int.toNat_of_nonneg hreq]
  · have hneg : req < 0 := by omega
    rcases firstFree_or_full s with hfull | ⟨i, hi⟩
    · rw [bind_auto_full K s io req hneg hfull] at hok
      simp only at hok
      omega
    · exact ⟨i, hi.1, hi.2.1, fun _ => hi, fun h => absurd h hreq,
        bind_auto_first K s io req hneg i hi⟩

/-! ## C1: binding at an explicit slot -/

/-- C1: for a requested slot `fd ≥ 0`, `mxio_bind_to_fd` returns
`ERR_INVALID_ARGS` when `fd ≥ 256` and `ERR_ALREADY_EXISTS` when slot `fd` is
occupied, leaving the whole state unchanged in both cases; otherwise it returns
`fd`, slot `fd` then resolves to exactly `io`, and every other slot (and every
other global) is unchanged. -/
theorem mxio_bind_to_fd_explicit (K : Consts) (s : State) (io : mxio_t) (fd : Int)
    (hfd : 0 ≤ fd) :
    ((MAX_MXIO_FD : Int) ≤ fd →
      mxio_bind_to_fd K s (some io) fd = (K.ERR_INVALID_ARGS, s)) ∧
    (fd_to_io s fd ≠ none →
      mxio_bind_to_fd K s (some io) fd = (K.ERR_ALREADY_EXISTS, s)) ∧
    (fd < (MAX_MXIO_FD : Int) → fd_to_io s fd = none →
      (mxio_bind_to_fd K s (some io) fd).1 = fd ∧
      fd_to_io (mxio_bind_to_fd K s (some io) fd).2 fd = some io ∧
      (∀ fd2 : Int, fd2 ≠ fd →
        fd_to_io (mxio_bind_to_fd K s (some io) fd).2 fd2 = fd_to_io s fd2) ∧
      (∀ j : Nat, (j : Int) ≠ fd →
        (mxio_bind_to_fd K s (some io) fd).2.mxio_fdtab j = s.mxio_fdtab j) ∧
      (mxio_bind_to_fd K s (some io) fd).2.mxio_root_handle = s.mxio_root_handle ∧
      (mxio_bind_to_fd K s (some io) fd).2.mxio_process_handle = s.mxio_process_handle ∧
      (mxio_bind_to_fd K s (some io) fd).2.calls = s.calls) := by
  refine ⟨?_, ?_, ?_⟩
  · intro hmax
    simp only [mxio_bind_to_fd, hfd, hmax, if_true]
  · intro hocc
    have hr : ¬ (fd < 0 ∨ (MAX_MXIO_FD : Int) ≤ fd) := by
      intro hr
      exact hocc (by rw [fd_to_io, if_pos hr])
    have hmax : ¬ ((MAX_MXIO_FD : Int) ≤ fd) := fun h => hr (Or.inr h)
    rw [fd_to_io, if_neg hr] at hocc
    obtain ⟨x, hx⟩ := Option.ne_none_iff_exists'.mp hocc
    simp only [mxio_bind_to_fd, hfd, hmax, if_true, if_false, hx]
  · intro hlt hfree
    have hr : ¬ (fd < 0 ∨ (MAX_MXIO_FD : Int) ≤ fd) := by omega
    have hmax : ¬ ((MAX_MXIO_FD : Int) ≤ fd) := by omega
    have hi : fd.toNat < MAX_MXIO_FD := by omega
    have hcast : ((fd.toNat : Nat) : Int) = fd := Int.toNat_of_nonneg hfd
    rw [fd_to_io, if_neg hr] at hfree
    have hb : mxio_bind_to_fd K s (some io) fd = (fd, s.store fd.toNat (some io)) := by
      simp only [mxio_bind_to_fd, hfd, hmax, if_true, if_false, hfree]
    rw [hb]
    refine ⟨rfl, ?_, ?_, ?_, rfl, rfl, rfl⟩
    · show fd_to_io (s.store fd.toNat (some io)) fd = some io
      rw [fd_to_io_store s _ _ _ hi, if_pos hcast.symm]
    · intro fd2 hne
      show fd_to_io (s.store fd.toNat (some io)) fd2 = fd_to_io s fd2
      rw [fd_to_io_store s _ _ _ hi, if_neg (by rw [hcast]; exact hne)]
    · intro j hne
      show fdtab_set s.mxio_fdtab fd.toNat (some io) j = s.mxio_fdtab j
      exact fdtab_set_other _ _ _ _ (by omega)

/-- C1 at a concrete input: binding a Null object at slot 5 of the empty table
returns 5 and makes slot 5 resolve to it. -/
theorem mxio_bind_to_fd_explicit_witness :
    (0 : Int) ≤ 5 ∧
    (mxio_bind_to_fd sampleConsts State.init (some mxio_t.Null) 5).1 = 5 ∧
    fd_to_io (mxio_bind_to_fd sampleConsts State.init (some mxio_t.Null) 5).2 5
      = some mxio_t.Null :=
  ⟨by decide,
   ((mxio_bind_to_fd_explicit sampleConsts State.init mxio_t.Null 5 (by decide)).2.2
      (by decide) (by decide)).1,
   ((mxio_bind_to_fd_explicit sampleConsts State.init mxio_t.Null 5 (by decide)).2.2
      (by decide) (by decide)).2.1⟩

/-! ## C2: first-fit binding -/

theorem bind_auto_cases (K : Consts) (s : State) (io : Option mxio_t) (fd : Int)
    (hfd : fd < 0) :
    (TableFull s ∧ mxio_bind_to_fd K s io fd = (K.ERR_NO_RESOURCES, s)) ∨
    (∃ i, FirstFree s i ∧ mxio_bind_to_fd K s io fd = ((i : Int), s.store i io)) := by
  rcases firstFree_or_full s with hfull | ⟨i, hi⟩
  · exact Or.inl ⟨hfull, bind_auto_full K s io fd hfd hfull⟩
  · exact Or.inr ⟨i, hi, bind_auto_first K s io fd hfd i hi⟩

theorem not_full_of_firstFree (s : State) (i : Nat) (hi : FirstFree s i) : ¬ TableFull s :=
  fun hfull => hfull i hi.1 hi.2.1

theorem close_bound (K : Consts) (O : Ops) (s : State) (i : Nat) (io : mxio_t)
    (hi : i < MAX_MXIO_FD) (hio : s.mxio_fdtab i = some io) :
    __close K O s (i : Int) = (O.close s.calls io, (s.log (Call.close io)).store i none) := by
  have h : fd_to_io s (i : Int) = some io := by rw [fd_to_io_of_lt s i hi, hio]
  simp only [__close, h, Int.toNat_ofNat]

theorem reuse_middle (K : Consts) (O : Ops) (s : State) (a b c d : mxio_t)
    (hneg : K.ERR_NO_RESOURCES < 0)
    (h2 : 0 ≤ (bind3_close_bind K O s a b c d).1.2.1) :
    (bind3_close_bind K O s a b c d).1.2.2.2 = (bind3_close_bind K O s a b c d).1.2.1 ∧
    fd_to_io (bind3_close_bind K O s a b c d).2 (bind3_close_bind K O s a b c d).1.2.1
      = some d := by
  simp only [bind3_close_bind] at h2 ⊢
  generalize (mxio_bind_to_fd K s (some a) (-1)).2 = s1 at h2 ⊢
  rcases bind_auto_cases K s1 (some b) (-1) (by decide) with ⟨_, hb⟩ | ⟨i, hi, hb⟩
  · rw [hb] at h2
    simp only at h2
    omega
  · rw [hb]
    simp only
    have hocc : ∀ s3 : State, (s3 = s1.store i (some b) ∨
        ∃ j, FirstFree (s1.store i (some b)) j ∧ s3 = (s1.store i (some b)).store j (some c)) →
        s3.mxio_fdtab i = some b ∧ ∀ k, k < i → s3.mxio_fdtab k ≠ none := by
      intro s3 h3
      rcases h3 with h3 | ⟨j, hj, h3⟩
      · subst h3
        refine ⟨by simp, fun k hk => ?_⟩
        rw [store_fdtab, fdtab_set_other _ _ _ _ (by omega)]
        exact hi.2.2 k hk
      · subst h3
        have hji : i ≠ j := by
          intro h
          have := hj.2.1
          rw [← h] at this
          simp at this
        refine ⟨?_, fun k hk => ?_⟩
        · rw [store_fdtab, fdtab_set_other _ _ _ _ hji]
          simp
        · by_cases hkj : k = j
          · subst hkj; simp
          · rw [store_fdtab, fdtab_set_other _ _ _ _ hkj, store_fdtab,
              fdtab_set_other _ _ _ _ (by omega)]
            exact hi.2.2 k hk
    have key : ∀ s3 : State, s3.mxio_fdtab i = some b → (∀ k, k < i → s3.mxio_fdtab k ≠ none) →
        (mxio_bind_to_fd K (__close K O s3 (i : Int)).2 (some d) (-1)).1 = (i : Int) ∧
        fd_to_io (mxio_bind_to_fd K (__close K O s3 (i : Int)).2 (some d) (-1)).2 (i : Int)
          = some d := by
      intro s3 hb3 hlow
      rw [close_bound K O s3 i b hi.1 hb3]
      simp only
      have hff : FirstFree ((s3.log (Call.close b)).store i none) i := by
        refine ⟨hi.1, by simp, fun k hk => ?_⟩
        rw [store_fdtab, fdtab_set_other _ _ _ _ (by omega)]
        exact hlow k hk
      rw [bind_auto_first K _ (some d) (-1) (by decide) i hff]
      exact ⟨rfl, by rw [fd_to_io_store _ _ _ _ hi.1, if_pos rfl]⟩
    rcases bind_auto_cases K (s1.store i (some b)) (some c) (-1) (by decide) with
      ⟨_, hc⟩ | ⟨j, hj, hc⟩
    · rw [hc]
      exact key _ (hocc _ (Or.inl rfl)).1 (hocc _ (Or.inl rfl)).2
    · rw [hc]
      exact key _ (hocc _ (Or.inr ⟨j, hj, rfl⟩)).1 (hocc _ (Or.inr ⟨j, hj, rfl⟩)).2

/-- C2: for a negative requested slot, `mxio_bind_to_fd` returns the smallest
index of `[0, 256)` whose slot is empty, stores `io` there and changes nothing
else; such an index exists unless the table is full; the result is
`ERR_NO_RESOURCES` exactly when all 256 slots are occupied, and then the state
is unchanged. After three such binds, closing the slot of the second one and
binding a fourth object, the fourth gets the slot of the second. -/
theorem mxio_bind_to_fd_first_fit (K : Consts) (O : Ops) (s : State) (io : mxio_t)
    (fd : Int) (hfd : fd < 0) (hneg : K.ERR_NO_RESOURCES < 0) :
    (∀ i, FirstFree s i →
      mxio_bind_to_fd K s (some io) fd = ((i : Int), s.store i (some io)) ∧
      fd_to_io (mxio_bind_to_fd K s (some io) fd).2 (i : Int) = some io ∧
      (∀ fd2 : Int, fd2 ≠ (i : Int) →
        fd_to_io (mxio_bind_to_fd K s (some io) fd).2 fd2 = fd_to_io s fd2) ∧
      (∀ j : Nat, j ≠ i →
        (mxio_bind_to_fd K s (some io) fd).2.mxio_fdtab j = s.mxio_fdtab j)) ∧
    (¬ TableFull s → ∃ i, FirstFree s i ∧ (mxio_bind_to_fd K s (some io) fd).1 = (i : Int)) ∧
    ((mxio_bind_to_fd K s (some io) fd).1 = K.ERR_NO_RESOURCES ↔ TableFull s) ∧
    (TableFull s → (mxio_bind_to_fd K s (some io) fd).2 = s) ∧
    (∀ a b c d : mxio_t,
      0 ≤ (bind3_close_bind K O s a b c d).1.1 →
      0 ≤ (bind3_close_bind K O s a b c d).1.2.1 →
      0 ≤ (bind3_close_bind K O s a b c d).1.2.2.1 →
      (bind3_close_bind K O s a b c d).1.2.2.2 = (bind3_close_bind K O s a b c d).1.2.1 ∧
      fd_to_io (bind3_close_bind K O s a b c d).2 (bind3_close_bind K O s a b c d).1.2.1
        = some d) := by
  refine ⟨?_, ?_, ?_, ?_, ?_⟩
  · intro i hi
    rw [bind_auto_first K s (some io) fd hfd i hi]
    refine ⟨rfl, ?_, ?_, ?_⟩
    · rw [fd_to_io_store _ _ _ _ hi.1, if_pos rfl]
    · intro fd2 hne
      rw [fd_to_io_store _ _ _ _ hi.1, if_neg hne]
    · intro j hne
      exact fdtab_set_other _ _ _ _ hne
  · intro hnf
    rcases firstFree_or_full s with hfull | ⟨i, hi⟩
    · exact absurd hfull hnf
    · exact ⟨i, hi, by rw [bind_auto_first K s (some io) fd hfd i hi]⟩
  · constructor
    · intro hres
      rcases firstFree_or_full s with hfull | ⟨i, hi⟩
      · exact hfull
      · rw [bind_auto_first K s (some io) fd hfd i hi] at hres
        simp only at hres
        omega
    · intro hfull
      rw [bind_auto_full K s (some io) fd hfd hfull]
  · intro hfull
    rw [bind_auto_full K s (some io) fd hfd hfull]
  · intro a b c d _ h2 _
    exact reuse_middle K O s a b c d hneg h2

/-- C2 at a concrete input: on the empty table the three binds return 0, 1, 2,
and after closing slot 1 the fourth bind returns 1. -/
theorem mxio_bind_to_fd_first_fit_witness :
    (-1 : Int) < 0 ∧ sampleConsts.ERR_NO_RESOURCES < 0 ∧
    (bind3_close_bind sampleConsts sampleOps State.init
      (mxio_t.Pipe 1) (mxio_t.Pipe 2) (mxio_t.Pipe 3) (mxio_t.Pipe 4)).1 = (0, 1, 2, 1) ∧
    (bind3_close_bind sampleConsts sampleOps State.init
      (mxio_t.Pipe 1) (mxio_t.Pipe 2) (mxio_t.Pipe 3) (mxio_t.Pipe 4)).1.2.2.2 = 1 :=
  ⟨by decide, by decide, by decide,
   ((mxio_bind_to_fd_first_fit sampleConsts sampleOps State.init mxio_t.Null (-1)
      (by decide) (by decide)).2.2.2.2
      (mxio_t.Pipe 1) (mxio_t.Pipe 2) (mxio_t.Pipe 3) (mxio_t.Pipe 4)
      (by decide) (by decide) (by decide)).1⟩

/-! ## C3: close -/

/-- C3: right after a successful bind the returned slot resolves to exactly the
bound object. If `fd` resolves to an object, `close(fd)` calls that object's
close operation exactly once (the only call it makes), returns that result
unchanged and leaves slot `fd` empty whatever the result was, every other slot
and global unchanged. If `fd` does not resolve (out of range or unbound),
`close` returns `ERR_BAD_HANDLE`, calls nothing and changes nothing. -/
theorem close_contract (K : Consts) (O : Ops) (s : State) (fd : Int) :
    (∀ (io : mxio_t) (req : Int),
      K.ERR_INVALID_ARGS < 0 → K.ERR_ALREADY_EXISTS < 0 → K.ERR_NO_RESOURCES < 0 →
      0 ≤ (mxio_bind_to_fd K s (some io) req).1 →
      fd_to_io (mxio_bind_to_fd K s (some io) req).2 (mxio_bind_to_fd K s (some io) req).1
        = some io) ∧
    (∀ io : mxio_t, fd_to_io s fd = some io →
      (__close K O s fd).1 = O.close s.calls io ∧
      (__close K O s fd).2.calls = s.calls ++ [Call.close io] ∧
      fd_to_io (__close K O s fd).2 fd = none ∧
      (∀ fd2 : Int, fd2 ≠ fd → fd_to_io (__close K O s fd).2 fd2 = fd_to_io s fd2) ∧
      (∀ j : Nat, (j : Int) ≠ fd → (__close K O s fd).2.mxio_fdtab j = s.mxio_fdtab j) ∧
      (__close K O s fd).2.mxio_root_handle = s.mxio_root_handle ∧
      (__close K O s fd).2.mxio_process_handle = s.mxio_process_handle) ∧
    (fd_to_io s fd = none → __close K O s fd = (K.ERR_BAD_HANDLE, s)) ∧
    ((fd < 0 ∨ (MAX_MXIO_FD : Int) ≤ fd) → __close K O s fd = (K.ERR_BAD_HANDLE, s)) := by
  refine ⟨?_, ?_, ?_, ?_⟩
  · intro io req h1 h2 h3 hok
    obtain ⟨i, hi, _, _, _, hb⟩ := bind_success K s (some io) req h1 h2 h3 hok
    rw [hb]
    show fd_to_io (s.store i (some io)) (i : Int) = some io
    rw [fd_to_io_store _ _ _ _ hi, if_pos rfl]
  · intro io hio
    have hr : ¬ (fd < 0 ∨ (MAX_MXIO_FD : Int) ≤ fd) := by
      intro hr
      rw [fd_to_io, if_pos hr] at hio
      exact Option.noConfusion hio
    have hi : fd.toNat < MAX_MXIO_FD := by omega
    have hcast : ((fd.toNat : Nat) : Int) = fd := Int.toNat_of_nonneg (by omega)
    have hc : __close K O s fd
        = (O.close s.calls io, (s.log (Call.close io)).store fd.toNat none) := by
      simp only [__close, hio]
    rw [hc]
    refine ⟨rfl, rfl, ?_, ?_, ?_, rfl, rfl⟩
    · show fd_to_io ((s.log (Call.close io)).store fd.toNat none) fd = none
      rw [fd_to_io_store _ _ _ _ hi, if_pos hcast.symm]
    · intro fd2 hne
      show fd_to_io ((s.log (Call.close io)).store fd.toNat none) fd2 = fd_to_io s fd2
      rw [fd_to_io_store _ _ _ _ hi, if_neg (by rw [hcast]; exact hne), fd_to_io_log]
    · intro j hne
      show fdtab_set s.mxio_fdtab fd.toNat none j = s.mxio_fdtab j
      exact fdtab_set_other _ _ _ _ (by omega)
  · intro hnone
    simp only [__close, hnone]
  · intro hr
    have hnone : fd_to_io s fd = none := by rw [fd_to_io, if_pos hr]
    simp only [__close, hnone]

/-- C3 at a concrete input: slot 3 holds a Pipe whose close fails with `-7`;
`close(3)` returns `-7`, logs that one call and empties slot 3. -/
theorem close_contract_witness :
    (__close sampleConsts sampleOps (State.init.store 3 (some (mxio_t.Pipe 7))) 3).1 = -7 ∧
    (__close sampleConsts sampleOps (State.init.store 3 (some (mxio_t.Pipe 7))) 3).2.calls
      = [Call.close (mxio_t.Pipe 7)] ∧
    fd_to_io (__close sampleConsts sampleOps
      (State.init.store 3 (some (mxio_t.Pipe 7))) 3).2 3 = none :=
  ⟨((close_contract sampleConsts sampleOps (State.init.store 3 (some (mxio_t.Pipe 7))) 3).2.1
      (mxio_t.Pipe 7) (by decide)).1,
   ((close_contract sampleConsts sampleOps (State.init.store 3 (some (mxio_t.Pipe 7))) 3).2.1
      (mxio_t.Pipe 7) (by decide)).2.1,
   ((close_contract sampleConsts sampleOps (State.init.store 3 (some (mxio_t.Pipe 7))) 3).2.1
      (mxio_t.Pipe 7) (by decide)).2.2.1⟩

/-! ## C4: teardown -/

/-- The close calls that teardown owes to the slots `fd, …, fd + k - 1`. -/
theorem exit_loop_spec : ∀ (k fd : Nat) (s : State),
    (mxio_exit_loop k fd s).calls
      = s.calls ++ (List.range' fd k).filterMap (fun i => (s.mxio_fdtab i).map Call.close) ∧
    (∀ j, (mxio_exit_loop k fd s).mxio_fdtab j
      = if fd ≤ j ∧ j < fd + k then none else s.mxio_fdtab j) ∧
    (mxio_exit_loop k fd s).mxio_root_handle = s.mxio_root_handle ∧
    (mxio_exit_loop k fd s).mxio_process_handle = s.mxio_process_handle := by
  intro k
  induction k with
  | zero =>
    intro fd s
    refine ⟨by simp [mxio_exit_loop], fun j => ?_, rfl, rfl⟩
    have hout : ¬ (fd ≤ j ∧ j < fd + 0) := by omega
    rw [if_neg hout]
    rfl
  | succ k ih =>
    intro fd s
    cases hslot : s.mxio_fdtab fd with
    | none =>
      have hl : mxio_exit_loop (k + 1) fd s = mxio_exit_loop k (fd + 1) s := by
        simp only [mxio_exit_loop, hslot]
      rw [hl]
      obtain ⟨h1, h2, h3, h4⟩ := ih (fd + 1) s
      refine ⟨?_, fun j => ?_, h3, h4⟩
      · rw [h1, List.range'_succ, List.filterMap_cons]
        simp [hslot]
      · rw [h2 j]
        by_cases hj : j = fd
        · subst hj
          have a1 : ¬ (j + 1 ≤ j ∧ j < j + 1 + k) := by omega
          have a2 : j ≤ j ∧ j < j + (k + 1) := by omega
          rw [if_neg a1, if_pos a2, hslot]
        · by_cases hin : fd + 1 ≤ j ∧ j < fd + 1 + k
          · have a2 : fd ≤ j ∧ j < fd + (k + 1) := by omega
            rw [if_pos hin, if_pos a2]
          · have a2 : ¬ (fd ≤ j ∧ j < fd + (k + 1)) := by omega
            rw [if_neg hin, if_neg a2]
    | some io =>
      have hl : mxio_exit_loop (k + 1) fd s
          = mxio_exit_loop k (fd + 1) ((s.log (Call.close io)).store fd none) := by
        simp only [mxio_exit_loop, hslot]
      rw [hl]
      obtain ⟨h1, h2, h3, h4⟩ := ih (fd + 1) ((s.log (Call.close io)).store fd none)
      refine ⟨?_, fun j => ?_, h3, h4⟩
      · rw [h1, List.range'_succ, List.filterMap_cons]
        have hcongr : (List.range' (fd + 1) k).filterMap
            (fun i => (((s.log (Call.close io)).store fd none).mxio_fdtab i).map Call.close)
            = (List.range' (fd + 1) k).filterMap
              (fun i => (s.mxio_fdtab i).map Call.close) := by
          apply List.filterMap_congr
          intro i hi
          have : i ≠ fd := by
            have := (List.mem_range'_1.mp hi).1
            omega
          simp [fdtab_set_other _ _ _ _ this]
        rw [hcongr]
        simp [hslot]
      · rw [h2 j]
        by_cases hj : j = fd
        · subst hj
          have a1 : ¬ (j + 1 ≤ j ∧ j < j + 1 + k) := by omega
          have a2 : j ≤ j ∧ j < j + (k + 1) := by omega
          rw [if_neg a1, if_pos a2]
          simp
        · by_cases hin : fd + 1 ≤ j ∧ j < fd + 1 + k
          · have a2 : fd ≤ j ∧ j < fd + (k + 1) := by omega
            rw [if_pos hin, if_pos a2]
          · have a2 : ¬ (fd ≤ j ∧ j < fd + (k + 1)) := by omega
            rw [if_neg hin, if_neg a2, store_fdtab, fdtab_set_other _ _ _ _ hj, log_fdtab]

theorem exit_loop_empty : ∀ (k fd : Nat) (s : State),
    (∀ j, fd ≤ j → j < fd + k → s.mxio_fdtab j = none) → mxio_exit_loop k fd s = s := by
  intro k
  induction k with
  | zero => intro fd s _; rfl
  | succ k ih =>
    intro fd s h
    have h0 : s.mxio_fdtab fd = none := h fd (le_refl _) (by omega)
    simp only [mxio_exit_loop, h0]
    exact ih (fd + 1) s (fun j h1 h2 => h j (by omega) (by omega))

/-- C4: `mxio_exit` calls the close operation of the object of each occupied
slot exactly once, in ascending slot order, making no other call and using no
close result; afterwards every descriptor resolves to nothing. On a table with
no occupied slot it makes no call and returns the state as it was, so running
it a second time changes nothing. -/
theorem mxio_exit_contract (s : State) :
    (mxio_exit s).calls
      = s.calls ++ (List.range MAX_MXIO_FD).filterMap
          (fun i => (s.mxio_fdtab i).map Call.close) ∧
    (∀ fd : Int, fd_to_io (mxio_exit s) fd = none) ∧
    (∀ i, i < MAX_MXIO_FD → (mxio_exit s).mxio_fdtab i = none) ∧
    (mxio_exit s).mxio_root_handle = s.mxio_root_handle ∧
    (mxio_exit s).mxio_process_handle = s.mxio_process_handle ∧
    ((∀ i, i < MAX_MXIO_FD → s.mxio_fdtab i = none) → mxio_exit s = s) ∧
    mxio_exit (mxio_exit s) = mxio_exit s := by
  obtain ⟨h1, h2, h3, h4⟩ := exit_loop_spec MAX_MXIO_FD 0 s
  have hempty : ∀ i, i < MAX_MXIO_FD → (mxio_exit s).mxio_fdtab i = none := by
    intro i hi
    show (mxio_exit_loop MAX_MXIO_FD 0 s).mxio_fdtab i = none
    rw [h2 i, if_pos (by omega)]
  refine ⟨?_, ?_, hempty, h3, h4, ?_, ?_⟩
  · rw [List.range_eq_range']
    exact h1
  · intro fd
    by_cases hr : fd < 0 ∨ (MAX_MXIO_FD : Int) ≤ fd
    · rw [fd_to_io, if_pos hr]
    · rw [fd_to_io, if_neg hr]
      exact hempty fd.toNat (by omega)
  · intro h
    exact exit_loop_empty MAX_MXIO_FD 0 s (fun j _ hj => h j (by omega))
  · exact exit_loop_empty MAX_MXIO_FD 0 (mxio_exit s) (fun j _ hj => hempty j (by omega))

/-- C4 at a concrete input: with a Pipe at slot 2 and a Remote at slot 200,
teardown closes the Pipe and then the Remote. -/
theorem mxio_exit_contract_witness :
    (mxio_exit ((State.init.store 200 (some (mxio_t.Remote 9 0))).store 2
      (some (mxio_t.Pipe 7)))).calls
      = [Call.close (mxio_t.Pipe 7), Call.close (mxio_t.Remote 9 0)] ∧
    mxio_exit State.init = State.init :=
  ⟨(mxio_exit_contract ((State.init.store 200 (some (mxio_t.Remote 9 0))).store 2
      (some (mxio_t.Pipe 7)))).1.trans (by decide),
   (mxio_exit_contract State.init).2.2.2.2.2.1 (fun _ _ => rfl)⟩

/-! ## C5: open -/

/-- C5: with a root installed and a non-null path on which the root's open
succeeds with an object `obj`: if the table has a free slot, `open` returns the
smallest free slot, which then resolves to `obj`, no close being called; if all
256 slots are occupied, `open` calls `obj`'s close exactly once, returns
`ERR_NO_RESOURCES` and leaves the table unchanged. If the root's open returns a
negative status, `open` returns that status and leaves the table unchanged. -/
theorem open_contract (K : Consts) (O : Ops) (s : State) (root : mxio_t) (p : String)
    (flags : Int) (hroot : s.mxio_root_handle = some root)
    (hneg : K.ERR_NO_RESOURCES < 0) :
    (∀ obj : mxio_t, 0 ≤ (O.open_ s.calls root p flags).1 →
      (O.open_ s.calls root p flags).2 = some obj →
      (∀ i, FirstFree s i →
        (__open K O s (some p) flags).1 = (i : Int) ∧
        fd_to_io (__open K O s (some p) flags).2 (i : Int) = some obj ∧
        (∀ j : Nat, j ≠ i →
          (__open K O s (some p) flags).2.mxio_fdtab j = s.mxio_fdtab j) ∧
        (__open K O s (some p) flags).2.calls = s.calls ++ [Call.open_ root p flags]) ∧
      (¬ TableFull s → ∃ i, FirstFree s i) ∧
      (TableFull s →
        (__open K O s (some p) flags).1 = K.ERR_NO_RESOURCES ∧
        (__open K O s (some p) flags).2.calls
          = s.calls ++ [Call.open_ root p flags, Call.close obj] ∧
        (__open K O s (some p) flags).2.mxio_fdtab = s.mxio_fdtab)) ∧
    ((O.open_ s.calls root p flags).1 < 0 →
      (__open K O s (some p) flags).1 = (O.open_ s.calls root p flags).1 ∧
      (__open K O s (some p) flags).2.mxio_fdtab = s.mxio_fdtab ∧
      (__open K O s (some p) flags).2.calls = s.calls ++ [Call.open_ root p flags]) := by
  refine ⟨?_, ?_⟩
  · intro obj hr hobj
    have hr2 : ¬ ((O.open_ s.calls root p flags).1 < 0) := by omega
    refine ⟨?_, ?_, ?_⟩
    · intro i hi
      have hi2 : FirstFree (s.log (Call.open_ root p flags)) i := hi
      have hb := bind_auto_first K (s.log (Call.open_ root p flags)) (some obj) (-1)
        (by decide) i hi2
      have hnn : ¬ ((i : Int) < 0) := by omega
      have ho : __open K O s (some p) flags
          = ((i : Int), (s.log (Call.open_ root p flags)).store i (some obj)) := by
        simp only [__open, hroot, hr2, if_false, hobj, hb, hnn]
      rw [ho]
      refine ⟨rfl, ?_, ?_, rfl⟩
      · show fd_to_io ((s.log (Call.open_ root p flags)).store i (some obj)) (i : Int) = some obj
        rw [fd_to_io_store _ _ _ _ hi.1, if_pos rfl]
      · intro j hj
        show fdtab_set s.mxio_fdtab i (some obj) j = s.mxio_fdtab j
        exact fdtab_set_other _ _ _ _ hj
    · intro hnf
      rcases firstFree_or_full s with hfull | h
      · exact absurd hfull hnf
      · exact h
    · intro hfull
      have hfull2 : TableFull (s.log (Call.open_ root p flags)) := hfull
      have hb := bind_auto_full K (s.log (Call.open_ root p flags)) (some obj) (-1)
        (by decide) hfull2
      have ho : __open K O s (some p) flags
          = (K.ERR_NO_RESOURCES,
              (s.log (Call.open_ root p flags)).log (Call.close obj)) := by
        simp only [__open, hroot, hr2, if_false, hobj, hb, hneg, if_true]
      rw [ho]
      refine ⟨rfl, ?_, rfl⟩
      simp
  · intro hr
    have ho : __open K O s (some p) flags
        = ((O.open_ s.calls root p flags).1, s.log (Call.open_ root p flags)) := by
      simp only [__open, hroot, hr, if_true]
    rw [ho]
    exact ⟨rfl, rfl, rfl⟩

/-- C5 at a concrete input: with a root installed over the empty table, `open`
returns slot 0 and slot 0 resolves to the object the root produced. -/
theorem open_contract_witness :
    (__open sampleConsts sampleOps
      (mxio_install_root State.init (some (mxio_t.Remote 1 0))) (some "ab") 0).1 = 0 ∧
    fd_to_io (__open sampleConsts sampleOps
      (mxio_install_root State.init (some (mxio_t.Remote 1 0))) (some "ab") 0).2 0
      = some (mxio_t.Remote 2 0) :=
  ⟨(((open_contract sampleConsts sampleOps
      (mxio_install_root State.init (some (mxio_t.Remote 1 0))) (mxio_t.Remote 1 0) "ab" 0
      rfl (by decide)).1 (mxio_t.Remote 2 0) (by decide) (by decide)).1 0
      ⟨by decide, rfl, fun j hj => absurd hj (Nat.not_lt_zero j)⟩).1,
   (((open_contract sampleConsts sampleOps
      (mxio_install_root State.init (some (mxio_t.Remote 1 0))) (mxio_t.Remote 1 0) "ab" 0
      rfl (by decide)).1 (mxio_t.Remote 2 0) (by decide) (by decide)).1 0
      ⟨by decide, rfl, fun j hj => absurd hj (Nat.not_lt_zero j)⟩).2.1⟩

/-! ## C6: pipe -/

theorem twoFirstFree_first (s : State) (i j : Nat) (h : TwoFirstFree s i j) :
    FirstFree s i :=
  ⟨lt_trans h.1 h.2.1, h.2.2.1, fun k hk => h.2.2.2.2 k (lt_trans hk h.1) (by omega)⟩

theorem twoFirstFree_second (s : State) (i j : Nat) (v : mxio_t) (c : Call)
    (h : TwoFirstFree s i j) : FirstFree ((s.log c).store i (some v)) j := by
  refine ⟨h.2.1, ?_, fun k hk => ?_⟩
  · rw [store_fdtab, fdtab_set_other _ _ _ _ (by have := h.1; omega)]
    exact h.2.2.2.1
  · by_cases hki : k = i
    · subst hki; simp
    · rw [store_fdtab, fdtab_set_other _ _ _ _ hki]
      exact h.2.2.2.2 k hk hki

theorem onlyFree_first (s : State) (i : Nat) (h : OnlyFree s i) : FirstFree s i :=
  ⟨h.1, h.2.1, fun k hk => h.2.2 k (lt_trans hk h.1) (by omega)⟩

theorem onlyFree_full (s : State) (i : Nat) (v : mxio_t) (c : Call) (h : OnlyFree s i) :
    TableFull ((s.log c).store i (some v)) := by
  intro k hk
  by_cases hki : k = i
  · subst hki; simp
  · rw [store_fdtab, fdtab_set_other _ _ _ _ hki]
    exact h.2.2 k hk hki

/-- A table with two distinct empty slots has two smallest empty slots. -/
theorem twoFirstFree_exists (s : State) (i j : Nat) (hij : i ≠ j)
    (hi : i < MAX_MXIO_FD) (hj : j < MAX_MXIO_FD)
    (hfi : s.mxio_fdtab i = none) (hfj : s.mxio_fdtab j = none) :
    ∃ a b, TwoFirstFree s a b := by
  rcases firstFree_or_full s with hfull | ⟨a, ha⟩
  · exact absurd hfi (hfull i hi)
  · rcases firstFree_or_full (s.store a (some mxio_t.Null)) with hfull | ⟨b, hb⟩
    · exfalso
      by_cases hia : i = a
      · have := hfull j hj
        rw [store_fdtab, fdtab_set_other _ _ _ _ (by omega)] at this
        exact this hfj
      · have := hfull i hi
        rw [store_fdtab, fdtab_set_other _ _ _ _ hia] at this
        exact this hfi
    · have hba : b ≠ a := by
        intro h
        have := hb.2.1
        rw [h] at this
        simp at this
      have hbfree : s.mxio_fdtab b = none := by
        have := hb.2.1
        rwa [store_fdtab, fdtab_set_other _ _ _ _ hba] at this
      have hab : a < b := by
        rcases Nat.lt_or_ge a b with h | h
        · exact h
        · exact absurd hbfree (ha.2.2 b (by omega))
      refine ⟨a, b, hab, hb.1, ha.2.1, hbfree, fun k hk hka => ?_⟩
      have := hb.2.2 k hk
      rwa [store_fdtab, fdtab_set_other _ _ _ _ hka] at this

/-- C6: when `mxio_pipe_pair` succeeds with ends `a` and `b`: if the table has
at least two free slots, `pipe` returns 0 and stores in `pipefd` the two
smallest free slots, which are distinct and resolve to `a` and `b`, no close
being called; if the table has no free slot or exactly one, `pipe` returns the
negative `ERR_NO_RESOURCES`, closes `a` once and `b` once, and the table after
the call equals the table before it. -/
theorem pipe_contract (K : Consts) (O : Ops) (s : State) (pipefd : Int × Int)
    (hok : 0 ≤ (O.pipe_pair s.calls).1) (hneg : K.ERR_NO_RESOURCES < 0) :
    (∀ i j, TwoFirstFree s i j →
      (pipe K O s pipefd).1 = 0 ∧
      (pipe K O s pipefd).2.1 = ((i : Int), (j : Int)) ∧ (i : Int) ≠ (j : Int) ∧
      fd_to_io (pipe K O s pipefd).2.2 (i : Int) = some (O.pipe_pair s.calls).2.1 ∧
      fd_to_io (pipe K O s pipefd).2.2 (j : Int) = some (O.pipe_pair s.calls).2.2 ∧
      (∀ k : Nat, k ≠ i → k ≠ j →
        (pipe K O s pipefd).2.2.mxio_fdtab k = s.mxio_fdtab k) ∧
      (pipe K O s pipefd).2.2.calls = s.calls ++ [Call.pipe_pair]) ∧
    (∀ i j, i ≠ j → i < MAX_MXIO_FD → j < MAX_MXIO_FD →
      s.mxio_fdtab i = none → s.mxio_fdtab j = none → ∃ a b, TwoFirstFree s a b) ∧
    ((TableFull s ∨ ∃ i, OnlyFree s i) →
      (pipe K O s pipefd).1 = K.ERR_NO_RESOURCES ∧ (pipe K O s pipefd).1 < 0 ∧
      (pipe K O s pipefd).2.2.calls
        = s.calls ++ [Call.pipe_pair, Call.close (O.pipe_pair s.calls).2.1,
            Call.close (O.pipe_pair s.calls).2.2] ∧
      (pipe K O s pipefd).2.2.mxio_fdtab = s.mxio_fdtab) := by
  have hr : ¬ ((O.pipe_pair s.calls).1 < 0) := by omega
  refine ⟨?_, ?_, ?_⟩
  · intro i j hij
    have h1 := bind_auto_first K (s.log Call.pipe_pair) (some (O.pipe_pair s.calls).2.1) (-1)
      (by decide) i (twoFirstFree_first s i j hij)
    have h2 := bind_auto_first K ((s.log Call.pipe_pair).store i (some (O.pipe_pair s.calls).2.1))
      (some (O.pipe_pair s.calls).2.2) (-1) (by decide) j
      (twoFirstFree_second s i j _ Call.pipe_pair hij)
    have hi0 : ¬ ((i : Int) < 0) := by omega
    have hj0 : ¬ ((j : Int) < 0) := by omega
    have hp : pipe K O s pipefd = (0, ((i : Int), (j : Int)),
        ((s.log Call.pipe_pair).store i (some (O.pipe_pair s.calls).2.1)).store j
          (some (O.pipe_pair s.calls).2.2)) := by
      simp only [pipe, hr, if_false, h1, h2, hi0, hj0]
    have hlt := hij.1
    rw [hp]
    refine ⟨rfl, rfl, by omega, ?_, ?_, ?_, rfl⟩
    · show fd_to_io (((s.log Call.pipe_pair).store i _).store j _) (i : Int) = _
      rw [fd_to_io_store _ _ _ _ hij.2.1, if_neg (by omega),
        fd_to_io_store _ _ _ _ (lt_trans hij.1 hij.2.1), if_pos rfl]
    · show fd_to_io (((s.log Call.pipe_pair).store i _).store j _) (j : Int) = _
      rw [fd_to_io_store _ _ _ _ hij.2.1, if_pos rfl]
    · intro k hki hkj
      show fdtab_set (fdtab_set s.mxio_fdtab i _) j _ k = s.mxio_fdtab k
      rw [fdtab_set_other _ _ _ _ hkj, fdtab_set_other _ _ _ _ hki]
  · intro i j hij hi hj hfi hfj
    exact twoFirstFree_exists s i j hij hi hj hfi hfj
  · intro h
    rcases h with hfull | ⟨i, hi⟩
    · have hfull2 : TableFull (s.log Call.pipe_pair) := hfull
      have h1 := bind_auto_full K (s.log Call.pipe_pair) (some (O.pipe_pair s.calls).2.1) (-1)
        (by decide) hfull2
      have hp : pipe K O s pipefd = (K.ERR_NO_RESOURCES, (K.ERR_NO_RESOURCES, pipefd.2),
          ((s.log Call.pipe_pair).log (Call.close (O.pipe_pair s.calls).2.1)).log
            (Call.close (O.pipe_pair s.calls).2.2)) := by
        simp only [pipe, hr, if_false, h1, hneg, if_true, mx_close]
      rw [hp]
      refine ⟨rfl, hneg, ?_, rfl⟩
      simp
    · have h1 := bind_auto_first K (s.log Call.pipe_pair) (some (O.pipe_pair s.calls).2.1) (-1)
        (by decide) i (onlyFree_first s i hi)
      have h2 := bind_auto_full K ((s.log Call.pipe_pair).store i (some (O.pipe_pair s.calls).2.1))
        (some (O.pipe_pair s.calls).2.2) (-1) (by decide)
        (onlyFree_full s i _ Call.pipe_pair hi)
      have h3 := close_bound K O ((s.log Call.pipe_pair).store i (some (O.pipe_pair s.calls).2.1))
        i (O.pipe_pair s.calls).2.1 hi.1 (by simp)
      have hi0 : ¬ ((i : Int) < 0) := by omega
      have hp : pipe K O s pipefd = (K.ERR_NO_RESOURCES, ((i : Int), K.ERR_NO_RESOURCES),
          (((((s.log Call.pipe_pair).store i (some (O.pipe_pair s.calls).2.1)).log
            (Call.close (O.pipe_pair s.calls).2.1)).store i none).log
              (Call.close (O.pipe_pair s.calls).2.2))) := by
        simp only [pipe, hr, if_false, h1, h2, hi0, hneg, if_true, h3, mx_close]
      rw [hp]
      refine ⟨rfl, hneg, ?_, ?_⟩
      · simp
      · show fdtab_set (fdtab_set s.mxio_fdtab i _) i none = s.mxio_fdtab
        rw [fdtab_set_set, ← hi.2.1, fdtab_set_self]

/-- C6 at a concrete input: on the empty table `pipe` returns 0 with
descriptors 0 and 1. -/
theorem pipe_contract_witness :
    (pipe sampleConsts sampleOps State.init (0, 0)).1 = 0 ∧
    (pipe sampleConsts sampleOps State.init (0, 0)).2.1 = (0, 1) ∧
    fd_to_io (pipe sampleConsts sampleOps State.init (0, 0)).2.2 1 = some (mxio_t.Pipe 101) :=
  ⟨((pipe_contract sampleConsts sampleOps State.init (0, 0) (by decide) (by decide)).1 0 1
      ⟨by decide, by decide, rfl, rfl, fun k hk hk0 => absurd hk (by omega)⟩).1,
   ((pipe_contract sampleConsts sampleOps State.init (0, 0) (by decide) (by decide)).1 0 1
      ⟨by decide, by decide, rfl, rfl, fun k hk hk0 => absurd hk (by omega)⟩).2.1,
   ((pipe_contract sampleConsts sampleOps State.init (0, 0) (by decide) (by decide)).1 0 1
      ⟨by decide, by decide, rfl, rfl, fun k hk hk0 => absurd hk (by omega)⟩).2.2.2.2.1⟩

/-! ## C7: the root during bootstrap -/

/-- C7, evaluated: on the bundle `[(1, RootTag), (2, RootTag)]` bootstrap builds
a root object from each of the two entries and leaves the second one installed;
on the bundle `[(2, RootTag)]`, started with a root already installed, it
replaces that root. `mxio_install_root`, in contrast, keeps the first root. -/
theorem bootstrap_root_last_wins :
    (__libc_extensions_init sampleConsts twoRoots State.init).map
        (fun r => (r.2.mxio_root_handle, r.2.calls))
      = some (some (mxio_t.Remote 2 0),
          [Call.remote_create 1 0, Call.remote_create 2 0, Call.null_create,
            Call.null_create, Call.null_create, Call.atexit]) ∧
    (__libc_extensions_init sampleConsts (mx_proc_info_t.ofList [(2, 16)])
        (mxio_install_root State.init (some (mxio_t.Remote 1 0)))).map
        (fun r => r.2.mxio_root_handle)
      = some (some (mxio_t.Remote 2 0)) ∧
    (mxio_install_root (mxio_install_root State.init (some (mxio_t.Remote 1 0)))
        (some (mxio_t.Remote 2 0))).mxio_root_handle
      = some (mxio_t.Remote 1 0) := by
  refine ⟨by decide, by decide, by decide⟩

/-! ## C9: what bootstrap leaves in the bundle -/

/-- C9, evaluated: on the bundle `[(5, RemoteTag@3), (6, RemoteTag@3)]` bootstrap
builds one Remote object holding the handles 5 and 6 at slot 3 and nulls handle
and tag of entry 0, but of the event entry 1 it nulls only the tag: its handle
is still 6 afterwards. -/
theorem bootstrap_event_handle_kept :
    (__libc_extensions_init sampleConsts remotePair State.init).map
        (fun r => (r.2.mxio_fdtab 3, r.1.handle 0, r.1.handle_info 0,
          r.1.handle 1, r.1.handle_info 1))
      = some (some (mxio_t.Remote 5 6), 0, 0, 6, 0) := by
  decide

/-! ## The bootstrap scan, one iteration at a time -/

theorem init_step_root (K : Consts) (p : mx_proc_info_t) (s : State) (n : Nat)
    (h : MX_HND_INFO_TYPE (p.handle_info n) = K.MX_HND_TYPE_MXIO_ROOT) :
    init_step K p s n = some (p.consume n,
      { s.log (Call.remote_create (p.handle n) 0) with
        mxio_root_handle := some (mxio_remote_create (p.handle n) 0) }) := by
  simp only [init_step]
  rw [if_pos h]

theorem init_step_remote_pair (K : Consts) (p : mx_proc_info_t) (s : State) (n : Nat)
    (h1 : MX_HND_INFO_TYPE (p.handle_info n) ≠ K.MX_HND_TYPE_MXIO_ROOT)
    (h2 : MX_HND_INFO_TYPE (p.handle_info n) = K.MX_HND_TYPE_MXIO_REMOTE)
    (h3 : n + 1 < p.handle_count) (h4 : p.handle_info n = p.handle_info (n + 1))
    (h5 : MX_HND_INFO_ARG (p.handle_info n) < MAX_MXIO_FD) :
    init_step K p s n = some ((p.set_info (n + 1) 0).consume n,
      (s.log (Call.remote_create (p.handle n) (p.handle (n + 1)))).store
        (MX_HND_INFO_ARG (p.handle_info n))
        (some (mxio_remote_create (p.handle n) (p.handle (n + 1))))) := by
  have hc : n + 1 < p.handle_count ∧ p.handle_info n = p.handle_info (n + 1) := ⟨h3, h4⟩
  simp only [init_step]
  rw [if_neg h1, if_pos h2, if_pos hc, fdtab_write, if_pos h5, Option.map_some']

theorem init_step_remote_single (K : Consts) (p : mx_proc_info_t) (s : State) (n : Nat)
    (h1 : MX_HND_INFO_TYPE (p.handle_info n) ≠ K.MX_HND_TYPE_MXIO_ROOT)
    (h2 : MX_HND_INFO_TYPE (p.handle_info n) = K.MX_HND_TYPE_MXIO_REMOTE)
    (h3 : ¬ (n + 1 < p.handle_count ∧ p.handle_info n = p.handle_info (n + 1)))
    (h5 : MX_HND_INFO_ARG (p.handle_info n) < MAX_MXIO_FD) :
    init_step K p s n = some (p.consume n,
      (s.log (Call.remote_create (p.handle n) 0)).store
        (MX_HND_INFO_ARG (p.handle_info n)) (some (mxio_remote_create (p.handle n) 0))) := by
  simp only [init_step]
  rw [if_neg h1, if_pos h2, if_neg h3, fdtab_write, if_pos h5, Option.map_some']

theorem init_step_pipe (K : Consts) (p : mx_proc_info_t) (s : State) (n : Nat)
    (h1 : MX_HND_INFO_TYPE (p.handle_info n) ≠ K.MX_HND_TYPE_MXIO_ROOT)
    (h2 : MX_HND_INFO_TYPE (p.handle_info n) ≠ K.MX_HND_TYPE_MXIO_REMOTE)
    (h3 : MX_HND_INFO_TYPE (p.handle_info n) = K.MX_HND_TYPE_MXIO_PIPE)
    (h5 : MX_HND_INFO_ARG (p.handle_info n) < MAX_MXIO_FD) :
    init_step K p s n = some (p.consume n,
      (s.log (Call.pipe_create (p.handle n))).store
        (MX_HND_INFO_ARG (p.handle_info n)) (some (mxio_pipe_create (p.handle n)))) := by
  simp only [init_step]
  rw [if_neg h1, if_neg h2, if_pos h3, fdtab_write, if_pos h5, Option.map_some']

theorem init_step_self (K : Consts) (p : mx_proc_info_t) (s : State) (n : Nat)
    (h1 : MX_HND_INFO_TYPE (p.handle_info n) ≠ K.MX_HND_TYPE_MXIO_ROOT)
    (h2 : MX_HND_INFO_TYPE (p.handle_info n) ≠ K.MX_HND_TYPE_MXIO_REMOTE)
    (h3 : MX_HND_INFO_TYPE (p.handle_info n) ≠ K.MX_HND_TYPE_MXIO_PIPE)
    (h4 : MX_HND_INFO_TYPE (p.handle_info n) = K.MX_HND_TYPE_PROC_SELF) :
    init_step K p s n = some (p, { s with mxio_process_handle := p.handle n }) := by
  simp only [init_step]
  rw [if_neg h1, if_neg h2, if_neg h3, if_pos h4]

theorem init_step_skip (K : Consts) (p : mx_proc_info_t) (s : State) (n : Nat)
    (h1 : MX_HND_INFO_TYPE (p.handle_info n) ≠ K.MX_HND_TYPE_MXIO_ROOT)
    (h2 : MX_HND_INFO_TYPE (p.handle_info n) ≠ K.MX_HND_TYPE_MXIO_REMOTE)
    (h3 : MX_HND_INFO_TYPE (p.handle_info n) ≠ K.MX_HND_TYPE_MXIO_PIPE)
    (h4 : MX_HND_INFO_TYPE (p.handle_info n) ≠ K.MX_HND_TYPE_PROC_SELF) :
    init_step K p s n = some (p, s) := by
  simp only [init_step]
  rw [if_neg h1, if_neg h2, if_neg h3, if_neg h4]

/-- What one iteration can do to the bundle: nothing, null entry `n`, or null
entry `n` together with the tag of entry `n + 1`. -/
theorem init_step_bundle (K : Consts) (p : mx_proc_info_t) (s : State) (n : Nat)
    (r : mx_proc_info_t × State) (h : init_step K p s n = some r) :
    r.1 = p ∨ r.1 = p.consume n ∨ r.1 = (p.set_info (n + 1) 0).consume n := by
  by_cases h1 : MX_HND_INFO_TYPE (p.handle_info n) = K.MX_HND_TYPE_MXIO_ROOT
  · rw [init_step_root K p s n h1] at h
    cases h
    exact Or.inr (Or.inl rfl)
  by_cases h2 : MX_HND_INFO_TYPE (p.handle_info n) = K.MX_HND_TYPE_MXIO_REMOTE
  · by_cases h5 : MX_HND_INFO_ARG (p.handle_info n) < MAX_MXIO_FD
    · by_cases hc : n + 1 < p.handle_count ∧ p.handle_info n = p.handle_info (n + 1)
      · rw [init_step_remote_pair K p s n h1 h2 hc.1 hc.2 h5] at h
        cases h
        exact Or.inr (Or.inr rfl)
      · rw [init_step_remote_single K p s n h1 h2 hc h5] at h
        cases h
        exact Or.inr (Or.inl rfl)
    · exfalso
      simp only [init_step] at h
      rw [if_neg h1, if_pos h2] at h
      simp only [fdtab_write, if_neg h5, Option.map_none', ite_self] at h
      exact Option.noConfusion h
  by_cases h3 : MX_HND_INFO_TYPE (p.handle_info n) = K.MX_HND_TYPE_MXIO_PIPE
  · by_cases h5 : MX_HND_INFO_ARG (p.handle_info n) < MAX_MXIO_FD
    · rw [init_step_pipe K p s n h1 h2 h3 h5] at h
      cases h
      exact Or.inr (Or.inl rfl)
    · exfalso
      simp only [init_step] at h
      rw [if_neg h1, if_neg h2, if_pos h3] at h
      simp only [fdtab_write, if_neg h5, Option.map_none'] at h
      exact Option.noConfusion h
  by_cases h4 : MX_HND_INFO_TYPE (p.handle_info n) = K.MX_HND_TYPE_PROC_SELF
  · rw [init_step_self K p s n h1 h2 h3 h4] at h
    cases h
    exact Or.inl rfl
  · rw [init_step_skip K p s n h1 h2 h3 h4] at h
    cases h
    exact Or.inl rfl

/-- One iteration keeps the length of the bundle, the handles other than
`handle[n]`, and the tags other than those of the entries `n` and `n + 1`; a tag
it changes becomes 0. -/
theorem init_step_frame (K : Consts) (p : mx_proc_info_t) (s : State) (n : Nat)
    (r : mx_proc_info_t × State) (h : init_step K p s n = some r) :
    r.1.handle_count = p.handle_count ∧
    (∀ m, m ≠ n → r.1.handle m = p.handle m) ∧
    (∀ m, m ≠ n → m ≠ n + 1 → r.1.handle_info m = p.handle_info m) ∧
    (∀ m, r.1.handle_info m = p.handle_info m ∨ r.1.handle_info m = 0) := by
  rcases init_step_bundle K p s n r h with hb | hb | hb
  · rw [hb]
    exact ⟨rfl, fun _ _ => rfl, fun _ _ _ => rfl, fun _ => Or.inl rfl⟩
  · rw [hb]
    refine ⟨rfl, fun m hm => ?_, fun m hm _ => ?_, fun m => ?_⟩
    · simp [mx_proc_info_t.consume, arr_set, hm]
    · simp [mx_proc_info_t.consume, arr_set, hm]
    · by_cases hm : m = n
      · right; simp [mx_proc_info_t.consume, arr_set, hm]
      · left; simp [mx_proc_info_t.consume, arr_set, hm]
  · rw [hb]
    refine ⟨rfl, fun m hm => ?_, fun m hm hm1 => ?_, fun m => ?_⟩
    · simp [mx_proc_info_t.consume, mx_proc_info_t.set_info, arr_set, hm]
    · simp [mx_proc_info_t.consume, mx_proc_info_t.set_info, arr_set, hm, hm1]
    · by_cases hm : m = n
      · right; simp [mx_proc_info_t.consume, mx_proc_info_t.set_info, arr_set, hm]
      · by_cases hm1 : m = n + 1
        · right; simp [mx_proc_info_t.consume, mx_proc_info_t.set_info, arr_set, hm1]
        · left; simp [mx_proc_info_t.consume, mx_proc_info_t.set_info, arr_set, hm, hm1]

theorem init_scan_succ (K : Consts) (k n : Nat) (p : mx_proc_info_t) (s : State) :
    init_scan K (k + 1) n p s
      = (init_step K p s n).bind (fun r => init_scan K k (n + 1) r.1 r.2) := by
  cases h : init_step K p s n <;> simp [init_scan, h]

/-- Scanning `a + b` entries is scanning `a` entries and then `b` more. -/
theorem init_scan_add (K : Consts) : ∀ (a b n : Nat) (p : mx_proc_info_t) (s : State),
    init_scan K (a + b) n p s
      = (init_scan K a n p s).bind (fun r => init_scan K b (n + a) r.1 r.2) := by
  intro a
  induction a with
  | zero =>
    intro b n p s
    simp [init_scan]
  | succ a ih =>
    intro b n p s
    have e : a + 1 + b = (a + b) + 1 := by omega
    rw [e, init_scan_succ, init_scan_succ]
    cases h : init_step K p s n with
    | none => rfl
    | some r =>
      simp only [Option.some_bind]
      rw [ih b (n + 1) r.1 r.2]
      have e2 : n + 1 + a = n + (a + 1) := by omega
      rw [e2]

/-- Scanning the entries `n, …, n + k - 1` keeps the length of the bundle, the
handles from index `n + k` on and the tags from index `n + k + 1` on. -/
theorem init_scan_frame (K : Consts) : ∀ (k n : Nat) (p : mx_proc_info_t) (s : State)
    (r : mx_proc_info_t × State), init_scan K k n p s = some r →
    r.1.handle_count = p.handle_count ∧
    (∀ m, n + k ≤ m → r.1.handle m = p.handle m) ∧
    (∀ m, n + k + 1 ≤ m → r.1.handle_info m = p.handle_info m) := by
  intro k
  induction k with
  | zero =>
    intro n p s r h
    simp only [init_scan, Option.some.injEq] at h
    subst h
    exact ⟨rfl, fun _ _ => rfl, fun _ _ => rfl⟩
  | succ k ih =>
    intro n p s r h
    rw [init_scan_succ] at h
    cases hs : init_step K p s n with
    | none => rw [hs] at h; simp at h
    | some r1 =>
      rw [hs] at h
      simp only [Option.some_bind] at h
      obtain ⟨c1, f1, g1, _⟩ := init_step_frame K p s n r1 hs
      obtain ⟨c2, f2, g2⟩ := ih (n + 1) r1.1 r1.2 r h
      refine ⟨c2.trans c1, fun m hm => ?_, fun m hm => ?_⟩
      · rw [f2 m (by omega), f1 m (by omega)]
      · rw [g2 m (by omega), g1 m (by omega) (by omega)]

/-! ## The stdio fallback loop -/

theorem init_stdio_spec : ∀ (k n : Nat) (s : State),
    (∀ j, (init_stdio k n s).mxio_fdtab j
      = if n ≤ j ∧ j < n + k then some ((s.mxio_fdtab j).getD mxio_null_create)
        else s.mxio_fdtab j) ∧
    (init_stdio k n s).mxio_root_handle = s.mxio_root_handle ∧
    (init_stdio k n s).mxio_process_handle = s.mxio_process_handle ∧
    (init_stdio k n s).calls
      = s.calls ++ List.replicate
          ((List.range' n k).filter (fun i => (s.mxio_fdtab i).isNone)).length
          Call.null_create := by
  intro k
  induction k with
  | zero =>
    intro n s
    refine ⟨fun j => ?_, rfl, rfl, by simp [init_stdio]⟩
    have hout : ¬ (n ≤ j ∧ j < n + 0) := by omega
    rw [if_neg hout]
    rfl
  | succ k ih =>
    intro n s
    cases hslot : s.mxio_fdtab n with
    | some x =>
      have hl : init_stdio (k + 1) n s = init_stdio k (n + 1) s := by
        simp only [init_stdio, hslot]
      rw [hl]
      obtain ⟨h1, h2, h3, h4⟩ := ih (n + 1) s
      refine ⟨fun j => ?_, h2, h3, ?_⟩
      · rw [h1 j]
        by_cases hj : j = n
        · subst hj
          have a1 : ¬ (j + 1 ≤ j ∧ j < j + 1 + k) := by omega
          have a2 : j ≤ j ∧ j < j + (k + 1) := by omega
          rw [if_neg a1, if_pos a2, hslot]
          rfl
        · by_cases hin : n + 1 ≤ j ∧ j < n + 1 + k
          · have a2 : n ≤ j ∧ j < n + (k + 1) := by omega
            rw [if_pos hin, if_pos a2]
          · have a2 : ¬ (n ≤ j ∧ j < n + (k + 1)) := by omega
            rw [if_neg hin, if_neg a2]
      · rw [h4, List.range'_succ, List.filter_cons]
        simp [hslot]
    | none =>
      have hl : init_stdio (k + 1) n s
          = init_stdio k (n + 1)
              ((s.log Call.null_create).store n (some mxio_null_create)) := by
        simp only [init_stdio, hslot]
      rw [hl]
      obtain ⟨h1, h2, h3, h4⟩ :=
        ih (n + 1) ((s.log Call.null_create).store n (some mxio_null_create))
      refine ⟨fun j => ?_, h2, h3, ?_⟩
      · rw [h1 j]
        by_cases hj : j = n
        · subst hj
          have a1 : ¬ (j + 1 ≤ j ∧ j < j + 1 + k) := by omega
          have a2 : j ≤ j ∧ j < j + (k + 1) := by omega
          rw [if_neg a1, if_pos a2, hslot]
          simp
        · by_cases hin : n + 1 ≤ j ∧ j < n + 1 + k
          · have a2 : n ≤ j ∧ j < n + (k + 1) := by omega
            rw [if_pos hin, if_pos a2, store_fdtab, fdtab_set_other _ _ _ _ hj, log_fdtab]
          · have a2 : ¬ (n ≤ j ∧ j < n + (k + 1)) := by omega
            rw [if_neg hin, if_neg a2, store_fdtab, fdtab_set_other _ _ _ _ hj, log_fdtab]
      · rw [h4, List.range'_succ, List.filter_cons]
        have hcongr : (List.range' (n + 1) k).filter
            (fun i => (((s.log Call.null_create).store n
              (some mxio_null_create)).mxio_fdtab i).isNone)
            = (List.range' (n + 1) k).filter (fun i => (s.mxio_fdtab i).isNone) := by
          apply List.filter_congr
          intro i hi
          have hne : i ≠ n := by
            have := (List.mem_range'_1.mp hi).1
            omega
          simp [fdtab_set_other _ _ _ _ hne]
        rw [hcongr]
        simp [hslot, List.replicate_succ]

/-- An iteration of the scan stores into the table only objects that it has
just constructed as Remote or Pipe, never a Null object. -/
theorem init_step_no_null (K : Consts) (p : mx_proc_info_t) (s : State) (n : Nat)
    (r : mx_proc_info_t × State) (h : init_step K p s n = some r)
    (hs : ∀ i, s.mxio_fdtab i ≠ some mxio_t.Null) :
    ∀ i, r.2.mxio_fdtab i ≠ some mxio_t.Null := by
  have hstore : ∀ (c : Call) (a : Nat) (x : mxio_t), x ≠ mxio_t.Null →
      ∀ i, ((s.log c).store a (some x)).mxio_fdtab i ≠ some mxio_t.Null := by
    intro c a x hx i
    by_cases hi : i = a
    · subst hi
      simp [hx]
    · rw [store_fdtab, fdtab_set_other _ _ _ _ hi]
      exact hs i
  by_cases h1 : MX_HND_INFO_TYPE (p.handle_info n) = K.MX_HND_TYPE_MXIO_ROOT
  · rw [init_step_root K p s n h1] at h
    cases h
    exact hs
  by_cases h2 : MX_HND_INFO_TYPE (p.handle_info n) = K.MX_HND_TYPE_MXIO_REMOTE
  · by_cases h5 : MX_HND_INFO_ARG (p.handle_info n) < MAX_MXIO_FD
    · by_cases hc : n + 1 < p.handle_count ∧ p.handle_info n = p.handle_info (n + 1)
      · rw [init_step_remote_pair K p s n h1 h2 hc.1 hc.2 h5] at h
        cases h
        exact hstore _ _ _ (by simp [mxio_remote_create])
      · rw [init_step_remote_single K p s n h1 h2 hc h5] at h
        cases h
        exact hstore _ _ _ (by simp [mxio_remote_create])
    · exfalso
      simp only [init_step] at h
      rw [if_neg h1, if_pos h2] at h
      simp only [fdtab_write, if_neg h5, Option.map_none', ite_self] at h
      exact Option.noConfusion h
  by_cases h3 : MX_HND_INFO_TYPE (p.handle_info n) = K.MX_HND_TYPE_MXIO_PIPE
  · by_cases h5 : MX_HND_INFO_ARG (p.handle_info n) < MAX_MXIO_FD
    · rw [init_step_pipe K p s n h1 h2 h3 h5] at h
      cases h
      exact hstore _ _ _ (by simp [mxio_pipe_create])
    · exfalso
      simp only [init_step] at h
      rw [if_neg h1, if_neg h2, if_pos h3] at h
      simp only [fdtab_write, if_neg h5, Option.map_none'] at h
      exact Option.noConfusion h
  by_cases h4 : MX_HND_INFO_TYPE (p.handle_info n) = K.MX_HND_TYPE_PROC_SELF
  · rw [init_step_self K p s n h1 h2 h3 h4] at h
    cases h
    exact hs
  · rw [init_step_skip K p s n h1 h2 h3 h4] at h
    cases h
    exact hs

theorem init_scan_no_null (K : Consts) : ∀ (k n : Nat) (p : mx_proc_info_t) (s : State)
    (r : mx_proc_info_t × State), init_scan K k n p s = some r →
    (∀ i, s.mxio_fdtab i ≠ some mxio_t.Null) →
    ∀ i, r.2.mxio_fdtab i ≠ some mxio_t.Null := by
  intro k
  induction k with
  | zero =>
    intro n p s r h hs
    simp only [init_scan, Option.some.injEq] at h
    subst h
    exact hs
  | succ k ih =>
    intro n p s r h hs
    rw [init_scan_succ] at h
    cases hst : init_step K p s n with
    | none => rw [hst] at h; simp at h
    | some r1 =>
      rw [hst] at h
      simp only [Option.some_bind] at h
      exact ih (n + 1) r1.1 r1.2 r h (init_step_no_null K p s n r1 hst hs)

/-- An iteration on an entry whose slot argument is inside the table is defined. -/
theorem init_step_defined (K : Consts) (p : mx_proc_info_t) (s : State) (n : Nat)
    (h : (MX_HND_INFO_TYPE (p.handle_info n) = K.MX_HND_TYPE_MXIO_REMOTE ∨
        MX_HND_INFO_TYPE (p.handle_info n) = K.MX_HND_TYPE_MXIO_PIPE) →
      MX_HND_INFO_ARG (p.handle_info n) < MAX_MXIO_FD) :
    ∃ r, init_step K p s n = some r := by
  by_cases h1 : MX_HND_INFO_TYPE (p.handle_info n) = K.MX_HND_TYPE_MXIO_ROOT
  · exact ⟨_, init_step_root K p s n h1⟩
  by_cases h2 : MX_HND_INFO_TYPE (p.handle_info n) = K.MX_HND_TYPE_MXIO_REMOTE
  · by_cases hc : n + 1 < p.handle_count ∧ p.handle_info n = p.handle_info (n + 1)
    · exact ⟨_, init_step_remote_pair K p s n h1 h2 hc.1 hc.2 (h (Or.inl h2))⟩
    · exact ⟨_, init_step_remote_single K p s n h1 h2 hc (h (Or.inl h2))⟩
  by_cases h3 : MX_HND_INFO_TYPE (p.handle_info n) = K.MX_HND_TYPE_MXIO_PIPE
  · exact ⟨_, init_step_pipe K p s n h1 h2 h3 (h (Or.inr h3))⟩
  by_cases h4 : MX_HND_INFO_TYPE (p.handle_info n) = K.MX_HND_TYPE_PROC_SELF
  · exact ⟨_, init_step_self K p s n h1 h2 h3 h4⟩
  · exact ⟨_, init_step_skip K p s n h1 h2 h3 h4⟩

theorem inRange_step (K : Consts) (p : mx_proc_info_t) (s : State) (n : Nat)
    (r : mx_proc_info_t × State) (h : init_step K p s n = some r) (hr : InRange K p) :
    InRange K r.1 := by
  obtain ⟨c, _, _, g⟩ := init_step_frame K p s n r h
  intro m hm hty
  rcases g m with e | e
  · rw [e] at hty ⊢
    exact hr m (by rw [← c]; exact hm) hty
  · rw [e]
    decide

/-- On a bundle whose slot arguments are all inside the table the scan is
defined. -/
theorem init_scan_defined (K : Consts) : ∀ (k n : Nat) (p : mx_proc_info_t) (s : State),
    InRange K p → n + k ≤ p.handle_count → ∃ r, init_scan K k n p s = some r := by
  intro k
  induction k with
  | zero => intro n p s _ _; exact ⟨(p, s), rfl⟩
  | succ k ih =>
    intro n p s hr hle
    obtain ⟨r1, h1⟩ := init_step_defined K p s n (hr n (by omega))
    obtain ⟨c, _, _, _⟩ := init_step_frame K p s n r1 h1
    obtain ⟨r, h⟩ := ih (n + 1) r1.1 r1.2 (inRange_step K p s n r1 h1 hr)
      (by rw [c]; omega)
    exact ⟨r, by rw [init_scan_succ, h1]; exact h⟩

/-! ## C10: standard streams after bootstrap -/

/-- The standard streams on a bundle that stays inside the table: on a bundle
whose remote and pipe entries name slots inside the table,
bootstrap from the empty table is defined and afterwards slots 0, 1 and 2 are
all occupied: a slot the scan of the bundle left empty holds a Null object, a
slot the scan bound holds the object the scan bound (which is never a Null
object), and slots from 3 on are as the scan left them. The empty bundle yields
Null objects at exactly the slots 0, 1, 2, no root, and then every `open` with a
non-null path returns `ERR_BAD_HANDLE`. -/
theorem bootstrap_stdio (K : Consts) (p : mx_proc_info_t) (hr : InRange K p) :
    (∃ r0 r, init_scan K p.handle_count 0 p State.init = some r0 ∧
      __libc_extensions_init K p State.init = some r ∧
      (∀ i, i < 3 → r.2.mxio_fdtab i ≠ none) ∧
      (∀ i, i < 3 → r0.2.mxio_fdtab i = none → r.2.mxio_fdtab i = some mxio_t.Null) ∧
      (∀ i x, r0.2.mxio_fdtab i = some x →
        r.2.mxio_fdtab i = some x ∧ x ≠ mxio_t.Null) ∧
      (∀ i, 3 ≤ i → r.2.mxio_fdtab i = r0.2.mxio_fdtab i)) ∧
    (∃ r, __libc_extensions_init K (mx_proc_info_t.ofList []) State.init = some r ∧
      (∀ i, r.2.mxio_fdtab i = if i < 3 then some mxio_t.Null else none) ∧
      r.2.mxio_root_handle = none ∧
      (∀ (O : Ops) (path : String) (flags : Int),
        __open K O r.2 (some path) flags = (K.ERR_BAD_HANDLE, r.2))) := by
  constructor
  · obtain ⟨r0, h0⟩ := init_scan_defined K p.handle_count 0 p State.init hr (by omega)
    have hnn := init_scan_no_null K p.handle_count 0 p State.init r0 h0
      (fun i => by simp [State.init])
    obtain ⟨t1, _, _, _⟩ := init_stdio_spec 3 0 r0.2
    refine ⟨r0, (r0.1, (init_stdio 3 0 r0.2).log Call.atexit), h0, ?_, ?_, ?_, ?_, ?_⟩
    · simp only [__libc_extensions_init, h0, Option.map_some']
    · intro i hi
      show (init_stdio 3 0 r0.2).mxio_fdtab i ≠ none
      rw [t1 i, if_pos (by omega)]
      simp
    · intro i hi hnone
      show (init_stdio 3 0 r0.2).mxio_fdtab i = some mxio_t.Null
      rw [t1 i, if_pos (by omega), hnone]
      rfl
    · intro i x hx
      refine ⟨?_, fun hnull => hnn i (by rw [hx, hnull])⟩
      show (init_stdio 3 0 r0.2).mxio_fdtab i = some x
      rw [t1 i, hx]
      simp
    · intro i hi
      show (init_stdio 3 0 r0.2).mxio_fdtab i = r0.2.mxio_fdtab i
      rw [t1 i, if_neg (by omega)]
  · obtain ⟨t1, t2, _, _⟩ := init_stdio_spec 3 0 State.init
    refine ⟨(mx_proc_info_t.ofList [], (init_stdio 3 0 State.init).log Call.atexit),
      rfl, ?_, ?_, ?_⟩
    · intro i
      show (init_stdio 3 0 State.init).mxio_fdtab i = _
      rw [t1 i]
      by_cases hi : i < 3
      · rw [if_pos (by omega), if_pos hi]
        rfl
      · rw [if_neg (by omega), if_neg hi]
        rfl
    · show (init_stdio 3 0 State.init).mxio_root_handle = none
      rw [t2]
      rfl
    · intro O path flags
      have hroot : ((init_stdio 3 0 State.init).log Call.atexit).mxio_root_handle = none := by
        show (init_stdio 3 0 State.init).mxio_root_handle = none
        rw [t2]
        rfl
      simp only [__open, hroot]

theorem inRange_remotePair : InRange sampleConsts remotePair := by
  intro m hm _
  have hm2 : m < 2 := hm
  have hc : m = 0 ∨ m = 1 := by omega
  rcases hc with h | h <;> subst h <;> decide

/-- The standard streams at a concrete input: on the bundle
`[(5, RemoteTag@3), (6, RemoteTag@3)]` bootstrap is defined and leaves slots 0,
1, 2 occupied. -/
theorem bootstrap_stdio_witness :
    InRange sampleConsts remotePair ∧
    ∃ r0 r, init_scan sampleConsts remotePair.handle_count 0 remotePair State.init = some r0 ∧
      __libc_extensions_init sampleConsts remotePair State.init = some r ∧
      (∀ i, i < 3 → r.2.mxio_fdtab i ≠ none) ∧
      (∀ i, i < 3 → r0.2.mxio_fdtab i = none → r.2.mxio_fdtab i = some mxio_t.Null) ∧
      (∀ i x, r0.2.mxio_fdtab i = some x →
        r.2.mxio_fdtab i = some x ∧ x ≠ mxio_t.Null) ∧
      (∀ i, 3 ≤ i → r.2.mxio_fdtab i = r0.2.mxio_fdtab i) :=
  ⟨inRange_remotePair, (bootstrap_stdio sampleConsts remotePair inRange_remotePair).1⟩

/-- The scan of `[(h0, RootTag), (h1, RemoteTag@3), (h2, RemoteTag@3)]`. -/
theorem rootAndPair_scan (h0 h1 h2 : Nat) :
    init_scan sampleConsts 3 0 (rootAndPair h0 h1 h2) State.init
      = some ((((rootAndPair h0 h1 h2).consume 0).set_info 2 0).consume 1,
          ({ State.init.log (Call.remote_create h0 0) with
              mxio_root_handle := some (mxio_t.Remote h0 0) }.log
            (Call.remote_create h1 h2)).store 3 (some (mxio_t.Remote h1 h2))) := by
  have f0 : (rootAndPair h0 h1 h2).handle_info 0 = 16 := rfl
  have g0 : (rootAndPair h0 h1 h2).handle 0 = h0 := rfl
  have f1 : ((rootAndPair h0 h1 h2).consume 0).handle_info 1 = 196625 := by
    simp [rootAndPair, mx_proc_info_t.ofList, mx_proc_info_t.consume, arr_set]
  have f2 : ((rootAndPair h0 h1 h2).consume 0).handle_info (1 + 1) = 196625 := by
    simp [rootAndPair, mx_proc_info_t.ofList, mx_proc_info_t.consume, arr_set]
  have g1 : ((rootAndPair h0 h1 h2).consume 0).handle 1 = h1 := by
    simp [rootAndPair, mx_proc_info_t.ofList, mx_proc_info_t.consume, arr_set]
  have g2 : ((rootAndPair h0 h1 h2).consume 0).handle (1 + 1) = h2 := by
    simp [rootAndPair, mx_proc_info_t.ofList, mx_proc_info_t.consume, arr_set]
  have f3 : ((((rootAndPair h0 h1 h2).consume 0).set_info (1 + 1) 0).consume 1).handle_info 2
      = 0 := by
    simp [mx_proc_info_t.consume, mx_proc_info_t.set_info, arr_set]
  have a1 : MX_HND_INFO_ARG 196625 = 3 := by decide
  have e0 := init_step_root sampleConsts (rootAndPair h0 h1 h2) State.init 0
    (by rw [f0]; decide)
  have e1 := init_step_remote_pair sampleConsts ((rootAndPair h0 h1 h2).consume 0)
    { State.init.log (Call.remote_create h0 0) with
      mxio_root_handle := some (mxio_t.Remote h0 0) } 1
    (by rw [f1]; decide) (by rw [f1]; decide)
    (show 1 + 1 < 3 by decide) (by rw [f1, f2])
    (by rw [f1]; decide)
  have e2 := init_step_skip sampleConsts
    ((((rootAndPair h0 h1 h2).consume 0).set_info (1 + 1) 0).consume 1)
    (({ State.init.log (Call.remote_create h0 0) with
        mxio_root_handle := some (mxio_t.Remote h0 0) }.log
      (Call.remote_create h1 h2)).store 3 (some (mxio_t.Remote h1 h2))) 2
    (by rw [f3]; decide) (by rw [f3]; decide) (by rw [f3]; decide) (by rw [f3]; decide)
  rw [g0] at e0
  rw [f1, g1, g2, a1] at e1
  rw [init_scan_succ, e0, Option.some_bind, init_scan_succ]
  simp only [mxio_remote_create] at e1 ⊢
  rw [e1, Option.some_bind, init_scan_succ, e2, Option.some_bind]
  rfl

theorem init_scan_one (K : Consts) (n : Nat) (p : mx_proc_info_t) (s : State) :
    init_scan K 1 n p s = init_step K p s n := by
  rw [init_scan_succ]
  cases init_step K p s n <;> rfl

theorem init_scan_snoc (K : Consts) (n : Nat) (p : mx_proc_info_t) (s : State)
    (r : mx_proc_info_t × State) (h : init_scan K n 0 p s = some r) :
    init_scan K (n + 1) 0 p s = init_step K r.1 r.2 n := by
  rw [init_scan_add K n 1 0 p s, h, Option.some_bind, init_scan_one, Nat.zero_add]

/-- C8 as stated fails on three adjacent identical remote entries: entry 1 of
`[(5, RemoteTag@3), (6, RemoteTag@3), (7, RemoteTag@3)]` carries a remote tag
for slot 3 and entry 2 carries the identical tag word, yet bootstrap builds no
Remote object from the handles 6 and 7; it builds `Remote(5, 6)` and, from
entry 2 alone, `Remote(7, 0)`, which ends up at slot 3. -/
theorem pairing_triple_counterexample :
    MX_HND_INFO_TYPE (remoteTriple.handle_info 1) = sampleConsts.MX_HND_TYPE_MXIO_REMOTE ∧
    MX_HND_INFO_ARG (remoteTriple.handle_info 1) = 3 ∧
    1 + 1 < remoteTriple.handle_count ∧
    remoteTriple.handle_info (1 + 1) = remoteTriple.handle_info 1 ∧
    (__libc_extensions_init sampleConsts remoteTriple State.init).map
        (fun r => (r.2.mxio_fdtab 3, r.2.calls,
          decide (Call.remote_create 6 7 ∈ r.2.calls)))
      = some (some (mxio_t.Remote 7 0),
          [Call.remote_create 5 6, Call.remote_create 7 0, Call.null_create,
            Call.null_create, Call.null_create, Call.atexit], false) := by
  decide

/-- C8, amended: let the scan reach entry `n` with the tag word of that entry
intact (entry `n` has not been consumed as the event handle of entry `n - 1`),
and let this word be a remote-object tag for a slot `k < 256`. If entry `n + 1`
exists and carries the identical tag word, then processing the entries `n` and
`n + 1` constructs exactly one object, `Remote(handle[n], handle[n+1])`, stores
it at slot `k`, changes nothing else in the state, and nulls the tag of entry
`n + 1`, from which no object is constructed. If entry `n` is the last one or
entry `n + 1` carries a different tag word, processing entry `n` constructs
`Remote(handle[n], 0)` and stores it at slot `k`. On the bundle
`[(h0, RootTag), (h1, RemoteTag@3), (h2, RemoteTag@3)]` bootstrap constructs
the root from `h0` and the single object `Remote(h1, h2)`, bound at slot 3. -/
theorem remote_pairing (K : Consts) (p0 : mx_proc_info_t) (s0 : State) (n : Nat)
    (ps : mx_proc_info_t × State) (htags : TagsOk K)
    (hpre : init_scan K n 0 p0 s0 = some ps)
    (hintact : ps.1.handle_info n = p0.handle_info n)
    (hty : MX_HND_INFO_TYPE (p0.handle_info n) = K.MX_HND_TYPE_MXIO_REMOTE)
    (hk : MX_HND_INFO_ARG (p0.handle_info n) < MAX_MXIO_FD) :
    (n + 1 < p0.handle_count → p0.handle_info (n + 1) = p0.handle_info n →
      ∃ r, init_scan K (n + 1) 0 p0 s0 = some r ∧ init_scan K (n + 2) 0 p0 s0 = some r ∧
        r.2 = (ps.2.log (Call.remote_create (p0.handle n) (p0.handle (n + 1)))).store
          (MX_HND_INFO_ARG (p0.handle_info n))
          (some (mxio_t.Remote (p0.handle n) (p0.handle (n + 1)))) ∧
        r.1.handle_info (n + 1) = 0) ∧
    (¬ (n + 1 < p0.handle_count ∧ p0.handle_info (n + 1) = p0.handle_info n) →
      ∃ r, init_scan K (n + 1) 0 p0 s0 = some r ∧
        r.2 = (ps.2.log (Call.remote_create (p0.handle n) 0)).store
          (MX_HND_INFO_ARG (p0.handle_info n)) (some (mxio_t.Remote (p0.handle n) 0))) ∧
    (∀ h0 h1 h2 : Nat, ∃ r,
      __libc_extensions_init sampleConsts (rootAndPair h0 h1 h2) State.init = some r ∧
      r.2.mxio_root_handle = some (mxio_t.Remote h0 0) ∧
      (∀ i, r.2.mxio_fdtab i
        = if i = 3 then some (mxio_t.Remote h1 h2)
          else if i < 3 then some mxio_t.Null else none) ∧
      r.2.calls = [Call.remote_create h0 0, Call.remote_create h1 h2, Call.null_create,
        Call.null_create, Call.null_create, Call.atexit]) := by
  obtain ⟨hc, hh, hi⟩ := init_scan_frame K n 0 p0 s0 ps hpre
  have hhn : ps.1.handle n = p0.handle n := hh n (by omega)
  have hhn1 : ps.1.handle (n + 1) = p0.handle (n + 1) := hh (n + 1) (by omega)
  have hin1 : ps.1.handle_info (n + 1) = p0.handle_info (n + 1) := hi (n + 1) (by omega)
  have hty2 : MX_HND_INFO_TYPE (ps.1.handle_info n) = K.MX_HND_TYPE_MXIO_REMOTE := by
    rw [hintact]; exact hty
  have hnr : MX_HND_INFO_TYPE (ps.1.handle_info n) ≠ K.MX_HND_TYPE_MXIO_ROOT := by
    rw [hty2]; exact fun h => htags.2.2.2.2.1 h.symm
  have hk2 : MX_HND_INFO_ARG (ps.1.handle_info n) < MAX_MXIO_FD := by
    rw [hintact]; exact hk
  refine ⟨?_, ?_, ?_⟩
  · intro hlt heq
    have e1 := init_step_remote_pair K ps.1 ps.2 n hnr hty2 (by rw [hc]; exact hlt)
      (by rw [hintact, hin1, heq]) hk2
    rw [hintact, hhn, hhn1] at e1
    have hz : ((ps.1.set_info (n + 1) 0).consume n).handle_info (n + 1) = 0 := by
      simp [mx_proc_info_t.consume, mx_proc_info_t.set_info, arr_set]
    have t0 : MX_HND_INFO_TYPE 0 = 0 := rfl
    have e2 := init_step_skip K ((ps.1.set_info (n + 1) 0).consume n)
      ((ps.2.log (Call.remote_create (p0.handle n) (p0.handle (n + 1)))).store
        (MX_HND_INFO_ARG (p0.handle_info n))
        (some (mxio_remote_create (p0.handle n) (p0.handle (n + 1))))) (n + 1)
      (by rw [hz, t0]; exact fun h => htags.1 h.symm)
      (by rw [hz, t0]; exact fun h => htags.2.1 h.symm)
      (by rw [hz, t0]; exact fun h => htags.2.2.1 h.symm)
      (by rw [hz, t0]; exact fun h => htags.2.2.2.1 h.symm)
    have s1 : init_scan K (n + 1) 0 p0 s0 = some ((ps.1.set_info (n + 1) 0).consume n,
        (ps.2.log (Call.remote_create (p0.handle n) (p0.handle (n + 1)))).store
          (MX_HND_INFO_ARG (p0.handle_info n))
          (some (mxio_remote_create (p0.handle n) (p0.handle (n + 1))))) := by
      rw [init_scan_snoc K n p0 s0 ps hpre, e1]
    refine ⟨_, s1, ?_, rfl, hz⟩
    rw [init_scan_snoc K (n + 1) p0 s0 _ s1]
    exact e2
  · intro hno
    have e1 := init_step_remote_single K ps.1 ps.2 n hnr hty2
      (by rw [hc, hintact, hin1]; exact fun h => hno ⟨h.1, h.2.symm⟩) hk2
    rw [hintact, hhn] at e1
    exact ⟨_, by rw [init_scan_snoc K n p0 s0 ps hpre, e1], rfl⟩
  · intro h0 h1 h2
    have hs := rootAndPair_scan h0 h1 h2
    obtain ⟨t1, t2, _, t4⟩ := init_stdio_spec 3 0
      (({ State.init.log (Call.remote_create h0 0) with
          mxio_root_handle := some (mxio_t.Remote h0 0) }.log
        (Call.remote_create h1 h2)).store 3 (some (mxio_t.Remote h1 h2)))
    have hb : __libc_extensions_init sampleConsts (rootAndPair h0 h1 h2) State.init
        = some ((((rootAndPair h0 h1 h2).consume 0).set_info 2 0).consume 1,
            (init_stdio 3 0 (({ State.init.log (Call.remote_create h0 0) with
                mxio_root_handle := some (mxio_t.Remote h0 0) }.log
              (Call.remote_create h1 h2)).store 3 (some (mxio_t.Remote h1 h2)))).log
              Call.atexit) := by
      unfold __libc_extensions_init
      rw [show (rootAndPair h0 h1 h2).handle_count = 3 from rfl, hs]
      rfl
    refine ⟨_, hb, ?_, ?_, ?_⟩
    · dsimp only
      rw [log_root, t2]
      rfl
    · intro i
      dsimp only
      rw [log_fdtab, t1 i]
      by_cases h3 : i = 3
      · subst h3
        simp
      · by_cases hlt : i < 3
        · rw [if_pos (by omega), if_neg h3, if_pos hlt, store_fdtab,
            fdtab_set_other _ _ _ _ h3]
          rfl
        · rw [if_neg (by omega), if_neg h3, if_neg hlt, store_fdtab,
            fdtab_set_other _ _ _ _ h3]
          rfl
    · dsimp only
      rw [log_calls, t4]
      simp [List.range'_succ, List.filter_cons, fdtab_set, State.init, List.replicate_succ]

/-- C8 (amended) at a concrete input: in `[(10, RootTag), (11, RemoteTag@3),
(12, RemoteTag@3)]` the scan reaches entry 1 intact, and processing the entries
1 and 2 adds the one object `Remote(11, 12)` at slot 3. -/
theorem remote_pairing_witness :
    TagsOk sampleConsts ∧
    init_scan sampleConsts 1 0 (rootAndPair 10 11 12) State.init
      = some ((rootAndPair 10 11 12).consume 0,
          { State.init.log (Call.remote_create 10 0) with
            mxio_root_handle := some (mxio_t.Remote 10 0) }) ∧
    ∃ r, init_scan sampleConsts (1 + 1) 0 (rootAndPair 10 11 12) State.init = some r ∧
      init_scan sampleConsts (1 + 2) 0 (rootAndPair 10 11 12) State.init = some r ∧
      r.2 = (({ State.init.log (Call.remote_create 10 0) with
            mxio_root_handle := some (mxio_t.Remote 10 0) } : State).log
          (Call.remote_create ((rootAndPair 10 11 12).handle 1)
            ((rootAndPair 10 11 12).handle (1 + 1)))).store
        (MX_HND_INFO_ARG ((rootAndPair 10 11 12).handle_info 1))
        (some (mxio_t.Remote ((rootAndPair 10 11 12).handle 1)
          ((rootAndPair 10 11 12).handle (1 + 1)))) ∧
      r.1.handle_info (1 + 1) = 0 :=
  ⟨by decide, rfl,
   (remote_pairing sampleConsts (rootAndPair 10 11 12) State.init 1
      ((rootAndPair 10 11 12).consume 0,
        { State.init.log (Call.remote_create 10 0) with
          mxio_root_handle := some (mxio_t.Remote 10 0) })
      (by decide) rfl (by decide) (by decide) (by decide)).1 (by decide) (by decide)⟩

/-! ## C11: the capacity check of the packer -/

/-- C11: for every state and every capacity below `MXIO_MAX_HANDLES`,
`mxio_create_subprocess_handles` returns `ERR_NO_MEMORY` having done nothing:
no cell of the output arrays is written, no call is made (so no clone
operation is invoked), and the table and the other globals are unchanged. -/
theorem create_subprocess_small_capacity (K : Consts) (O : Ops) (s : State) (count : Nat)
    (h : count < K.MXIO_MAX_HANDLES) :
    mxio_create_subprocess_handles K O s count = some (K.ERR_NO_MEMORY, [], s) ∧
    ∀ r, mxio_create_subprocess_handles K O s count = some r →
      r.1 = K.ERR_NO_MEMORY ∧ r.2.1 = [] ∧ r.2.2.calls = s.calls ∧
      r.2.2.mxio_fdtab = s.mxio_fdtab ∧ r.2.2 = s := by
  have e : mxio_create_subprocess_handles K O s count = some (K.ERR_NO_MEMORY, [], s) := by
    simp only [mxio_create_subprocess_handles, h, if_true]
  refine ⟨e, fun r hr => ?_⟩
  rw [e] at hr
  cases hr
  exact ⟨rfl, rfl, rfl, rfl, rfl⟩

/-- C11 at a concrete input: with capacity 2 under `MXIO_MAX_HANDLES = 3` the
packer returns `ERR_NO_MEMORY` from the full table without any call. -/
theorem create_subprocess_small_capacity_witness :
    (2 : Nat) < sampleConsts.MXIO_MAX_HANDLES ∧
    mxio_create_subprocess_handles sampleConsts sampleOps fullState 2
      = some (sampleConsts.ERR_NO_MEMORY, [], fullState) :=
  ⟨by decide,
   (create_subprocess_small_capacity sampleConsts sampleOps fullState 2 (by decide)).1⟩

/-! ## C17: the error kind of the capacity check -/

/-- C17 as stated fails: with capacity 0 the packer returns `ERR_NO_MEMORY`
(`-4` under `sampleConsts`), which is not `ERR_NO_RESOURCES` (`-5`). -/
theorem small_capacity_not_no_resources :
    (mxio_create_subprocess_handles sampleConsts sampleOps State.init 0).map (fun r => r.1)
      = some sampleConsts.ERR_NO_MEMORY ∧
    (mxio_create_subprocess_handles sampleConsts sampleOps State.init 0).map (fun r => r.1)
      ≠ some sampleConsts.ERR_NO_RESOURCES := by
  decide

/-- C17, amended: for every state and every capacity below `MXIO_MAX_HANDLES`
the packer fails with `ERR_NO_MEMORY` before touching any table slot: the table
after the call is the table before it. The status is `ERR_NO_RESOURCES` only
if the two error constants coincide. -/
theorem small_capacity_no_memory (K : Consts) (O : Ops) (s : State) (count : Nat)
    (h : count < K.MXIO_MAX_HANDLES) :
    (mxio_create_subprocess_handles K O s count).map (fun r => r.1)
      = some K.ERR_NO_MEMORY ∧
    (mxio_create_subprocess_handles K O s count).map (fun r => r.2.2.mxio_fdtab)
      = some s.mxio_fdtab ∧
    (∀ fd : Int, (mxio_create_subprocess_handles K O s count).map
      (fun r => fd_to_io r.2.2 fd) = some (fd_to_io s fd)) ∧
    (K.ERR_NO_MEMORY ≠ K.ERR_NO_RESOURCES →
      (mxio_create_subprocess_handles K O s count).map (fun r => r.1)
        ≠ some K.ERR_NO_RESOURCES) := by
  have e : mxio_create_subprocess_handles K O s count = some (K.ERR_NO_MEMORY, [], s) := by
    simp only [mxio_create_subprocess_handles, h, if_true]
  rw [e]
  refine ⟨rfl, rfl, fun _ => rfl, fun hne heq => ?_⟩
  simp only [Option.map_some', Option.some.injEq] at heq
  exact hne heq

/-- C17 (amended) at a concrete input: capacity 0 on the initial state. -/
theorem small_capacity_no_memory_witness :
    (0 : Nat) < sampleConsts.MXIO_MAX_HANDLES ∧
    (mxio_create_subprocess_handles sampleConsts sampleOps State.init 0).map (fun r => r.1)
      = some sampleConsts.ERR_NO_MEMORY :=
  ⟨by decide, (small_capacity_no_memory sampleConsts sampleOps State.init 0 (by decide)).1⟩

/-! ## C20: the packer without a root -/

/-- C20, evaluated: with no root installed and capacity 3 the packer has no
result, because `mxio_clone_root` dereferences the `NULL` root; this is so in
the initial state and in the state after bootstrap of the empty bundle, where
`open` returns `ERR_BAD_HANDLE`. -/
theorem packer_without_root :
    (mxio_create_subprocess_handles sampleConsts sampleOps State.init 3).isNone = true ∧
    ((__libc_extensions_init sampleConsts (mx_proc_info_t.ofList []) State.init).map
      (fun r => (mxio_create_subprocess_handles sampleConsts sampleOps r.2 3).isNone))
      = some true ∧
    ((__libc_extensions_init sampleConsts (mx_proc_info_t.ofList []) State.init).map
      (fun r => (__open sampleConsts sampleOps r.2 (some "a") 0).1))
      = some sampleConsts.ERR_BAD_HANDLE ∧
    (mxio_clone_root sampleConsts sampleOps State.init).isNone = true := by
  decide

/-! ## C18: where bootstrap writes -/

/-- C18, evaluated: on the bundle `[(5, RemoteTag@300)]` the slot argument is
300, and bootstrap has no result because it stores to `mxio_fdtab[300]`,
outside the 256-element array; `mxio_bind_to_fd` rejects the same slot with
`ERR_INVALID_ARGS`. -/
theorem bootstrap_write_out_of_range :
    MX_HND_INFO_TYPE (remoteAt300.handle_info 0) = sampleConsts.MX_HND_TYPE_MXIO_REMOTE ∧
    MX_HND_INFO_ARG (remoteAt300.handle_info 0) = 300 ∧
    (fdtab_write State.init 300 (mxio_t.Remote 5 0)).isNone = true ∧
    (__libc_extensions_init sampleConsts remoteAt300 State.init).isNone = true ∧
    (mxio_bind_to_fd sampleConsts State.init (some (mxio_t.Remote 5 0)) 300).1
      = sampleConsts.ERR_INVALID_ARGS := by
  decide

/-! ## C19: the buffers of `mxio_start_process` -/

set_option maxRecDepth 100000 in
/-- C19, evaluated: `hnd` has at least as many elements as the capacity passed
to the packer, for every `MXIO_MAX_HANDLES`; `ids` has fewer than the capacity
as soon as `MXIO_MAX_HANDLES ≥ 2`: with the value 3 it has 261 elements for a
capacity of 771. From a state with a root and all 256 slots bound, where every
clone yields two handles, the packer emits 514 cells, the last ones at indices
beyond 261, so `mxio_start_process` has no result. -/
theorem start_process_ids_too_short :
    (∀ K : Consts, start_process_capacity K ≤ start_process_hnd_len K) ∧
    (∀ K : Consts, 2 ≤ K.MXIO_MAX_HANDLES →
      start_process_ids_len K < start_process_capacity K) ∧
    start_process_ids_len sampleConsts = 261 ∧
    start_process_capacity sampleConsts = 771 ∧
    (mxio_create_subprocess_handles sampleConsts sampleOps fullState
        (start_process_capacity sampleConsts)).map
      (fun r => (r.1, r.2.1.length, r.2.1.getLast?.map (fun e => e.1)))
      = some (514, 514, some 513) ∧
    (mxio_start_process sampleConsts sampleOps fullState 0).isNone = true := by
  refine ⟨?_, ?_, by decide, by decide, ?_, ?_⟩
  · intro K
    unfold start_process_capacity start_process_hnd_len MAX_MXIO_FD
    exact Nat.mul_le_mul_right _ (by decide)
  · intro K hK
    unfold start_process_capacity start_process_ids_len MAX_MXIO_FD
    omega
  · decide
  · decide

/-! ## C14: stamping the destination slot -/

theorem shl16_of_slot (newfd : Int) (h0 : 0 ≤ newfd) (h1 : newfd < 65536) :
    shl16 newfd = newfd.toNat * 65536 := by
  unfold shl16
  have e : (newfd * 65536) % 4294967296 = newfd * 65536 :=
    Int.emod_eq_of_lt (by omega) (by omega)
  rw [e]
  omega

/-- Stamping a tag whose upper 16 bits are zero with a slot adds the slot in
the upper half. -/
theorem stamp_eq_add (newfd : Int) (t : Nat) (h0 : 0 ≤ newfd) (h1 : newfd < 65536)
    (ht : t < 65536) : stamp newfd t = t + newfd.toNat * 65536 := by
  unfold stamp
  rw [shl16_of_slot newfd h0 h1, Nat.or_comm]
  have h := Nat.mul_add_lt_is_or (show t < 2 ^ 16 from ht) newfd.toNat
  rw [show (2 : Nat) ^ 16 = 65536 from rfl] at h
  rw [Nat.mul_comm newfd.toNat 65536, ← h]
  omega

theorem stamp_arg (newfd : Int) (t : Nat) (h0 : 0 ≤ newfd) (h1 : newfd < 65536)
    (ht : t < 65536) : MX_HND_INFO_ARG (stamp newfd t) = newfd.toNat := by
  rw [stamp_eq_add newfd t h0 h1 ht]
  unfold MX_HND_INFO_ARG
  omega

theorem stamp_type (newfd : Int) (t : Nat) (h0 : 0 ≤ newfd) (h1 : newfd < 65536)
    (ht : t < 65536) : MX_HND_INFO_TYPE (stamp newfd t) = t := by
  rw [stamp_eq_add newfd t h0 h1 ht]
  unfold MX_HND_INFO_TYPE
  omega

theorem clone_fd_bound (K : Consts) (O : Ops) (s : State) (fd newfd : Int) (io : mxio_t)
    (hio : fd_to_io s fd = some io) :
    mxio_clone_fd K O s fd newfd
      = if 0 < (O.clone s.calls io).1 then
          ((O.clone s.calls io).1,
            (clone_cells (O.clone s.calls io).1 (O.clone s.calls io).2.1
              (O.clone s.calls io).2.2).map (fun e => (e.1, stamp newfd e.2)),
            s.log (Call.clone io))
        else ((O.clone s.calls io).1, [], s.log (Call.clone io)) := by
  simp only [mxio_clone_fd, hio]

theorem clone_fd_unbound (K : Consts) (O : Ops) (s : State) (fd newfd : Int)
    (hio : fd_to_io s fd = none) :
    mxio_clone_fd K O s fd newfd = (K.ERR_BAD_HANDLE, [], s) := by
  simp only [mxio_clone_fd, hio]

/-- A bootstrap iteration on a remote-object or pipe-endpoint entry whose tag
was stamped with `newfd` stores an object at slot `newfd` and nowhere else. -/
theorem init_step_stamped (K : Consts) (p : mx_proc_info_t) (s : State) (n : Nat)
    (newfd : Int) (t : Nat) (htags : TagsOk K) (h0 : 0 ≤ newfd)
    (h1 : newfd < (MAX_MXIO_FD : Int)) (ht : t < 65536)
    (hinfo : p.handle_info n = stamp newfd t)
    (hkind : t = K.MX_HND_TYPE_MXIO_REMOTE ∨ t = K.MX_HND_TYPE_MXIO_PIPE) :
    ∃ r, init_step K p s n = some r ∧ r.2.mxio_fdtab newfd.toNat ≠ none ∧
      ∀ j, j ≠ newfd.toNat → r.2.mxio_fdtab j = s.mxio_fdtab j := by
  have hlt : newfd < 65536 := by
    have : (MAX_MXIO_FD : Int) = 256 := rfl
    omega
  have harg : MX_HND_INFO_ARG (p.handle_info n) = newfd.toNat := by
    rw [hinfo]; exact stamp_arg newfd t h0 hlt ht
  have hty : MX_HND_INFO_TYPE (p.handle_info n) = t := by
    rw [hinfo]; exact stamp_type newfd t h0 hlt ht
  have hin : MX_HND_INFO_ARG (p.handle_info n) < MAX_MXIO_FD := by
    rw [harg]
    have : (MAX_MXIO_FD : Int) = 256 := rfl
    have : MAX_MXIO_FD = 256 := rfl
    omega
  have hstore : ∀ (c : Call) (x : mxio_t),
      ((s.log c).store (MX_HND_INFO_ARG (p.handle_info n)) (some x)).mxio_fdtab newfd.toNat
        ≠ none ∧
      ∀ j, j ≠ newfd.toNat →
        ((s.log c).store (MX_HND_INFO_ARG (p.handle_info n)) (some x)).mxio_fdtab j
          = s.mxio_fdtab j := by
    intro c x
    rw [harg]
    refine ⟨by simp, fun j hj => ?_⟩
    rw [store_fdtab, fdtab_set_other _ _ _ _ hj, log_fdtab]
  rcases hkind with hk | hk
  · have hr : MX_HND_INFO_TYPE (p.handle_info n) ≠ K.MX_HND_TYPE_MXIO_ROOT := by
      rw [hty, hk]; exact fun h => htags.2.2.2.2.1 h.symm
    have hrem : MX_HND_INFO_TYPE (p.handle_info n) = K.MX_HND_TYPE_MXIO_REMOTE := by
      rw [hty, hk]
    by_cases hc : n + 1 < p.handle_count ∧ p.handle_info n = p.handle_info (n + 1)
    · exact ⟨_, init_step_remote_pair K p s n hr hrem hc.1 hc.2 hin,
        (hstore _ _).1, (hstore _ _).2⟩
    · exact ⟨_, init_step_remote_single K p s n hr hrem hc hin,
        (hstore _ _).1, (hstore _ _).2⟩
  · have hr : MX_HND_INFO_TYPE (p.handle_info n) ≠ K.MX_HND_TYPE_MXIO_ROOT := by
      rw [hty, hk]; exact fun h => htags.2.2.2.2.2.1 h.symm
    have hrem : MX_HND_INFO_TYPE (p.handle_info n) ≠ K.MX_HND_TYPE_MXIO_REMOTE := by
      rw [hty, hk]; exact fun h => htags.2.2.2.2.2.2.2.1 h.symm
    have hpipe : MX_HND_INFO_TYPE (p.handle_info n) = K.MX_HND_TYPE_MXIO_PIPE := by
      rw [hty, hk]
    exact ⟨_, init_step_pipe K p s n hr hrem hpipe hin, (hstore _ _).1, (hstore _ _).2⟩

/-! ## The packer loop -/

theorem clone_cells_length (r : Int) (hs ts : Nat → Nat) :
    (clone_cells r hs ts).length = r.toNat := by
  simp [clone_cells]

theorem pack_hist_succ (s : State) (root : mxio_t) (m : Nat) :
    pack_hist s root (m + 1)
      = pack_hist s root m ++ ((s.mxio_fdtab m).map Call.clone).toList := by
  unfold pack_hist
  rw [List.range_succ, List.filterMap_append]
  cases h : s.mxio_fdtab m <;> simp [h]

/-- What one call `mxio_clone_fd(fd, fd, …)` of the packer does, for a slot
inside the table, at a state that has the table of `s` and the log of the
packer after the slots below `fd`. -/
theorem clone_fd_step (K : Consts) (O : Ops) (s : State) (root : mxio_t)
    (hbad : K.ERR_BAD_HANDLE ≤ 0) (fd : Nat) (hfd : fd < MAX_MXIO_FD) (st : State)
    (htab : st.mxio_fdtab = s.mxio_fdtab) (hcalls : st.calls = pack_hist s root fd) :
    (mxio_clone_fd K O st (fd : Int) (fd : Int)).2.2.mxio_fdtab = s.mxio_fdtab ∧
    (mxio_clone_fd K O st (fd : Int) (fd : Int)).2.2.calls = pack_hist s root (fd + 1) ∧
    (mxio_clone_fd K O st (fd : Int) (fd : Int)).2.2.mxio_root_handle
      = st.mxio_root_handle ∧
    (mxio_clone_fd K O st (fd : Int) (fd : Int)).2.2.mxio_process_handle
      = st.mxio_process_handle ∧
    ((mxio_clone_fd K O st (fd : Int) (fd : Int)).1 ≤ 0 → pack_cells O s root fd = []) ∧
    (0 < (mxio_clone_fd K O st (fd : Int) (fd : Int)).1 →
      pack_cells O s root fd = (mxio_clone_fd K O st (fd : Int) (fd : Int)).2.1) := by
  have hres : fd_to_io st (fd : Int) = s.mxio_fdtab fd := by
    rw [fd_to_io_of_lt st fd hfd, htab]
  cases hslot : s.mxio_fdtab fd with
  | none =>
    rw [hslot] at hres
    rw [clone_fd_unbound K O st _ _ hres]
    refine ⟨htab, ?_, rfl, rfl, fun _ => ?_, fun h => ?_⟩
    · rw [pack_hist_succ, hslot, hcalls]; simp
    · simp only [pack_cells, hslot]
    · exact absurd h (by simp only; omega)
  | some io =>
    rw [hslot] at hres
    rw [clone_fd_bound K O st _ _ io hres]
    have hcl : (st.log (Call.clone io)).calls = pack_hist s root (fd + 1) := by
      rw [pack_hist_succ, hslot, log_calls, hcalls]; rfl
    by_cases hpos : 0 < (O.clone st.calls io).1
    · rw [if_pos hpos]
      refine ⟨htab, hcl, rfl, rfl, fun h => absurd hpos (by simp only at h; omega), fun _ => ?_⟩
      simp only [pack_cells, hslot, ← hcalls, hpos, if_true]
    · rw [if_neg hpos]
      refine ⟨htab, hcl, rfl, rfl, fun _ => ?_, fun h => absurd h hpos⟩
      simp only [pack_cells, hslot, ← hcalls, hpos, if_false]

/-- A positive result of `mxio_clone_fd` is the result of a clone operation,
and as many cells are written. -/
theorem clone_fd_pos (K : Consts) (O : Ops) (st : State) (fd newfd : Int)
    (hbad : K.ERR_BAD_HANDLE ≤ 0) (hpos : 0 < (mxio_clone_fd K O st fd newfd).1) :
    (∃ io, (mxio_clone_fd K O st fd newfd).1 = (O.clone st.calls io).1) ∧
    (mxio_clone_fd K O st fd newfd).2.1.length = (mxio_clone_fd K O st fd newfd).1.toNat := by
  cases hio : fd_to_io st fd with
  | none =>
    rw [clone_fd_unbound K O st _ _ hio] at hpos
    simp only at hpos
    omega
  | some io =>
    rw [clone_fd_bound K O st _ _ io hio] at hpos ⊢
    by_cases h : 0 < (O.clone st.calls io).1
    · rw [if_pos h]
      exact ⟨⟨io, rfl⟩, by simp [clone_cells_length]⟩
    · rw [if_neg h] at hpos
      exact absurd hpos h

theorem create_loop_succ (K : Consts) (O : Ops) (k fd n count : Nat)
    (out : List (Nat × Nat × Nat)) (s : State) :
    create_loop K O (k + 1) fd n count out s
      = if count < K.MXIO_MAX_HANDLES then (fd, n, count, out, s)
        else if (mxio_clone_fd K O s (fd : Int) (fd : Int)).1 ≤ 0 then
          create_loop K O k (fd + 1) n count out (mxio_clone_fd K O s (fd : Int) (fd : Int)).2.2
        else
          create_loop K O k (fd + 1) (size_add K n (mxio_clone_fd K O s (fd : Int) (fd : Int)).1)
            (size_sub K count (mxio_clone_fd K O s (fd : Int) (fd : Int)).1)
            (out ++ List.enumFrom n (mxio_clone_fd K O s (fd : Int) (fd : Int)).2.1)
            (mxio_clone_fd K O s (fd : Int) (fd : Int)).2.2 := rfl

/-- The packer loop visits the slots `fd, …, m - 1` for some `m`, stops early
only when its remaining capacity is below `MXIO_MAX_HANDLES`, clones each
occupied visited slot once in ascending order, appends the cells of those
whose clone returned a positive count, and changes no global but the log. -/
theorem create_loop_spec (K : Consts) (O : Ops) (s : State) (root : mxio_t)
    (hbad : K.ERR_BAD_HANDLE ≤ 0) :
    ∀ (k fd n cnt : Nat) (out : List (Nat × Nat × Nat)) (st : State),
      fd + k ≤ MAX_MXIO_FD → st.mxio_fdtab = s.mxio_fdtab →
      st.calls = pack_hist s root fd →
      fd ≤ (create_loop K O k fd n cnt out st).1 ∧
      (create_loop K O k fd n cnt out st).1 ≤ fd + k ∧
      ((create_loop K O k fd n cnt out st).1 = fd + k ∨
        (create_loop K O k fd n cnt out st).2.2.1 < K.MXIO_MAX_HANDLES) ∧
      (create_loop K O k fd n cnt out st).2.2.2.2.calls
        = pack_hist s root (create_loop K O k fd n cnt out st).1 ∧
      (create_loop K O k fd n cnt out st).2.2.2.2.mxio_fdtab = s.mxio_fdtab ∧
      (create_loop K O k fd n cnt out st).2.2.2.2.mxio_root_handle = st.mxio_root_handle ∧
      (create_loop K O k fd n cnt out st).2.2.2.2.mxio_process_handle
        = st.mxio_process_handle ∧
      (create_loop K O k fd n cnt out st).2.2.2.1.map Prod.snd
        = out.map Prod.snd ++
          (List.range' fd ((create_loop K O k fd n cnt out st).1 - fd)).flatMap
            (pack_cells O s root) := by
  intro k
  induction k with
  | zero =>
    intro fd n cnt out st _ htab hcalls
    refine ⟨le_refl _, le_refl _, Or.inl rfl, hcalls, htab, rfl, rfl, ?_⟩
    simp [create_loop]
  | succ k ih =>
    intro fd n cnt out st hk htab hcalls
    rw [create_loop_succ]
    by_cases hcnt : cnt < K.MXIO_MAX_HANDLES
    · rw [if_pos hcnt]
      refine ⟨le_refl _, by simp, Or.inr hcnt, hcalls, htab, rfl, rfl, ?_⟩
      simp
    · rw [if_neg hcnt]
      obtain ⟨c1, c2, c3, c4, c5, c6⟩ :=
        clone_fd_step K O s root hbad fd (by omega) st htab hcalls
      have hrange : ∀ m, fd + 1 ≤ m →
          List.range' fd (m - fd) = fd :: List.range' (fd + 1) (m - (fd + 1)) := by
        intro m hm
        have e : m - fd = (m - (fd + 1)) + 1 := by omega
        rw [e, List.range'_succ]
      by_cases hr : (mxio_clone_fd K O st (fd : Int) (fd : Int)).1 ≤ 0
      · rw [if_pos hr]
        obtain ⟨i1, i2, i3, i4, i5, i6, i7, i8⟩ := ih (fd + 1) n cnt out
          (mxio_clone_fd K O st (fd : Int) (fd : Int)).2.2 (by omega) c1 c2
        refine ⟨by omega, by omega, ?_, i4, i5, i6.trans c3, i7.trans c4, ?_⟩
        · rcases i3 with h | h
          · left; omega
          · right; exact h
        · rw [i8, hrange _ i1, List.flatMap_cons, c5 hr, List.nil_append]
      · rw [if_neg hr]
        obtain ⟨i1, i2, i3, i4, i5, i6, i7, i8⟩ := ih (fd + 1)
          (size_add K n (mxio_clone_fd K O st (fd : Int) (fd : Int)).1)
          (size_sub K cnt (mxio_clone_fd K O st (fd : Int) (fd : Int)).1)
          (out ++ List.enumFrom n (mxio_clone_fd K O st (fd : Int) (fd : Int)).2.1)
          (mxio_clone_fd K O st (fd : Int) (fd : Int)).2.2 (by omega) c1 c2
        refine ⟨by omega, by omega, ?_, i4, i5, i6.trans c3, i7.trans c4, ?_⟩
        · rcases i3 with h | h
          · left; omega
          · right; exact h
        · rw [i8, hrange _ i1, List.flatMap_cons, c6 (by omega), List.map_append,
            List.enumFrom_map_snd, List.append_assoc]

theorem size_add_eq (K : Consts) (n : Nat) (r : Int) (h0 : 0 ≤ r)
    (h : n + r.toNat ≤ K.SIZE_MAX) : size_add K n r = n + r.toNat := by
  unfold size_add
  have e : ((n : Int) + r) % ((K.SIZE_MAX : Int) + 1) = (n : Int) + r :=
    Int.emod_eq_of_lt (by omega) (by omega)
  rw [e]
  omega

theorem size_sub_eq (K : Consts) (cnt : Nat) (r : Int) (h0 : 0 ≤ r)
    (h : r.toNat ≤ cnt) (hc : cnt ≤ K.SIZE_MAX) : size_sub K cnt r = cnt - r.toNat := by
  unfold size_sub
  have e : ((cnt : Int) - r) % ((K.SIZE_MAX : Int) + 1) = (cnt : Int) - r :=
    Int.emod_eq_of_lt (by omega) (by omega)
  rw [e]
  omega

theorem range_append_enum (n : Nat) (out : List (Nat × Nat × Nat)) (cells : List (Nat × Nat))
    (h : out.map Prod.fst = List.range n) :
    (out ++ List.enumFrom n cells).map Prod.fst = List.range (n + cells.length) := by
  rw [List.map_append, h, List.enumFrom_map_fst, List.range_eq_range', List.range_eq_range',
    Nat.add_comm n cells.length, ← List.range'_append_1 0 n cells.length, Nat.zero_add]

/-- When no clone returns more than `MXIO_MAX_HANDLES`, the loop keeps
`n + count` constant (the remaining capacity never underflows), writes its
cells at the consecutive indices `0, …, n - 1`, and adds at most
`MXIO_MAX_HANDLES` cells per visited slot. -/
theorem create_loop_bound (K : Consts) (O : Ops) (hbad : K.ERR_BAD_HANDLE ≤ 0)
    (hle : ∀ (h : List Call) (io : mxio_t), (O.clone h io).1 ≤ (K.MXIO_MAX_HANDLES : Int))
    (cap : Nat) (hcap : cap ≤ K.SIZE_MAX) :
    ∀ (k fd n cnt : Nat) (out : List (Nat × Nat × Nat)) (st : State),
      n + cnt = cap → out.length = n → out.map Prod.fst = List.range n →
      fd ≤ (create_loop K O k fd n cnt out st).1 ∧
      (create_loop K O k fd n cnt out st).2.1
        + (create_loop K O k fd n cnt out st).2.2.1 = cap ∧
      (create_loop K O k fd n cnt out st).2.2.2.1.length
        = (create_loop K O k fd n cnt out st).2.1 ∧
      (create_loop K O k fd n cnt out st).2.2.2.1.map Prod.fst
        = List.range (create_loop K O k fd n cnt out st).2.1 ∧
      (create_loop K O k fd n cnt out st).2.1
        ≤ n + ((create_loop K O k fd n cnt out st).1 - fd) * K.MXIO_MAX_HANDLES := by
  intro k
  induction k with
  | zero =>
    intro fd n cnt out st h1 h2 h3
    exact ⟨le_refl _, h1, h2, h3, by simp [create_loop]⟩
  | succ k ih =>
    intro fd n cnt out st h1 h2 h3
    rw [create_loop_succ]
    by_cases hcnt : cnt < K.MXIO_MAX_HANDLES
    · rw [if_pos hcnt]
      exact ⟨le_refl _, h1, h2, h3, by simp⟩
    · rw [if_neg hcnt]
      have hmul : ∀ m, fd + 1 ≤ m →
          (m - fd) * K.MXIO_MAX_HANDLES
            = (m - (fd + 1)) * K.MXIO_MAX_HANDLES + K.MXIO_MAX_HANDLES := by
        intro m hm
        have e : m - fd = (m - (fd + 1)) + 1 := by omega
        rw [e, Nat.add_mul, Nat.one_mul]
      by_cases hr : (mxio_clone_fd K O st (fd : Int) (fd : Int)).1 ≤ 0
      · rw [if_pos hr]
        obtain ⟨i1, i2, i3, i4, i5⟩ := ih (fd + 1) n cnt out
          (mxio_clone_fd K O st (fd : Int) (fd : Int)).2.2 h1 h2 h3
        refine ⟨by omega, i2, i3, i4, ?_⟩
        rw [hmul _ i1]
        omega
      · rw [if_neg hr]
        have hpos : 0 < (mxio_clone_fd K O st (fd : Int) (fd : Int)).1 := by omega
        obtain ⟨⟨io, hio⟩, hlen⟩ := clone_fd_pos K O st (fd : Int) (fd : Int) hbad hpos
        have hrle : (mxio_clone_fd K O st (fd : Int) (fd : Int)).1
            ≤ (K.MXIO_MAX_HANDLES : Int) := by
          rw [hio]; exact hle _ _
        have hrn : (mxio_clone_fd K O st (fd : Int) (fd : Int)).1.toNat
            ≤ K.MXIO_MAX_HANDLES := by omega
        have ea := size_add_eq K n (mxio_clone_fd K O st (fd : Int) (fd : Int)).1
          (by omega) (by omega)
        have es := size_sub_eq K cnt (mxio_clone_fd K O st (fd : Int) (fd : Int)).1
          (by omega) (by omega) (by omega)
        rw [ea, es]
        obtain ⟨i1, i2, i3, i4, i5⟩ := ih (fd + 1)
          (n + (mxio_clone_fd K O st (fd : Int) (fd : Int)).1.toNat)
          (cnt - (mxio_clone_fd K O st (fd : Int) (fd : Int)).1.toNat)
          (out ++ List.enumFrom n (mxio_clone_fd K O st (fd : Int) (fd : Int)).2.1)
          (mxio_clone_fd K O st (fd : Int) (fd : Int)).2.2
          (by omega)
          (by rw [List.length_append, List.enumFrom_length, h2, hlen])
          (by rw [← hlen]; exact range_append_enum n out _ h3)
        refine ⟨by omega, i2, i3, i4, ?_⟩
        rw [hmul _ i1]
        omega

theorem clone_root_some (K : Consts) (O : Ops) (s : State) (root : mxio_t)
    (hroot : s.mxio_root_handle = some root) :
    mxio_clone_root K O s
      = some ((O.clone s.calls root).1, root_cells K O s root, s.log (Call.clone root)) := by
  by_cases h : 0 < (O.clone s.calls root).1
  · simp only [mxio_clone_root, hroot, root_cells, h, if_true]
  · simp only [mxio_clone_root, hroot, root_cells, h, if_false]

theorem root_cells_length (K : Consts) (O : Ops) (s : State) (root : mxio_t)
    (h0 : 0 ≤ (O.clone s.calls root).1) :
    (root_cells K O s root).length = (O.clone s.calls root).1.toNat := by
  by_cases h : 0 < (O.clone s.calls root).1
  · simp only [root_cells, h, if_true, clone_cells_length]
  · simp only [root_cells, h, if_false, List.length_nil]
    omega

theorem root_cells_neg (K : Consts) (O : Ops) (s : State) (root : mxio_t)
    (h0 : (O.clone s.calls root).1 < 0) : root_cells K O s root = [] := by
  have h : ¬ 0 < (O.clone s.calls root).1 := by omega
  simp only [root_cells, h, if_false]

/-- The packer with a root installed and enough capacity for the first check,
unfolded down to its loop. -/
theorem packer_unfold (K : Consts) (O : Ops) (s : State) (count : Nat) (root : mxio_t)
    (hroot : s.mxio_root_handle = some root) (hM : K.MXIO_MAX_HANDLES ≤ count) :
    mxio_create_subprocess_handles K O s count
      = if (O.clone s.calls root).1 < 0 then
          some ((O.clone s.calls root).1, [], s.log (Call.clone root))
        else
          some (to_status (create_loop K O MAX_MXIO_FD 0
              (size_add K 0 (O.clone s.calls root).1)
              (size_sub K count (O.clone s.calls root).1)
              (List.enumFrom 0 (root_cells K O s root)) (s.log (Call.clone root))).2.1,
            (create_loop K O MAX_MXIO_FD 0
              (size_add K 0 (O.clone s.calls root).1)
              (size_sub K count (O.clone s.calls root).1)
              (List.enumFrom 0 (root_cells K O s root)) (s.log (Call.clone root))).2.2.2.1,
            (create_loop K O MAX_MXIO_FD 0
              (size_add K 0 (O.clone s.calls root).1)
              (size_sub K count (O.clone s.calls root).1)
              (List.enumFrom 0 (root_cells K O s root)) (s.log (Call.clone root))).2.2.2.2) := by
  have hc : ¬ count < K.MXIO_MAX_HANDLES := by omega
  by_cases h : (O.clone s.calls root).1 < 0
  · simp only [mxio_create_subprocess_handles, hc, if_false, clone_root_some K O s root hroot,
      h, if_true, root_cells_neg K O s root h, List.enumFrom_nil]
  · simp only [mxio_create_subprocess_handles, hc, if_false, clone_root_some K O s root hroot,
      h]

theorem packer_no_root (K : Consts) (O : Ops) (s : State) (count : Nat)
    (hroot : s.mxio_root_handle = none) (hM : K.MXIO_MAX_HANDLES ≤ count) :
    mxio_create_subprocess_handles K O s count = none := by
  have hc : ¬ count < K.MXIO_MAX_HANDLES := by omega
  simp only [mxio_create_subprocess_handles, hc, if_false, mxio_clone_root, hroot]

theorem to_status_small (n : Nat) (h : n < 2147483648) : to_status n = (n : Int) := by
  unfold to_status
  have e : n % 4294967296 = n := Nat.mod_eq_of_lt (by omega)
  rw [e, if_pos h]

/-- The loop state of the packer after the root, under the bound on clone
results: `n + count` is the capacity, the cells sit at the indices `0, …, n - 1`,
and at most `MXIO_MAX_HANDLES` cells were added per visited slot. -/
theorem packer_loop_bound (K : Consts) (O : Ops) (s : State) (count : Nat) (root : mxio_t)
    (hM : K.MXIO_MAX_HANDLES ≤ count) (hcap : count ≤ K.SIZE_MAX)
    (hbad : K.ERR_BAD_HANDLE ≤ 0)
    (hle : ∀ (h : List Call) (io : mxio_t), (O.clone h io).1 ≤ (K.MXIO_MAX_HANDLES : Int))
    (h0 : 0 ≤ (O.clone s.calls root).1) :
    (create_loop K O MAX_MXIO_FD 0 (size_add K 0 (O.clone s.calls root).1)
        (size_sub K count (O.clone s.calls root).1)
        (List.enumFrom 0 (root_cells K O s root)) (s.log (Call.clone root))).2.1
      + (create_loop K O MAX_MXIO_FD 0 (size_add K 0 (O.clone s.calls root).1)
        (size_sub K count (O.clone s.calls root).1)
        (List.enumFrom 0 (root_cells K O s root)) (s.log (Call.clone root))).2.2.1 = count ∧
    (create_loop K O MAX_MXIO_FD 0 (size_add K 0 (O.clone s.calls root).1)
        (size_sub K count (O.clone s.calls root).1)
        (List.enumFrom 0 (root_cells K O s root)) (s.log (Call.clone root))).2.2.2.1.length
      = (create_loop K O MAX_MXIO_FD 0 (size_add K 0 (O.clone s.calls root).1)
        (size_sub K count (O.clone s.calls root).1)
        (List.enumFrom 0 (root_cells K O s root)) (s.log (Call.clone root))).2.1 ∧
    (create_loop K O MAX_MXIO_FD 0 (size_add K 0 (O.clone s.calls root).1)
        (size_sub K count (O.clone s.calls root).1)
        (List.enumFrom 0 (root_cells K O s root)) (s.log (Call.clone root))).2.2.2.1.map Prod.fst
      = List.range (create_loop K O MAX_MXIO_FD 0 (size_add K 0 (O.clone s.calls root).1)
        (size_sub K count (O.clone s.calls root).1)
        (List.enumFrom 0 (root_cells K O s root)) (s.log (Call.clone root))).2.1 ∧
    (create_loop K O MAX_MXIO_FD 0 (size_add K 0 (O.clone s.calls root).1)
        (size_sub K count (O.clone s.calls root).1)
        (List.enumFrom 0 (root_cells K O s root)) (s.log (Call.clone root))).2.1
      ≤ K.MXIO_MAX_HANDLES + (create_loop K O MAX_MXIO_FD 0
        (size_add K 0 (O.clone s.calls root).1) (size_sub K count (O.clone s.calls root).1)
        (List.enumFrom 0 (root_cells K O s root)) (s.log (Call.clone root))).1
          * K.MXIO_MAX_HANDLES := by
  have hr := hle s.calls root
  have hrn : (O.clone s.calls root).1.toNat ≤ K.MXIO_MAX_HANDLES := by omega
  have ea := size_add_eq K 0 (O.clone s.calls root).1 h0 (by omega)
  have es := size_sub_eq K count (O.clone s.calls root).1 h0 (by omega) hcap
  rw [ea, es, Nat.zero_add]
  have hlen := root_cells_length K O s root h0
  obtain ⟨_, i2, i3, i4, i5⟩ := create_loop_bound K O hbad hle count hcap MAX_MXIO_FD 0
    (O.clone s.calls root).1.toNat (count - (O.clone s.calls root).1.toNat)
    (List.enumFrom 0 (root_cells K O s root)) (s.log (Call.clone root))
    (by omega) (by rw [List.enumFrom_length, hlen])
    (by rw [List.enumFrom_map_fst, hlen, List.range_eq_range'])
  refine ⟨i2, i3, i4, ?_⟩
  rw [Nat.sub_zero] at i5
  omega

/-! ## The remaining capacity of the packer, slot by slot -/

theorem size_sub_sub (K : Consts) (a : Nat) (x y : Int) :
    size_sub K (size_sub K a x) y = size_sub K a (x + y) := by
  unfold size_sub
  have h1 : ((((a : Int) - x) % ((K.SIZE_MAX : Int) + 1)).toNat : Int)
      = ((a : Int) - x) % ((K.SIZE_MAX : Int) + 1) :=
    Int.toNat_of_nonneg (Int.emod_nonneg _ (by omega))
  rw [h1, sub_eq_add_neg (((a : Int) - x) % ((K.SIZE_MAX : Int) + 1)) y, Int.emod_add_emod]
  have e : (a : Int) - x + -y = (a : Int) - (x + y) := by omega
  rw [e]

theorem size_add_add (K : Consts) (a : Nat) (x y : Int) :
    size_add K (size_add K a x) y = size_add K a (x + y) := by
  unfold size_add
  have h1 : ((((a : Int) + x) % ((K.SIZE_MAX : Int) + 1)).toNat : Int)
      = ((a : Int) + x) % ((K.SIZE_MAX : Int) + 1) :=
    Int.toNat_of_nonneg (Int.emod_nonneg _ (by omega))
  rw [h1, Int.emod_add_emod]
  have e : (a : Int) + x + y = (a : Int) + (x + y) := by omega
  rw [e]

theorem cells_before_zero (K : Consts) (O : Ops) (s : State) (root : mxio_t) :
    cells_before K O s root 0 = root_cells K O s root := by
  simp [cells_before]

theorem cells_before_succ (K : Consts) (O : Ops) (s : State) (root : mxio_t) (j : Nat) :
    cells_before K O s root (j + 1) = cells_before K O s root j ++ pack_cells O s root j := by
  simp [cells_before, List.range_succ]

/-- A slot that contributes no cell leaves the remaining capacity as it is. -/
theorem remaining_skip (K : Consts) (O : Ops) (s : State) (count : Nat) (root : mxio_t)
    (j : Nat) (h : pack_cells O s root j = []) :
    remaining K O s count root (j + 1) = remaining K O s count root j := by
  unfold remaining
  rw [cells_before_succ, h, List.append_nil]

/-- A slot whose clone returned `r > 0` takes `r` from the remaining capacity. -/
theorem remaining_take (K : Consts) (O : Ops) (s : State) (count : Nat) (root : mxio_t)
    (j : Nat) (r : Int) (hr : 0 < r) (h : (pack_cells O s root j).length = r.toNat) :
    remaining K O s count root (j + 1) = size_sub K (remaining K O s count root j) r := by
  unfold remaining
  rw [size_sub_sub, cells_before_succ, List.length_append, h]
  have e : (((cells_before K O s root j).length + r.toNat : Nat) : Int)
      = ((cells_before K O s root j).length : Int) + r := by omega
  rw [e]

/-- The packer loop tests, at every slot, the capacity that remains after the
cells written so far: each visited slot had at least `MXIO_MAX_HANDLES` left,
and the loop stops before slot 256 only at a slot with less. -/
theorem create_loop_exact (K : Consts) (O : Ops) (s : State) (count : Nat) (root : mxio_t)
    (hbad : K.ERR_BAD_HANDLE ≤ 0) :
    ∀ (k fd n cnt : Nat) (out : List (Nat × Nat × Nat)) (st : State),
      fd + k ≤ MAX_MXIO_FD → st.mxio_fdtab = s.mxio_fdtab →
      st.calls = pack_hist s root fd → cnt = remaining K O s count root fd →
      (create_loop K O k fd n cnt out st).2.2.1
        = remaining K O s count root (create_loop K O k fd n cnt out st).1 ∧
      (∀ j, fd ≤ j → j < (create_loop K O k fd n cnt out st).1 →
        K.MXIO_MAX_HANDLES ≤ remaining K O s count root j) ∧
      ((create_loop K O k fd n cnt out st).1 = fd + k ∨
        remaining K O s count root (create_loop K O k fd n cnt out st).1
          < K.MXIO_MAX_HANDLES) := by
  intro k
  induction k with
  | zero =>
    intro fd n cnt out st _ _ _ hrem
    refine ⟨hrem, fun j h1 h2 => ?_, Or.inl rfl⟩
    have : (create_loop K O 0 fd n cnt out st).1 = fd := rfl
    omega
  | succ k ih =>
    intro fd n cnt out st hk htab hcalls hrem
    rw [create_loop_succ]
    by_cases hcnt : cnt < K.MXIO_MAX_HANDLES
    · rw [if_pos hcnt]
      refine ⟨hrem, fun j h1 h2 => ?_, Or.inr ?_⟩
      · simp only at h2
        omega
      · simp only
        rw [← hrem]
        exact hcnt
    · rw [if_neg hcnt]
      obtain ⟨c1, c2, _, _, c5, c6⟩ :=
        clone_fd_step K O s root hbad fd (by omega) st htab hcalls
      by_cases hr : (mxio_clone_fd K O st (fd : Int) (fd : Int)).1 ≤ 0
      · rw [if_pos hr]
        have hlo := (create_loop_spec K O s root hbad k (fd + 1) n cnt out
          (mxio_clone_fd K O st (fd : Int) (fd : Int)).2.2 (by omega) c1 c2).1
        obtain ⟨i1, i2, i3⟩ := ih (fd + 1) n cnt out
          (mxio_clone_fd K O st (fd : Int) (fd : Int)).2.2 (by omega) c1 c2
          (by rw [remaining_skip K O s count root fd (c5 hr)]; exact hrem)
        refine ⟨i1, fun j h1 h2 => ?_, ?_⟩
        · by_cases hj : j = fd
          · rw [hj, ← hrem]
            omega
          · exact i2 j (by omega) h2
        · rcases i3 with h | h
          · left; omega
          · right; exact h
      · rw [if_neg hr]
        have hpos : 0 < (mxio_clone_fd K O st (fd : Int) (fd : Int)).1 := by omega
        have hlen := (clone_fd_pos K O st (fd : Int) (fd : Int) hbad hpos).2
        rw [← c6 hpos] at hlen
        obtain ⟨i1, i2, i3⟩ := ih (fd + 1)
          (size_add K n (mxio_clone_fd K O st (fd : Int) (fd : Int)).1)
          (size_sub K cnt (mxio_clone_fd K O st (fd : Int) (fd : Int)).1)
          (out ++ List.enumFrom n (mxio_clone_fd K O st (fd : Int) (fd : Int)).2.1)
          (mxio_clone_fd K O st (fd : Int) (fd : Int)).2.2 (by omega) c1 c2
          (by rw [remaining_take K O s count root fd _ hpos hlen, hrem])
        refine ⟨i1, fun j h1 h2 => ?_, ?_⟩
        · by_cases hj : j = fd
          · rw [hj, ← hrem]
            omega
          · exact i2 j (by omega) h2
        · rcases i3 with h | h
          · left; omega
          · right; exact h

/-- The loop variable `n` is the number of cells written, as a `size_t`. -/
theorem create_loop_count (K : Consts) (O : Ops) (hbad : K.ERR_BAD_HANDLE ≤ 0) :
    ∀ (k fd n cnt : Nat) (out : List (Nat × Nat × Nat)) (st : State),
      n = size_add K 0 (out.length : Int) →
      (create_loop K O k fd n cnt out st).2.1
        = size_add K 0 ((create_loop K O k fd n cnt out st).2.2.2.1.length : Int) := by
  intro k
  induction k with
  | zero =>
    intro fd n cnt out st h
    exact h
  | succ k ih =>
    intro fd n cnt out st h
    rw [create_loop_succ]
    by_cases hcnt : cnt < K.MXIO_MAX_HANDLES
    · rw [if_pos hcnt]
      exact h
    · rw [if_neg hcnt]
      by_cases hr : (mxio_clone_fd K O st (fd : Int) (fd : Int)).1 ≤ 0
      · rw [if_pos hr]
        exact ih _ _ _ _ _ h
      · rw [if_neg hr]
        have hpos : 0 < (mxio_clone_fd K O st (fd : Int) (fd : Int)).1 := by omega
        have hlen := (clone_fd_pos K O st (fd : Int) (fd : Int) hbad hpos).2
        apply ih
        rw [h, size_add_add, List.length_append, List.enumFrom_length, hlen]
        have e : ((out.length + (mxio_clone_fd K O st (fd : Int) (fd : Int)).1.toNat : Nat) : Int)
            = (out.length : Int) + (mxio_clone_fd K O st (fd : Int) (fd : Int)).1 := by omega
        rw [e]

theorem create_loop_len_mono (K : Consts) (O : Ops) :
    ∀ (k fd n cnt : Nat) (out : List (Nat × Nat × Nat)) (st : State),
      out.length ≤ (create_loop K O k fd n cnt out st).2.2.2.1.length := by
  intro k
  induction k with
  | zero =>
    intro fd n cnt out st
    exact le_refl _
  | succ k ih =>
    intro fd n cnt out st
    rw [create_loop_succ]
    by_cases hcnt : cnt < K.MXIO_MAX_HANDLES
    · rw [if_pos hcnt]
    · rw [if_neg hcnt]
      by_cases hr : (mxio_clone_fd K O st (fd : Int) (fd : Int)).1 ≤ 0
      · rw [if_pos hr]
        exact ih _ _ _ _ _
      · rw [if_neg hr]
        refine le_trans ?_ (ih _ _ _ _ _)
        rw [List.length_append]
        omega

/-- When the cells written number at most `SIZE_MAX`, the index `n` never
wraps: the cells sit at the consecutive indices `0, …, n - 1` and the loop
variable `n` at exit is their number. -/
theorem create_loop_indices (K : Consts) (O : Ops) (hbad : K.ERR_BAD_HANDLE ≤ 0) :
    ∀ (k fd n cnt : Nat) (out : List (Nat × Nat × Nat)) (st : State),
      n = out.length → out.map Prod.fst = List.range n →
      (create_loop K O k fd n cnt out st).2.2.2.1.length ≤ K.SIZE_MAX →
      (create_loop K O k fd n cnt out st).2.2.2.1.map Prod.fst
        = List.range (create_loop K O k fd n cnt out st).2.2.2.1.length ∧
      (create_loop K O k fd n cnt out st).2.1
        = (create_loop K O k fd n cnt out st).2.2.2.1.length := by
  intro k
  induction k with
  | zero =>
    intro fd n cnt out st h1 h2 _
    refine ⟨?_, h1⟩
    show List.map Prod.fst out = List.range out.length
    rw [← h1]
    exact h2
  | succ k ih =>
    intro fd n cnt out st h1 h2
    rw [create_loop_succ]
    by_cases hcnt : cnt < K.MXIO_MAX_HANDLES
    · rw [if_pos hcnt]
      intro _
      refine ⟨?_, h1⟩
      show List.map Prod.fst out = List.range out.length
      rw [← h1]
      exact h2
    · rw [if_neg hcnt]
      by_cases hr : (mxio_clone_fd K O st (fd : Int) (fd : Int)).1 ≤ 0
      · rw [if_pos hr]
        exact ih _ _ _ _ _ h1 h2
      · rw [if_neg hr]
        intro hfin
        have hpos : 0 < (mxio_clone_fd K O st (fd : Int) (fd : Int)).1 := by omega
        have hlen := (clone_fd_pos K O st (fd : Int) (fd : Int) hbad hpos).2
        have hmono := create_loop_len_mono K O k (fd + 1)
          (size_add K n (mxio_clone_fd K O st (fd : Int) (fd : Int)).1)
          (size_sub K cnt (mxio_clone_fd K O st (fd : Int) (fd : Int)).1)
          (out ++ List.enumFrom n (mxio_clone_fd K O st (fd : Int) (fd : Int)).2.1)
          (mxio_clone_fd K O st (fd : Int) (fd : Int)).2.2
        rw [List.length_append, List.enumFrom_length, hlen] at hmono
        have ea := size_add_eq K n (mxio_clone_fd K O st (fd : Int) (fd : Int)).1
          (by omega) (by omega)
        refine ih _ _ _ _ _ ?_ ?_ hfin
        · rw [ea, List.length_append, List.enumFrom_length, hlen, h1]
        · rw [ea, ← hlen]
          exact range_append_enum n out _ h2

/-- The indices of the cells, block by block: the cells of slot `j` are written
from the index that is the number of cells written before, as a `size_t`. -/
theorem create_loop_blocks (K : Consts) (O : Ops) (s : State) (root : mxio_t)
    (hbad : K.ERR_BAD_HANDLE ≤ 0) :
    ∀ (k fd n cnt : Nat) (out : List (Nat × Nat × Nat)) (st : State),
      fd + k ≤ MAX_MXIO_FD → st.mxio_fdtab = s.mxio_fdtab →
      st.calls = pack_hist s root fd →
      n = size_add K 0 ((cells_before K O s root fd).length : Int) →
      (create_loop K O k fd n cnt out st).2.2.2.1.map Prod.fst
        = out.map Prod.fst ++
          (List.range' fd ((create_loop K O k fd n cnt out st).1 - fd)).flatMap
            (fun j => List.range' (size_add K 0 ((cells_before K O s root j).length : Int))
              (pack_cells O s root j).length) := by
  intro k
  induction k with
  | zero =>
    intro fd n cnt out st _ _ _ _
    simp [create_loop]
  | succ k ih =>
    intro fd n cnt out st hk htab hcalls hn
    rw [create_loop_succ]
    by_cases hcnt : cnt < K.MXIO_MAX_HANDLES
    · rw [if_pos hcnt]
      simp
    · rw [if_neg hcnt]
      obtain ⟨c1, c2, _, _, c5, c6⟩ :=
        clone_fd_step K O s root hbad fd (by omega) st htab hcalls
      have hrange : ∀ m, fd + 1 ≤ m →
          List.range' fd (m - fd) = fd :: List.range' (fd + 1) (m - (fd + 1)) := by
        intro m hm
        have e : m - fd = (m - (fd + 1)) + 1 := by omega
        rw [e, List.range'_succ]
      by_cases hr : (mxio_clone_fd K O st (fd : Int) (fd : Int)).1 ≤ 0
      · rw [if_pos hr]
        have hlo := (create_loop_spec K O s root hbad k (fd + 1) n cnt out
          (mxio_clone_fd K O st (fd : Int) (fd : Int)).2.2 (by omega) c1 c2).1
        rw [ih (fd + 1) n cnt out (mxio_clone_fd K O st (fd : Int) (fd : Int)).2.2
          (by omega) c1 c2 (by rw [cells_before_succ, c5 hr, List.append_nil]; exact hn),
          hrange _ hlo, List.flatMap_cons, c5 hr]
        simp
      · rw [if_neg hr]
        have hpos : 0 < (mxio_clone_fd K O st (fd : Int) (fd : Int)).1 := by omega
        have hlen := (clone_fd_pos K O st (fd : Int) (fd : Int) hbad hpos).2
        have hlo := (create_loop_spec K O s root hbad k (fd + 1)
          (size_add K n (mxio_clone_fd K O st (fd : Int) (fd : Int)).1)
          (size_sub K cnt (mxio_clone_fd K O st (fd : Int) (fd : Int)).1)
          (out ++ List.enumFrom n (mxio_clone_fd K O st (fd : Int) (fd : Int)).2.1)
          (mxio_clone_fd K O st (fd : Int) (fd : Int)).2.2 (by omega) c1 c2).1
        have hn2 : size_add K n (mxio_clone_fd K O st (fd : Int) (fd : Int)).1
            = size_add K 0 ((cells_before K O s root (fd + 1)).length : Int) := by
          rw [hn, size_add_add, cells_before_succ, List.length_append, c6 hpos, hlen]
          have e : (((cells_before K O s root fd).length
              + (mxio_clone_fd K O st (fd : Int) (fd : Int)).1.toNat : Nat) : Int)
              = ((cells_before K O s root fd).length : Int)
                + (mxio_clone_fd K O st (fd : Int) (fd : Int)).1 := by omega
          rw [e]
        rw [ih (fd + 1) _ _ _ _ (by omega) c1 c2 hn2, hrange _ hlo, List.flatMap_cons,
          List.map_append, List.enumFrom_map_fst, List.append_assoc, c6 hpos, ← hn]

/-- The loop of the packer, entered after the root's clone: where it stops,
what it has called and written, and what it leaves of the globals. -/
theorem packer_loop_exact (K : Consts) (O : Ops) (s : State) (count : Nat) (root : mxio_t)
    (hbad : K.ERR_BAD_HANDLE ≤ 0) (h0 : 0 ≤ (O.clone s.calls root).1) :
    (packer_loop K O s count root).1 ≤ MAX_MXIO_FD ∧
    (∀ j, j < (packer_loop K O s count root).1 →
      K.MXIO_MAX_HANDLES ≤ remaining K O s count root j) ∧
    ((packer_loop K O s count root).1 = MAX_MXIO_FD ∨
      remaining K O s count root (packer_loop K O s count root).1 < K.MXIO_MAX_HANDLES) ∧
    (packer_loop K O s count root).2.2.2.2.calls
      = pack_hist s root (packer_loop K O s count root).1 ∧
    (packer_loop K O s count root).2.2.2.1.map Prod.snd
      = cells_before K O s root (packer_loop K O s count root).1 ∧
    (packer_loop K O s count root).2.1
      = size_add K 0 ((packer_loop K O s count root).2.2.2.1.length : Int) ∧
    ((packer_loop K O s count root).2.2.2.1.length ≤ K.SIZE_MAX →
      (packer_loop K O s count root).2.2.2.1.map Prod.fst
        = List.range (packer_loop K O s count root).2.2.2.1.length ∧
      (packer_loop K O s count root).2.1
        = (packer_loop K O s count root).2.2.2.1.length) ∧
    (packer_loop K O s count root).2.2.2.2.mxio_fdtab = s.mxio_fdtab ∧
    (packer_loop K O s count root).2.2.2.2.mxio_root_handle = s.mxio_root_handle ∧
    (packer_loop K O s count root).2.2.2.2.mxio_process_handle = s.mxio_process_handle := by
  have hlen := root_cells_length K O s root h0
  have hcast : (((root_cells K O s root).length : Nat) : Int) = (O.clone s.calls root).1 := by
    rw [hlen]
    omega
  obtain ⟨_, p2, _, p4, p5, p6, p7, p8⟩ := create_loop_spec K O s root hbad MAX_MXIO_FD 0
    (size_add K 0 (O.clone s.calls root).1) (size_sub K count (O.clone s.calls root).1)
    (List.enumFrom 0 (root_cells K O s root)) (s.log (Call.clone root))
    (by omega) rfl (by simp [pack_hist])
  rw [Nat.zero_add] at p2
  rw [Nat.sub_zero, ← List.range_eq_range', List.enumFrom_map_snd] at p8
  obtain ⟨e1, e2, e3⟩ := create_loop_exact K O s count root hbad MAX_MXIO_FD 0
    (size_add K 0 (O.clone s.calls root).1) (size_sub K count (O.clone s.calls root).1)
    (List.enumFrom 0 (root_cells K O s root)) (s.log (Call.clone root))
    (by omega) rfl (by simp [pack_hist])
    (by rw [remaining, cells_before_zero, hcast])
  rw [Nat.zero_add] at e3
  have hn := create_loop_count K O hbad MAX_MXIO_FD 0
    (size_add K 0 (O.clone s.calls root).1) (size_sub K count (O.clone s.calls root).1)
    (List.enumFrom 0 (root_cells K O s root)) (s.log (Call.clone root))
    (by rw [List.enumFrom_length, hcast])
  refine ⟨p2, fun j hj => e2 j (Nat.zero_le j) hj, e3, p4, p8, hn, fun hfin => ?_, p5, p6, p7⟩
  have hmono := create_loop_len_mono K O MAX_MXIO_FD 0
    (size_add K 0 (O.clone s.calls root).1) (size_sub K count (O.clone s.calls root).1)
    (List.enumFrom 0 (root_cells K O s root)) (s.log (Call.clone root))
  rw [List.enumFrom_length, hlen] at hmono
  have hfin2 : (create_loop K O MAX_MXIO_FD 0
      (size_add K 0 (O.clone s.calls root).1) (size_sub K count (O.clone s.calls root).1)
      (List.enumFrom 0 (root_cells K O s root)) (s.log (Call.clone root))).2.2.2.1.length
      ≤ K.SIZE_MAX := hfin
  have ea := size_add_eq K 0 (O.clone s.calls root).1 h0 (by omega)
  rw [Nat.zero_add] at ea
  exact create_loop_indices K O hbad MAX_MXIO_FD 0
    (size_add K 0 (O.clone s.calls root).1) (size_sub K count (O.clone s.calls root).1)
    (List.enumFrom 0 (root_cells K O s root)) (s.log (Call.clone root))
    (by rw [ea, List.enumFrom_length, hlen])
    (by rw [ea, List.enumFrom_map_fst, hlen, List.range_eq_range'])
    hfin2

theorem packer_loop_blocks (K : Consts) (O : Ops) (s : State) (count : Nat) (root : mxio_t)
    (hbad : K.ERR_BAD_HANDLE ≤ 0) (h0 : 0 ≤ (O.clone s.calls root).1) :
    (packer_loop K O s count root).2.2.2.1.map Prod.fst
      = List.range' 0 (root_cells K O s root).length ++
        (List.range (packer_loop K O s count root).1).flatMap
          (fun j => List.range' (size_add K 0 ((cells_before K O s root j).length : Int))
            (pack_cells O s root j).length) := by
  have hlen := root_cells_length K O s root h0
  have hcast : (((root_cells K O s root).length : Nat) : Int) = (O.clone s.calls root).1 := by
    rw [hlen]
    omega
  have h := create_loop_blocks K O s root hbad MAX_MXIO_FD 0
    (size_add K 0 (O.clone s.calls root).1) (size_sub K count (O.clone s.calls root).1)
    (List.enumFrom 0 (root_cells K O s root)) (s.log (Call.clone root))
    (by omega) rfl (by simp [pack_hist]) (by rw [cells_before_zero, hcast])
  rw [Nat.sub_zero, ← List.range_eq_range', List.enumFrom_map_fst] at h
  exact h

/-- The packer with a root installed and enough capacity for the first check,
in terms of its loop. -/
theorem packer_eq_loop (K : Consts) (O : Ops) (s : State) (count : Nat) (root : mxio_t)
    (hroot : s.mxio_root_handle = some root) (hM : K.MXIO_MAX_HANDLES ≤ count)
    (h0 : 0 ≤ (O.clone s.calls root).1) :
    mxio_create_subprocess_handles K O s count
      = some (to_status (packer_loop K O s count root).2.1,
          (packer_loop K O s count root).2.2.2.1, (packer_loop K O s count root).2.2.2.2) := by
  have hn : ¬ (O.clone s.calls root).1 < 0 := by omega
  rw [packer_unfold K O s count root hroot hM, if_neg hn]
  rfl

/-! ## C13: the packer stays within the capacity -/

/-- C13: let the capacity be at least `MXIO_MAX_HANDLES` and let no clone
operation return more than `MXIO_MAX_HANDLES`. Then the packer has a result
whenever a root is installed, and whenever it has a result the cells it wrote
sit at the consecutive indices `0, …, n - 1` with `n` at most the capacity, so
every write lands below the capacity, and a non-error status is this `n`. In
the loop `n` plus the remaining capacity stays equal to the capacity, so the
remaining capacity never underflows, and the loop makes no call at all once
the remaining capacity is below `MXIO_MAX_HANDLES`. -/
theorem packer_within_capacity (K : Consts) (O : Ops) (s : State) (count : Nat)
    (hM : K.MXIO_MAX_HANDLES ≤ count) (hcap : count ≤ K.SIZE_MAX)
    (hbad : K.ERR_BAD_HANDLE ≤ 0)
    (hle : ∀ (h : List Call) (io : mxio_t), (O.clone h io).1 ≤ (K.MXIO_MAX_HANDLES : Int)) :
    (∀ root, s.mxio_root_handle = some root →
      ∃ r, mxio_create_subprocess_handles K O s count = some r) ∧
    (∀ r, mxio_create_subprocess_handles K O s count = some r →
      r.2.1.length ≤ count ∧ (∀ e ∈ r.2.1, e.1 < count) ∧
      r.2.1.map Prod.fst = List.range r.2.1.length ∧
      (r.1 = to_status r.2.1.length ∨ (r.1 < 0 ∧ r.2.1 = [])) ∧
      (count < 2147483648 → 0 ≤ r.1 → r.1 = (r.2.1.length : Int))) ∧
    (∀ root, s.mxio_root_handle = some root → 0 ≤ (O.clone s.calls root).1 →
      (packer_loop K O s count root).2.1 + (packer_loop K O s count root).2.2.1 = count) ∧
    (∀ (k fd n cnt : Nat) (out : List (Nat × Nat × Nat)) (st : State),
      cnt < K.MXIO_MAX_HANDLES →
      create_loop K O k fd n cnt out st = (fd, n, cnt, out, st)) := by
  refine ⟨?_, ?_, ?_, ?_⟩
  · intro root hroot
    rw [packer_unfold K O s count root hroot hM]
    by_cases h : (O.clone s.calls root).1 < 0
    · exact ⟨_, by rw [if_pos h]⟩
    · exact ⟨_, by rw [if_neg h]⟩
  · intro r hr
    cases hroot : s.mxio_root_handle with
    | none =>
      rw [packer_no_root K O s count hroot hM] at hr
      exact Option.noConfusion hr
    | some root =>
      rw [packer_unfold K O s count root hroot hM] at hr
      by_cases h : (O.clone s.calls root).1 < 0
      · rw [if_pos h] at hr
        cases hr
        refine ⟨Nat.zero_le _, fun e he => ?_, rfl, Or.inr ⟨h, rfl⟩, fun _ h0 => ?_⟩
        · exact absurd he (List.not_mem_nil e)
        · exact absurd h0 (by simp only; omega)
      · rw [if_neg h] at hr
        cases hr
        obtain ⟨b1, b2, b3, _⟩ :=
          packer_loop_bound K O s count root hM hcap hbad hle (by omega)
        simp only
        have hlen_le : (create_loop K O MAX_MXIO_FD 0 (size_add K 0 (O.clone s.calls root).1)
            (size_sub K count (O.clone s.calls root).1)
            (List.enumFrom 0 (root_cells K O s root))
            (s.log (Call.clone root))).2.2.2.1.length ≤ count := by
          rw [b2]; omega
        refine ⟨hlen_le, fun e he => ?_, by rw [b3, b2], Or.inl (by rw [b2]),
          fun hc _ => ?_⟩
        · have hm : e.1 ∈ List.range (create_loop K O MAX_MXIO_FD 0
              (size_add K 0 (O.clone s.calls root).1)
              (size_sub K count (O.clone s.calls root).1)
              (List.enumFrom 0 (root_cells K O s root)) (s.log (Call.clone root))).2.1 := by
            rw [← b3]
            exact List.mem_map_of_mem Prod.fst he
          have := List.mem_range.mp hm
          omega
        · rw [← b2]
          exact to_status_small _ (by omega)
  · intro root _ h0
    exact (packer_loop_bound K O s count root hM hcap hbad hle h0).1
  · intro k fd n cnt out st hcnt
    cases k with
    | zero => rfl
    | succ k => rw [create_loop_succ, if_pos hcnt]

theorem sampleOps_clone_le (h : List Call) (io : mxio_t) :
    (sampleOps.clone h io).1 ≤ (sampleConsts.MXIO_MAX_HANDLES : Int) := by
  cases io with
  | Remote a e =>
    by_cases he : e = 0
    · simp [sampleOps, sampleConsts, he]
    · simp [sampleOps, sampleConsts, he]
  | Pipe a => simp [sampleOps, sampleConsts]
  | Null => simp [sampleOps, sampleConsts]

/-- C13 at a concrete input: from the state with all 256 slots bound and
capacity 771 the packer has a result within the capacity. -/
theorem packer_within_capacity_witness :
    sampleConsts.MXIO_MAX_HANDLES ≤ 771 ∧ 771 ≤ sampleConsts.SIZE_MAX ∧
    sampleConsts.ERR_BAD_HANDLE ≤ 0 ∧
    ∃ r, mxio_create_subprocess_handles sampleConsts sampleOps fullState 771 = some r :=
  ⟨by decide, by decide, by decide,
   (packer_within_capacity sampleConsts sampleOps fullState 771 (by decide) (by decide)
      (by decide) sampleOps_clone_le).1 (mxio_t.Remote 1 2) rfl⟩

/-! ## C12: what the packer emits -/

set_option maxRecDepth 100000 in
/-- C12 as stated fails when the capacity runs out: with capacity 3
(`MXIO_MAX_HANDLES`) the root's clone takes two cells, the remaining capacity 1
is below `MXIO_MAX_HANDLES`, and the packer returns the root's two cells alone
without asking any descriptor, although slot 0 is occupied by an object whose
clone returns the positive count 2. -/
theorem packer_stops_early :
    sampleConsts.MXIO_MAX_HANDLES ≤ 3 ∧
    (mxio_create_subprocess_handles sampleConsts sampleOps fullState 3).map
        (fun r => (r.1, r.2.1, r.2.2.calls))
      = some (2, [(0, (1001, 16)), (1, (1002, 17))], [Call.clone (mxio_t.Remote 1 2)]) ∧
    fullState.mxio_fdtab 0 = some (mxio_t.Remote 3 1) ∧
    (sampleOps.clone [Call.clone (mxio_t.Remote 1 2)] (mxio_t.Remote 3 1)).1 = 2 := by
  decide

/-- C12, amended: with a root installed and a capacity of at least
`MXIO_MAX_HANDLES`: if cloning the root returns a negative status, the packer
returns it at once, having called nothing but the root's clone and written no
cell. Otherwise the loop visits the slots `0, …, m - 1` in ascending order,
where `m` is the first slot at which the remaining capacity (the capacity less
the number of cells written so far, as a `size_t`) is below
`MXIO_MAX_HANDLES`, and `m = 256` when there is no such slot: every slot below
`m` had at least `MXIO_MAX_HANDLES` left, and `m < 256` has less. The calls
are the root's clone followed by one clone per occupied slot below `m` in
ascending order; the cells are the cells of `mxio_clone_root` (the root's clone
output with the first tag set to the root kind) followed in slot order by the
cells of `mxio_clone_fd` for each slot below `m` (the clone output with every
tag stamped with the slot), an empty slot and an object whose clone returns
zero or a negative value contributing none; the cells of each slot are written
from the index that is the number of cells written before it, as a `size_t`,
so that all cells sit at the indices `0, …, n - 1` in this order unless there
are more than `SIZE_MAX` of them; the returned status converts the number of
cells; and the table, the root and the process handle are unchanged. When no clone returns more than
`MXIO_MAX_HANDLES` and the capacity is at least `(1 + 256) * MXIO_MAX_HANDLES`,
all 256 slots are visited. -/
theorem packer_output (K : Consts) (O : Ops) (s : State) (count : Nat) (root : mxio_t)
    (hroot : s.mxio_root_handle = some root) (hM : K.MXIO_MAX_HANDLES ≤ count)
    (hbad : K.ERR_BAD_HANDLE ≤ 0) :
    ((O.clone s.calls root).1 < 0 →
      mxio_create_subprocess_handles K O s count
        = some ((O.clone s.calls root).1, [], s.log (Call.clone root))) ∧
    (0 ≤ (O.clone s.calls root).1 →
      ∃ r m, mxio_create_subprocess_handles K O s count = some r ∧
        m ≤ MAX_MXIO_FD ∧
        (∀ j, j < m → K.MXIO_MAX_HANDLES ≤ remaining K O s count root j) ∧
        (m = MAX_MXIO_FD ∨ remaining K O s count root m < K.MXIO_MAX_HANDLES) ∧
        r.2.2.calls = pack_hist s root m ∧
        r.2.1.map Prod.snd = root_cells K O s root ++
          (List.range m).flatMap (pack_cells O s root) ∧
        r.2.1.map Prod.fst = List.range' 0 (root_cells K O s root).length ++
          (List.range m).flatMap
            (fun j => List.range' (size_add K 0 ((cells_before K O s root j).length : Int))
              (pack_cells O s root j).length) ∧
        r.1 = to_status (size_add K 0 (r.2.1.length : Int)) ∧
        (r.2.1.length ≤ K.SIZE_MAX →
          r.2.1.map Prod.fst = List.range r.2.1.length ∧ r.1 = to_status r.2.1.length) ∧
        r.2.2.mxio_fdtab = s.mxio_fdtab ∧
        r.2.2.mxio_root_handle = s.mxio_root_handle ∧
        r.2.2.mxio_process_handle = s.mxio_process_handle) ∧
    (∀ j, cells_before K O s root j
        = root_cells K O s root ++ (List.range j).flatMap (pack_cells O s root) ∧
      remaining K O s count root j
        = size_sub K count ((cells_before K O s root j).length : Int)) ∧
    (0 < (O.clone s.calls root).1 →
      root_cells K O s root
        = (List.range (O.clone s.calls root).1.toNat).map
            (fun i => ((O.clone s.calls root).2.1 i,
              if i = 0 then K.MX_HND_TYPE_MXIO_ROOT else (O.clone s.calls root).2.2 i))) ∧
    ((O.clone s.calls root).1 ≤ 0 → root_cells K O s root = []) ∧
    (∀ j, s.mxio_fdtab j = none → pack_cells O s root j = []) ∧
    (∀ j io, s.mxio_fdtab j = some io → (O.clone (pack_hist s root j) io).1 ≤ 0 →
      pack_cells O s root j = []) ∧
    (∀ j io, s.mxio_fdtab j = some io → 0 < (O.clone (pack_hist s root j) io).1 →
      pack_cells O s root j
        = (List.range (O.clone (pack_hist s root j) io).1.toNat).map
            (fun i => ((O.clone (pack_hist s root j) io).2.1 i,
              stamp (j : Int) ((O.clone (pack_hist s root j) io).2.2 i)))) ∧
    (0 ≤ (O.clone s.calls root).1 → count ≤ K.SIZE_MAX →
      (∀ (h : List Call) (io : mxio_t), (O.clone h io).1 ≤ (K.MXIO_MAX_HANDLES : Int)) →
      (1 + MAX_MXIO_FD) * K.MXIO_MAX_HANDLES ≤ count →
      ∃ r, mxio_create_subprocess_handles K O s count = some r ∧
        r.1 = to_status r.2.1.length ∧
        r.2.1.map Prod.fst = List.range r.2.1.length ∧
        r.2.2.calls = pack_hist s root MAX_MXIO_FD ∧
        r.2.1.map Prod.snd = root_cells K O s root ++
          (List.range MAX_MXIO_FD).flatMap (pack_cells O s root) ∧
        r.2.2.mxio_fdtab = s.mxio_fdtab) := by
  refine ⟨?_, ?_, ?_, ?_, ?_, ?_, ?_, ?_, ?_⟩
  · intro h
    rw [packer_unfold K O s count root hroot hM, if_pos h]
  · intro h
    obtain ⟨q1, q2, q3, q4, q5, q6, q7, q8, q9, q10⟩ :=
      packer_loop_exact K O s count root hbad h
    refine ⟨_, (packer_loop K O s count root).1, packer_eq_loop K O s count root hroot hM h,
      q1, q2, q3, q4, q5, packer_loop_blocks K O s count root hbad h, ?_, fun hfin => ?_,
      q8, q9, q10⟩
    · show to_status (packer_loop K O s count root).2.1 = _
      rw [q6]
    · obtain ⟨f1, f2⟩ := q7 hfin
      refine ⟨f1, ?_⟩
      show to_status (packer_loop K O s count root).2.1 = _
      rw [f2]
  · intro j
    exact ⟨rfl, rfl⟩
  · intro h
    simp only [root_cells, h, if_true, clone_cells, arr_set]
  · intro h
    have hn : ¬ 0 < (O.clone s.calls root).1 := by omega
    simp only [root_cells, hn, if_false]
  · intro j hj
    simp only [pack_cells, hj]
  · intro j io hj hr
    have hn : ¬ 0 < (O.clone (pack_hist s root j) io).1 := by omega
    simp only [pack_cells, hj, hn, if_false]
  · intro j io hj hr
    simp only [pack_cells, hj, hr, if_true, clone_cells, List.map_map]
    rfl
  · intro h hcap hle hbig
    obtain ⟨q1, _, _, q4, q5, _, _, q8, _, _⟩ := packer_loop_exact K O s count root hbad h
    obtain ⟨b1, b2, b3, b4⟩ := packer_loop_bound K O s count root hM hcap hbad hle h
    obtain ⟨_, p2, p3, _⟩ := create_loop_spec K O s root hbad MAX_MXIO_FD 0
      (size_add K 0 (O.clone s.calls root).1) (size_sub K count (O.clone s.calls root).1)
      (List.enumFrom 0 (root_cells K O s root)) (s.log (Call.clone root))
      (by omega) rfl (by simp [pack_hist])
    rw [Nat.zero_add] at p3
    have hall : (packer_loop K O s count root).1 = MAX_MXIO_FD := by
      rcases p3 with h3 | h3
      · exact h3
      · by_contra hne
        have hlt : (packer_loop K O s count root).1 + 2 ≤ 1 + MAX_MXIO_FD := by omega
        have hmul := Nat.mul_le_mul_right K.MXIO_MAX_HANDLES hlt
        rw [Nat.add_mul] at hmul
        have b1x : (packer_loop K O s count root).2.1
            + (packer_loop K O s count root).2.2.1 = count := b1
        have b4x : (packer_loop K O s count root).2.1
            ≤ K.MXIO_MAX_HANDLES
              + (packer_loop K O s count root).1 * K.MXIO_MAX_HANDLES := b4
        have h3x : (packer_loop K O s count root).2.2.1 < K.MXIO_MAX_HANDLES := h3
        omega
    rw [hall] at q4 q5
    have b2x : (packer_loop K O s count root).2.2.2.1.length
        = (packer_loop K O s count root).2.1 := b2
    have b3x : (packer_loop K O s count root).2.2.2.1.map Prod.fst
        = List.range (packer_loop K O s count root).2.1 := b3
    refine ⟨_, packer_eq_loop K O s count root hroot hM h, ?_, ?_, q4, q5, q8⟩
    · show to_status (packer_loop K O s count root).2.1 = _
      rw [b2x]
    · show (packer_loop K O s count root).2.2.2.1.map Prod.fst = _
      rw [b3x, b2x]

set_option maxRecDepth 100000 in
/-- C12 (amended) at a concrete input: root `Remote(1, 0)`, a Pipe at slot 0,
a Remote with event handle at slot 2, capacity 771: the packer visits all 256
slots and returns 4 with the root's cell, the Pipe's cell stamped with slot 0
and the Remote's two cells stamped with slot 2, at the indices 0 to 3. -/
theorem packer_output_witness :
    sampleConsts.MXIO_MAX_HANDLES ≤ 771 ∧ sampleConsts.ERR_BAD_HANDLE ≤ 0 ∧
    (∃ r m, mxio_create_subprocess_handles sampleConsts sampleOps sampleState 771 = some r ∧
      m ≤ MAX_MXIO_FD ∧
      (∀ j, j < m → sampleConsts.MXIO_MAX_HANDLES
        ≤ remaining sampleConsts sampleOps sampleState 771 (mxio_t.Remote 1 0) j) ∧
      (m = MAX_MXIO_FD ∨
        remaining sampleConsts sampleOps sampleState 771 (mxio_t.Remote 1 0) m
          < sampleConsts.MXIO_MAX_HANDLES) ∧
      r.2.2.calls = pack_hist sampleState (mxio_t.Remote 1 0) m ∧
      r.2.2.mxio_fdtab = sampleState.mxio_fdtab) ∧
    (mxio_create_subprocess_handles sampleConsts sampleOps sampleState 771).map
        (fun r => (r.1, r.2.1, r.2.2.calls))
      = some (4, [(0, (1001, 16)), (1, (1007, 18)), (2, (1008, 131089)), (3, (1009, 131089))],
          [Call.clone (mxio_t.Remote 1 0), Call.clone (mxio_t.Pipe 7),
            Call.clone (mxio_t.Remote 8 9)]) ∧
    remaining sampleConsts sampleOps sampleState 771 (mxio_t.Remote 1 0) 0 = 770 ∧
    remaining sampleConsts sampleOps sampleState 771 (mxio_t.Remote 1 0) 3 = 767 :=
  ⟨by decide, by decide,
   (fun h => ⟨h.choose, h.choose_spec.choose, h.choose_spec.choose_spec.1,
      h.choose_spec.choose_spec.2.1, h.choose_spec.choose_spec.2.2.1,
      h.choose_spec.choose_spec.2.2.2.1, h.choose_spec.choose_spec.2.2.2.2.1,
      h.choose_spec.choose_spec.2.2.2.2.2.2.2.2.2.1⟩)
     ((packer_output sampleConsts sampleOps sampleState 771 (mxio_t.Remote 1 0) rfl
        (by decide) (by decide)).2.1 (by decide)),
   by decide, by decide, by decide⟩

/-! ## C14: the tags of `mxio_clone_fd` and of the packer -/

/-- Every cell that slot `j` contributes to the packed bundle carries a tag that
decodes to slot `j`, when the clone operations produce tags with zero upper
half. -/
theorem pack_cells_arg (O : Ops) (s : State) (root : mxio_t) (j : Nat)
    (hj : j < MAX_MXIO_FD)
    (htag : ∀ (h : List Call) (io : mxio_t) (i : Nat), (O.clone h io).2.2 i < 65536)
    (e : Nat × Nat) (he : e ∈ pack_cells O s root j) : MX_HND_INFO_ARG e.2 = j := by
  have hjm : MAX_MXIO_FD = 256 := rfl
  unfold pack_cells at he
  cases hslot : s.mxio_fdtab j with
  | none =>
    rw [hslot] at he
    exact absurd he (List.not_mem_nil e)
  | some io =>
    rw [hslot] at he
    by_cases hpos : 0 < (O.clone (pack_hist s root j) io).1
    · simp only [hpos, if_true, clone_cells, List.map_map, List.mem_map, List.mem_range,
        Function.comp] at he
      obtain ⟨i, _, hi⟩ := he
      rw [← hi]
      have := stamp_arg (j : Int) ((O.clone (pack_hist s root j) io).2.2 i) (by omega)
        (by omega) (htag _ _ _)
      simpa using this
    · simp only [hpos, if_false] at he
      exact absurd he (List.not_mem_nil e)

/-- The stamping of `mxio_clone_fd`, call by call: for a bound `fd` and a
destination slot `newfd` in `[0, 256)`: when the
object's clone returns `r > 0` and its `r` tag words have zero upper 16 bits,
`mxio_clone_fd(fd, newfd, …)` returns `r` and produces the `r` cells of the
clone with every tag `t` replaced by a tag whose slot argument is `newfd` and
whose kind is `t`; a bootstrap iteration on such a remote or pipe tag stores an
object at slot `newfd` and nowhere else. When the clone returns `r ≤ 0`, `r` is
returned and no cell is produced. The packer calls it with `newfd = fd`: the
cells it emits after the root's are, slot by slot, cells whose tags decode to
the slot they were cloned from. -/
theorem clone_fd_stamps (K : Consts) (O : Ops) (s : State) (fd newfd : Int) (io : mxio_t)
    (hio : fd_to_io s fd = some io) (h0 : 0 ≤ newfd) (h1 : newfd < (MAX_MXIO_FD : Int)) :
    (0 < (O.clone s.calls io).1 →
      (∀ i, i < (O.clone s.calls io).1.toNat → (O.clone s.calls io).2.2 i < 65536) →
      (mxio_clone_fd K O s fd newfd).1 = (O.clone s.calls io).1 ∧
      (mxio_clone_fd K O s fd newfd).2.1
        = (List.range (O.clone s.calls io).1.toNat).map
            (fun i => ((O.clone s.calls io).2.1 i, stamp newfd ((O.clone s.calls io).2.2 i))) ∧
      (∀ i, i < (O.clone s.calls io).1.toNat →
        MX_HND_INFO_ARG (stamp newfd ((O.clone s.calls io).2.2 i)) = newfd.toNat ∧
        MX_HND_INFO_TYPE (stamp newfd ((O.clone s.calls io).2.2 i))
          = (O.clone s.calls io).2.2 i) ∧
      (∀ i, i < (O.clone s.calls io).1.toNat →
        ∀ (p : mx_proc_info_t) (st : State) (n : Nat), TagsOk K →
          p.handle_info n = stamp newfd ((O.clone s.calls io).2.2 i) →
          ((O.clone s.calls io).2.2 i = K.MX_HND_TYPE_MXIO_REMOTE ∨
            (O.clone s.calls io).2.2 i = K.MX_HND_TYPE_MXIO_PIPE) →
          ∃ res, init_step K p st n = some res ∧ res.2.mxio_fdtab newfd.toNat ≠ none ∧
            ∀ j, j ≠ newfd.toNat → res.2.mxio_fdtab j = st.mxio_fdtab j)) ∧
    ((O.clone s.calls io).1 ≤ 0 →
      mxio_clone_fd K O s fd newfd = ((O.clone s.calls io).1, [], s.log (Call.clone io))) ∧
    (∀ (k fd2 n cnt : Nat) (out : List (Nat × Nat × Nat)) (st : State),
      ¬ cnt < K.MXIO_MAX_HANDLES →
      0 < (mxio_clone_fd K O st (fd2 : Int) (fd2 : Int)).1 →
      create_loop K O (k + 1) fd2 n cnt out st
        = create_loop K O k (fd2 + 1)
            (size_add K n (mxio_clone_fd K O st (fd2 : Int) (fd2 : Int)).1)
            (size_sub K cnt (mxio_clone_fd K O st (fd2 : Int) (fd2 : Int)).1)
            (out ++ List.enumFrom n (mxio_clone_fd K O st (fd2 : Int) (fd2 : Int)).2.1)
            (mxio_clone_fd K O st (fd2 : Int) (fd2 : Int)).2.2) ∧
    (∀ (root : mxio_t) (count : Nat), s.mxio_root_handle = some root →
      K.MXIO_MAX_HANDLES ≤ count → K.ERR_BAD_HANDLE ≤ 0 →
      0 ≤ (O.clone s.calls root).1 →
      (∀ (h : List Call) (x : mxio_t) (i : Nat), (O.clone h x).2.2 i < 65536) →
      ∃ r m, mxio_create_subprocess_handles K O s count = some r ∧ m ≤ MAX_MXIO_FD ∧
        r.2.1.map Prod.snd = root_cells K O s root ++
          (List.range m).flatMap (pack_cells O s root) ∧
        ∀ j, j < m → ∀ e ∈ pack_cells O s root j, MX_HND_INFO_ARG e.2 = j) := by
  have hlt : newfd < 65536 := by
    have : (MAX_MXIO_FD : Int) = 256 := rfl
    omega
  refine ⟨?_, ?_, ?_, ?_⟩
  · intro hpos htag
    rw [clone_fd_bound K O s fd newfd io hio, if_pos hpos]
    refine ⟨rfl, ?_, fun i hi => ?_, fun i hi p st n htags hinfo hkind => ?_⟩
    · simp only [clone_cells, List.map_map]
      rfl
    · exact ⟨stamp_arg newfd _ h0 hlt (htag i hi), stamp_type newfd _ h0 hlt (htag i hi)⟩
    · exact init_step_stamped K p st n newfd _ htags h0 h1 (htag i hi) hinfo hkind
  · intro hr
    have hn : ¬ 0 < (O.clone s.calls io).1 := by omega
    rw [clone_fd_bound K O s fd newfd io hio, if_neg hn]
  · intro k fd2 n cnt out st hcnt hpos
    have hn : ¬ (mxio_clone_fd K O st (fd2 : Int) (fd2 : Int)).1 ≤ 0 := by omega
    rw [create_loop_succ, if_neg hcnt, if_neg hn]
  · intro root count hroot hM hbad hr htag
    have hn : ¬ (O.clone s.calls root).1 < 0 := by omega
    obtain ⟨_, p2, _, _, _, _, _, p8⟩ := create_loop_spec K O s root hbad MAX_MXIO_FD 0
      (size_add K 0 (O.clone s.calls root).1) (size_sub K count (O.clone s.calls root).1)
      (List.enumFrom 0 (root_cells K O s root)) (s.log (Call.clone root))
      (by omega) rfl (by simp [pack_hist])
    rw [Nat.zero_add] at p2
    rw [Nat.sub_zero, ← List.range_eq_range', List.enumFrom_map_snd] at p8
    refine ⟨_, _, by rw [packer_unfold K O s count root hroot hM, if_neg hn], p2, p8,
      fun j hj e he => ?_⟩
    exact pack_cells_arg O s root j (by omega) htag e he

/-- The stamping at a concrete input: cloning descriptor 2 (a Remote with an
event handle) for destination slot 5 returns 2, and both tags decode to slot 5
and the remote kind. -/
theorem clone_fd_stamps_witness :
    fd_to_io sampleState 2 = some (mxio_t.Remote 8 9) ∧
    (mxio_clone_fd sampleConsts sampleOps sampleState 2 5).1 = 2 ∧
    (mxio_clone_fd sampleConsts sampleOps sampleState 2 5).2.1
      = [(1008, 327697), (1009, 327697)] ∧
    MX_HND_INFO_ARG 327697 = 5 ∧ MX_HND_INFO_TYPE 327697 = 17 :=
  ⟨by decide,
   ((clone_fd_stamps sampleConsts sampleOps sampleState 2 5 (mxio_t.Remote 8 9) (by decide)
      (by decide) (by decide)).1 (by decide)
      (fun _ _ => show (17 : Nat) < 65536 by decide)).1,
   ((clone_fd_stamps sampleConsts sampleOps sampleState 2 5 (mxio_t.Remote 8 9) (by decide)
      (by decide) (by decide)).1 (by decide)
      (fun _ _ => show (17 : Nat) < 65536 by decide)).2.1,
   by decide, by decide⟩

/-- The globals after `mxio_bind_to_fd`: unchanged, or one store of the object. -/
theorem bind_state (K : Consts) (s : State) (io : Option mxio_t) (fd : Int) :
    (mxio_bind_to_fd K s io fd).2 = s ∨ ∃ i, (mxio_bind_to_fd K s io fd).2 = s.store i io := by
  by_cases hfd : 0 ≤ fd
  · by_cases hmax : (MAX_MXIO_FD : Int) ≤ fd
    · left
      simp only [mxio_bind_to_fd, hfd, hmax, if_true]
    · cases hslot : s.mxio_fdtab fd.toNat with
      | some x =>
        left
        simp only [mxio_bind_to_fd, hfd, hmax, if_true, if_false, hslot]
      | none =>
        right
        exact ⟨fd.toNat, by simp only [mxio_bind_to_fd, hfd, hmax, if_true, if_false, hslot]⟩
  · rcases bind_auto_cases K s io fd (by omega) with ⟨_, h⟩ | ⟨i, _, h⟩
    · left; rw [h]
    · right; exact ⟨i, by rw [h]⟩

/-- C15 as stated fails: binding the same object at slot 0 and then at slot 1
of the empty table leaves it in both slots. -/
theorem same_object_two_slots :
    (table_run sampleConsts sampleOps State.init
      [TableOp.bind (mxio_t.Pipe 7) 0, TableOp.bind (mxio_t.Pipe 7) 1]).mxio_fdtab 0
      = some (mxio_t.Pipe 7) ∧
    (table_run sampleConsts sampleOps State.init
      [TableOp.bind (mxio_t.Pipe 7) 0, TableOp.bind (mxio_t.Pipe 7) 1]).mxio_fdtab 1
      = some (mxio_t.Pipe 7) ∧
    ¬ NoShared (table_run sampleConsts sampleOps State.init
      [TableOp.bind (mxio_t.Pipe 7) 0, TableOp.bind (mxio_t.Pipe 7) 1]) :=
  ⟨by decide, by decide,
   fun h => h 0 1 (by decide) (by decide) (by decide) (mxio_t.Pipe 7) (by decide) (by decide)⟩

/-- A bind that returns a negative result leaves the globals as they were. -/
theorem bind_neg_state (K : Consts) (s : State) (io : Option mxio_t) (fd : Int)
    (h : (mxio_bind_to_fd K s io fd).1 < 0) : (mxio_bind_to_fd K s io fd).2 = s := by
  by_cases hfd : 0 ≤ fd
  · by_cases hmax : (MAX_MXIO_FD : Int) ≤ fd
    · simp only [mxio_bind_to_fd, hfd, hmax, if_true]
    · cases hslot : s.mxio_fdtab fd.toNat with
      | some x => simp only [mxio_bind_to_fd, hfd, hmax, if_true, if_false, hslot]
      | none =>
        simp only [mxio_bind_to_fd, hfd, hmax, if_true, if_false, hslot] at h
        omega
  · rcases bind_auto_cases K s io fd (by omega) with ⟨_, hb⟩ | ⟨i, _, hb⟩
    · rw [hb]
    · rw [hb] at h
      simp only at h
      omega

/-- Emptying slots keeps the table free of sharing. -/
theorem ptrNoShared_shrink (s t : State) (a : Nat → Nat)
    (hsub : ∀ k, k < MAX_MXIO_FD → t.mxio_fdtab k ≠ none → s.mxio_fdtab k ≠ none)
    (hs : PtrNoShared { st := s, addr := a }) : PtrNoShared { st := t, addr := a } := by
  intro i j hi hj hij h1 h2
  exact hs i j hi hj hij (hsub i hi h1) (hsub j hj h2)

theorem ptrAbsent_shrink (s t : State) (a : Nat → Nat) (p : Nat)
    (hsub : ∀ k, k < MAX_MXIO_FD → t.mxio_fdtab k ≠ none → s.mxio_fdtab k ≠ none)
    (hs : PtrAbsent { st := s, addr := a } p) : PtrAbsent { st := t, addr := a } p := by
  intro i hi h1
  exact hs i hi (hsub i hi h1)

/-- Storing a new object at one slot keeps the table free of sharing. -/
theorem ptrNoShared_add (s t : State) (a : Nat → Nat) (i p : Nat)
    (hsub : ∀ k, k < MAX_MXIO_FD → k ≠ i → t.mxio_fdtab k ≠ none → s.mxio_fdtab k ≠ none)
    (hs : PtrNoShared { st := s, addr := a }) (hp : PtrAbsent { st := s, addr := a } p) :
    PtrNoShared { st := t, addr := arr_set a i p } := by
  intro k l hk hl hkl h1 h2
  show arr_set a i p k ≠ arr_set a i p l
  unfold arr_set
  by_cases hki : k = i
  · have hli : l ≠ i := fun h => hkl (hki.trans h.symm)
    rw [if_pos hki, if_neg hli]
    exact fun h => hp l hl (hsub l hl hli h2) h.symm
  · rw [if_neg hki]
    by_cases hli : l = i
    · rw [if_pos hli]
      exact hp k hk (hsub k hk hki h1)
    · rw [if_neg hli]
      exact hs k l hk hl hkl (hsub k hk hki h1) (hsub l hl hli h2)

/-- An object other than the one stored stays absent. -/
theorem ptrAbsent_add (s t : State) (a : Nat → Nat) (i p q : Nat)
    (hsub : ∀ k, k < MAX_MXIO_FD → k ≠ i → t.mxio_fdtab k ≠ none → s.mxio_fdtab k ≠ none)
    (hq : PtrAbsent { st := s, addr := a } q) (hpq : p ≠ q) :
    PtrAbsent { st := t, addr := arr_set a i p } q := by
  intro k hk h1
  show arr_set a i p k ≠ q
  unfold arr_set
  by_cases hki : k = i
  · rw [if_pos hki]
    exact hpq
  · rw [if_neg hki]
    exact hq k hk (hsub k hk hki h1)

/-- The two outcomes of `open`: the created object is stored at a slot that
was empty and the slot is returned, or the result is negative and the table is
as before. -/
theorem open_cases (K : Consts) (O : Ops) (s : State) (path : Option String) (flags : Int)
    (herr : ErrNeg K) :
    (∃ (i : Nat) (obj : mxio_t) (s1 : State), i < MAX_MXIO_FD ∧
      s1.mxio_fdtab = s.mxio_fdtab ∧ s.mxio_fdtab i = none ∧
      (∃ pth root, path = some pth ∧ s.mxio_root_handle = some root ∧
        (O.open_ s.calls root pth flags).2 = some obj) ∧
      __open K O s path flags = ((i : Int), s1.store i (some obj))) ∨
    ((__open K O s path flags).1 < 0 ∧
      (__open K O s path flags).2.mxio_fdtab = s.mxio_fdtab) := by
  obtain ⟨e1, _, e3, e4, e5⟩ := herr
  cases path with
  | none => exact Or.inr ⟨e1, rfl⟩
  | some p =>
    cases hroot : s.mxio_root_handle with
    | none =>
      right
      simp only [__open, hroot]
      exact ⟨e4, trivial⟩
    | some root =>
      simp only [__open, hroot]
      by_cases hr : (O.open_ s.calls root p flags).1 < 0
      · right
        rw [if_pos hr]
        exact ⟨hr, rfl⟩
      · rw [if_neg hr]
        cases hobj : (O.open_ s.calls root p flags).2 with
        | none => exact Or.inr ⟨e5, rfl⟩
        | some obj =>
          simp only
          rcases bind_auto_cases K (s.log (Call.open_ root p flags)) (some obj) (-1)
            (by decide) with ⟨_, hb⟩ | ⟨i, hi, hb⟩
          · right
            rw [hb]
            dsimp only
            rw [if_pos e3]
            exact ⟨e3, rfl⟩
          · left
            rw [hb]
            have hn : ¬ ((i : Int) < 0) := by omega
            dsimp only
            rw [if_neg hn]
            exact ⟨i, obj, s.log (Call.open_ root p flags), hi.1, rfl, hi.2.1,
              ⟨p, root, rfl, rfl, hobj⟩, rfl⟩

/-- The two outcomes of `pipe`: both ends are stored at two different slots that
were empty, 0 is returned and `pipefd` holds the two slots, or the result is
not 0 and no slot is occupied that was not occupied before. -/
theorem pipe_cases (K : Consts) (O : Ops) (s : State) (pipefd : Int × Int)
    (hneg : K.ERR_NO_RESOURCES < 0) :
    (∃ (i j : Nat) (s0 : State), i < MAX_MXIO_FD ∧ j < MAX_MXIO_FD ∧ i ≠ j ∧
      s0.mxio_fdtab = s.mxio_fdtab ∧
      s.mxio_fdtab i = none ∧ s.mxio_fdtab j = none ∧
      pipe K O s pipefd = (0, ((i : Int), (j : Int)),
        (s0.store i (some (O.pipe_pair s.calls).2.1)).store j
          (some (O.pipe_pair s.calls).2.2))) ∨
    ((pipe K O s pipefd).1 ≠ 0 ∧
      ∀ k c, k < MAX_MXIO_FD → (pipe K O s pipefd).2.2.mxio_fdtab k = some c →
        s.mxio_fdtab k = some c) := by
  simp only [pipe]
  by_cases hr : (O.pipe_pair s.calls).1 < 0
  · right
    rw [if_pos hr]
    exact ⟨by simp only; omega, fun k c _ h => h⟩
  · rw [if_neg hr]
    rcases bind_auto_cases K (s.log Call.pipe_pair) (some (O.pipe_pair s.calls).2.1) (-1)
      (by decide) with ⟨_, hb⟩ | ⟨i, hi, hb⟩
    · right
      rw [hb]
      dsimp only
      rw [if_pos hneg]
      exact ⟨by dsimp only; omega, fun k c _ h => h⟩
    · rw [hb]
      have hn : ¬ ((i : Int) < 0) := by omega
      dsimp only
      rw [if_neg hn]
      rcases bind_auto_cases K ((s.log Call.pipe_pair).store i (some (O.pipe_pair s.calls).2.1))
        (some (O.pipe_pair s.calls).2.2) (-1) (by decide) with ⟨_, hb1⟩ | ⟨j, hj, hb1⟩
      · right
        rw [hb1]
        dsimp only
        rw [if_pos hneg]
        refine ⟨by dsimp only; omega, fun k c hk h => ?_⟩
        have hcl := close_bound K O ((s.log Call.pipe_pair).store i
          (some (O.pipe_pair s.calls).2.1)) i (O.pipe_pair s.calls).2.1 hi.1
          (by rw [store_fdtab, fdtab_set_same])
        rw [hcl] at h
        simp only [mx_close] at h
        have h2 : fdtab_set (fdtab_set s.mxio_fdtab i (some (O.pipe_pair s.calls).2.1)) i
            none k = some c := h
        by_cases hki : k = i
        · rw [hki, fdtab_set_same] at h2
          exact Option.noConfusion h2
        · rw [fdtab_set_other _ _ _ _ hki, fdtab_set_other _ _ _ _ hki] at h2
          exact h2
      · left
        rw [hb1]
        have hn1 : ¬ ((j : Int) < 0) := by omega
        dsimp only
        rw [if_neg hn1]
        have hji : j ≠ i := by
          intro h
          have := hj.2.1
          rw [h, store_fdtab, fdtab_set_same] at this
          exact Option.noConfusion this
        have hjn : s.mxio_fdtab j = none := by
          have := hj.2.1
          rw [store_fdtab, fdtab_set_other _ _ _ _ hji] at this
          exact this
        exact ⟨i, j, s.log Call.pipe_pair, hi.1, hj.1, fun h => hji h.symm, rfl, hi.2.1, hjn,
          rfl⟩

theorem close_occupied (K : Consts) (O : Ops) (s : State) (fd : Int) :
    ∀ k c, k < MAX_MXIO_FD → (__close K O s fd).2.mxio_fdtab k = some c →
      s.mxio_fdtab k = some c := by
  intro k c _ h
  cases hio : fd_to_io s fd with
  | none =>
    simp only [__close, hio] at h
    exact h
  | some io =>
    simp only [__close, hio] at h
    have h2 : fdtab_set s.mxio_fdtab fd.toNat none k = some c := h
    by_cases hk : k = fd.toNat
    · rw [hk, fdtab_set_same] at h2
      exact Option.noConfusion h2
    · rw [fdtab_set_other _ _ _ _ hk] at h2
      exact h2

theorem exit_occupied (s : State) :
    ∀ k c, k < MAX_MXIO_FD → (mxio_exit s).mxio_fdtab k = some c →
      s.mxio_fdtab k = some c := by
  intro k c hk h
  have e := (exit_loop_spec MAX_MXIO_FD 0 s).2.1 k
  rw [if_pos (by omega)] at e
  have h2 : (mxio_exit_loop MAX_MXIO_FD 0 s).mxio_fdtab k = some c := h
  rw [e] at h2
  exact Option.noConfusion h2

theorem occupied_of_values (s t : State)
    (h : ∀ k c, k < MAX_MXIO_FD → t.mxio_fdtab k = some c → s.mxio_fdtab k = some c) :
    ∀ k, k < MAX_MXIO_FD → t.mxio_fdtab k ≠ none → s.mxio_fdtab k ≠ none := by
  intro k hk hne
  cases hc : t.mxio_fdtab k with
  | none => exact absurd hc hne
  | some c =>
    rw [h k c hk hc]
    exact fun e => Option.noConfusion e

/-- One table operation that brings only new objects keeps the table free of
sharing. -/
theorem ptr_step_noShared (K : Consts) (O : Ops) (herr : ErrNeg K) (σ : PtrState)
    (op : PtrOp) (hs : PtrNoShared σ) (hf : PtrFreshOp σ op) :
    PtrNoShared (ptr_step K O σ op) := by
  obtain ⟨s, a⟩ := σ
  cases op with
  | bind p io fd =>
    simp only [ptr_step]
    by_cases hok : 0 ≤ (mxio_bind_to_fd K s (some io) fd).1
    · rw [if_pos hok]
      obtain ⟨i, _, _, _, _, hb⟩ :=
        bind_success K s (some io) fd herr.1 herr.2.1 herr.2.2.1 hok
      rw [hb]
      simp only [Int.toNat_ofNat]
      refine ptrNoShared_add s _ a i p (fun k _ hki h => ?_) hs hf
      rw [store_fdtab, fdtab_set_other _ _ _ _ hki] at h
      exact h
    · rw [if_neg hok, bind_neg_state K s (some io) fd (by omega)]
      exact hs
  | close fd =>
    exact ptrNoShared_shrink s _ a (occupied_of_values s _ (close_occupied K O s fd)) hs
  | open_ path flags p =>
    simp only [ptr_step]
    rcases open_cases K O s path flags herr with ⟨i, obj, s1, _, h1, _, _, ho⟩ | ⟨hneg, htab⟩
    · rw [ho]
      have hn : (0 : Int) ≤ (i : Int) := by omega
      simp only [hn, if_true, Int.toNat_ofNat]
      refine ptrNoShared_add s _ a i p (fun k _ hki h => ?_) hs hf
      rw [store_fdtab, fdtab_set_other _ _ _ _ hki, h1] at h
      exact h
    · rw [if_neg (by omega)]
      exact ptrNoShared_shrink s _ a (fun k _ h => by rw [htab] at h; exact h) hs
  | pipe pa pb =>
    obtain ⟨ha, hb, hab⟩ := hf
    simp only [ptr_step]
    rcases pipe_cases K O s (0, 0) herr.2.2.1 with
      ⟨i, j, s0, _, _, hij, h0, _, _, hp⟩ | ⟨hne, hsub⟩
    · rw [hp]
      simp only [if_true, Int.toNat_ofNat]
      have hmid : PtrNoShared
          { st := s0.store i (some (O.pipe_pair s.calls).2.1), addr := arr_set a i pa } := by
        refine ptrNoShared_add s _ a i pa (fun k _ hki h => ?_) hs ha
        rw [store_fdtab, fdtab_set_other _ _ _ _ hki, h0] at h
        exact h
      have hmidb : PtrAbsent
          { st := s0.store i (some (O.pipe_pair s.calls).2.1), addr := arr_set a i pa } pb := by
        refine ptrAbsent_add s _ a i pa pb (fun k _ hki h => ?_) hb hab
        rw [store_fdtab, fdtab_set_other _ _ _ _ hki, h0] at h
        exact h
      refine ptrNoShared_add (s0.store i (some (O.pipe_pair s.calls).2.1)) _ (arr_set a i pa)
        j pb (fun k _ hkj h => ?_) hmid hmidb
      rw [store_fdtab, fdtab_set_other _ _ _ _ hkj] at h
      exact h
    · rw [if_neg hne]
      exact ptrNoShared_shrink s _ a (occupied_of_values s _ hsub) hs
  | exit => exact ptrNoShared_shrink s _ a (occupied_of_values s _ (exit_occupied s)) hs

/-- One table operation fills a slot only with an object it brings, and records
its address there; every other occupied slot keeps its object and its
address. -/
theorem ptr_step_tracks (K : Consts) (O : Ops) (herr : ErrNeg K) (σ : PtrState)
    (op : PtrOp) (k : Nat) (c : mxio_t) (hk : k < MAX_MXIO_FD)
    (hc : (ptr_step K O σ op).st.mxio_fdtab k = some c) :
    (σ.st.mxio_fdtab k = some c ∧ (ptr_step K O σ op).addr k = σ.addr k) ∨
    (σ.st.mxio_fdtab k = none ∧ ((ptr_step K O σ op).addr k, c) ∈ op.brings O σ.st) := by
  obtain ⟨s, a⟩ := σ
  cases op with
  | bind p io fd =>
    simp only [ptr_step] at hc ⊢
    by_cases hok : 0 ≤ (mxio_bind_to_fd K s (some io) fd).1
    · rw [if_pos hok]
      obtain ⟨i, _, hnone, _, _, hb⟩ :=
        bind_success K s (some io) fd herr.1 herr.2.1 herr.2.2.1 hok
      rw [hb] at hc ⊢
      simp only [Int.toNat_ofNat]
      rw [store_fdtab] at hc
      by_cases hki : k = i
      · right
        rw [hki, fdtab_set_same] at hc
        have hio : io = c := Option.some.inj hc
        rw [hki, ← hio]
        exact ⟨hnone, by simp [arr_set, PtrOp.brings]⟩
      · left
        rw [fdtab_set_other _ _ _ _ hki] at hc
        exact ⟨hc, by simp [arr_set, hki]⟩
    · rw [if_neg hok]
      rw [bind_neg_state K s (some io) fd (by omega)] at hc
      exact Or.inl ⟨hc, rfl⟩
  | close fd => exact Or.inl ⟨close_occupied K O s fd k c hk hc, rfl⟩
  | open_ path flags p =>
    simp only [ptr_step] at hc ⊢
    rcases open_cases K O s path flags herr with
      ⟨i, obj, s1, _, h1, hnone, ⟨pth, root, hp, hroot, hobj⟩, ho⟩ | ⟨hneg, htab⟩
    · rw [ho] at hc ⊢
      have hn : (0 : Int) ≤ (i : Int) := by omega
      simp only [hn, if_true, Int.toNat_ofNat]
      rw [store_fdtab] at hc
      by_cases hki : k = i
      · right
        rw [hki, fdtab_set_same] at hc
        have hio : obj = c := Option.some.inj hc
        rw [hki, ← hio]
        refine ⟨hnone, ?_⟩
        simp [arr_set, PtrOp.brings, hp, hroot, hobj]
      · left
        rw [fdtab_set_other _ _ _ _ hki, h1] at hc
        exact ⟨hc, by simp [arr_set, hki]⟩
    · rw [if_neg (by omega)]
      rw [htab] at hc
      exact Or.inl ⟨hc, rfl⟩
  | pipe pa pb =>
    simp only [ptr_step] at hc ⊢
    rcases pipe_cases K O s (0, 0) herr.2.2.1 with
      ⟨i, j, s0, _, _, hij, h0, hni, hnj, hp⟩ | ⟨hne, hsub⟩
    · rw [hp] at hc ⊢
      simp only [if_true, Int.toNat_ofNat]
      rw [store_fdtab, store_fdtab] at hc
      by_cases hkj : k = j
      · right
        rw [hkj, fdtab_set_same] at hc
        have hio : (O.pipe_pair s.calls).2.2 = c := Option.some.inj hc
        rw [hkj, ← hio]
        exact ⟨hnj, by simp [arr_set, PtrOp.brings]⟩
      · rw [fdtab_set_other _ _ _ _ hkj] at hc
        by_cases hki : k = i
        · right
          rw [hki, fdtab_set_same] at hc
          have hio : (O.pipe_pair s.calls).2.1 = c := Option.some.inj hc
          rw [hki, ← hio]
          exact ⟨hni, by simp [arr_set, PtrOp.brings, hij]⟩
        · left
          rw [fdtab_set_other _ _ _ _ hki, h0] at hc
          exact ⟨hc, by simp [arr_set, hki, hkj]⟩
    · rw [if_neg hne]
      exact Or.inl ⟨hsub k c hk hc, rfl⟩
  | exit => exact Or.inl ⟨exit_occupied s k c hk hc, rfl⟩

theorem ptr_run_noShared (K : Consts) (O : Ops) (herr : ErrNeg K) :
    ∀ (ops : List PtrOp) (σ : PtrState),
      PtrNoShared σ → PtrFreshRun K O σ ops → PtrNoShared (ptr_run K O σ ops) := by
  intro ops
  induction ops with
  | nil => intro σ hs _; exact hs
  | cons op ops ih =>
    intro σ hs hf
    exact ih (ptr_step K O σ op) (ptr_step_noShared K O herr σ op hs hf.1) hf.2

/-- The globals of a run with identities are those of the run without them. -/
theorem ptr_run_erase (K : Consts) (O : Ops) : ∀ (ops : List PtrOp) (σ : PtrState),
    (ptr_run K O σ ops).st = table_run K O σ.st (ops.map PtrOp.erase) := by
  intro ops
  induction ops with
  | nil => intro σ; rfl
  | cons op ops ih =>
    intro σ
    have hstep : (ptr_step K O σ op).st = table_step K O σ.st op.erase := by
      cases op <;> rfl
    show (ptr_run K O (ptr_step K O σ op) ops).st = _
    rw [ih, hstep]
    rfl

/-- C15, amended: start from an empty table, with or without a root installed,
and run any sequence of table operations (`mxio_bind_to_fd` with any object and
any requested slot, `close`, `open`, `pipe`, teardown) in which every object
brought to the table is new: the object passed to `mxio_bind_to_fd`, the object
the root's open creates and the two ends `mxio_pipe_pair` creates are held by
no slot, and the two ends are two objects. Then no object is held by two
slots: any two different occupied slots hold different objects. Objects are
told apart by their identity, not by their content, so two Null objects are two
objects. The globals of the run are those the operations themselves produce,
and the identities are those of the objects in the table: an operation fills a
slot only with an object it brings, recorded with its address, and every other
occupied slot keeps its object and its address. -/
theorem table_no_sharing (K : Consts) (O : Ops) (σ : PtrState) (ops : List PtrOp)
    (herr : ErrNeg K) (h0 : ∀ i, i < MAX_MXIO_FD → σ.st.mxio_fdtab i = none)
    (hf : PtrFreshRun K O σ ops) :
    PtrNoShared (ptr_run K O σ ops) ∧
    (ptr_run K O σ ops).st = table_run K O σ.st (ops.map PtrOp.erase) ∧
    (∀ (τ : PtrState) (op : PtrOp) (k : Nat) (c : mxio_t), k < MAX_MXIO_FD →
      (ptr_step K O τ op).st.mxio_fdtab k = some c →
      (τ.st.mxio_fdtab k = some c ∧ (ptr_step K O τ op).addr k = τ.addr k) ∨
      (τ.st.mxio_fdtab k = none ∧
        ((ptr_step K O τ op).addr k, c) ∈ op.brings O τ.st)) := by
  refine ⟨ptr_run_noShared K O herr ops σ ?_ hf, ptr_run_erase K O ops σ,
    fun τ op k c hk hc => ptr_step_tracks K O herr τ op k c hk hc⟩
  intro i j hi _ _ h1 _
  exact absurd (h0 i hi) h1

set_option maxRecDepth 100000 in
theorem sampleRun_fresh : PtrFreshRun sampleConsts sampleOps rootedEmpty sampleRun := by
  refine ⟨?_, ?_, ?_, ⟨?_, ?_, ?_⟩, trivial, trivial⟩
  · show PtrAbsent _ _
    decide
  · show PtrAbsent _ _
    decide
  · show PtrAbsent _ _
    decide
  · show PtrAbsent _ _
    decide
  · show PtrAbsent _ _
    decide
  · decide

set_option maxRecDepth 100000 in
/-- C15 (amended) at a concrete input: from the empty table with a root
installed, two Null objects are bound at slots 0 and 5, `open` binds the object
it creates at slot 1, `pipe` binds its ends at slots 2 and 3, and slot 2 is
closed. Every object brought is new, and the final table holds four objects,
two of them Null objects, at four different addresses. -/
theorem table_no_sharing_witness :
    ErrNeg sampleConsts ∧
    (∀ i, i < MAX_MXIO_FD → rootedEmpty.st.mxio_fdtab i = none) ∧
    PtrFreshRun sampleConsts sampleOps rootedEmpty sampleRun ∧
    PtrNoShared (ptr_run sampleConsts sampleOps rootedEmpty sampleRun) ∧
    (ptr_run sampleConsts sampleOps rootedEmpty sampleRun).st.mxio_fdtab 0
      = some mxio_t.Null ∧
    (ptr_run sampleConsts sampleOps rootedEmpty sampleRun).st.mxio_fdtab 1
      = some (mxio_t.Remote 2 0) ∧
    (ptr_run sampleConsts sampleOps rootedEmpty sampleRun).st.mxio_fdtab 2 = none ∧
    (ptr_run sampleConsts sampleOps rootedEmpty sampleRun).st.mxio_fdtab 3
      = some (mxio_t.Pipe 101) ∧
    (ptr_run sampleConsts sampleOps rootedEmpty sampleRun).st.mxio_fdtab 5
      = some mxio_t.Null ∧
    (ptr_run sampleConsts sampleOps rootedEmpty sampleRun).addr 0 = 10 ∧
    (ptr_run sampleConsts sampleOps rootedEmpty sampleRun).addr 1 = 12 ∧
    (ptr_run sampleConsts sampleOps rootedEmpty sampleRun).addr 3 = 14 ∧
    (ptr_run sampleConsts sampleOps rootedEmpty sampleRun).addr 5 = 11 :=
  ⟨by decide, by decide, sampleRun_fresh,
   (table_no_sharing sampleConsts sampleOps rootedEmpty sampleRun (by decide) (by decide)
      sampleRun_fresh).1,
   by decide, by decide, by decide, by decide, by decide, by decide, by decide, by decide,
   by decide⟩

/-- Binding the object at one address at slot 0 and then at slot 1 leaves that
object in both slots. -/
theorem same_address_two_slots :
    ¬ PtrNoShared (ptr_run sampleConsts sampleOps { st := State.init, addr := fun _ => 0 }
      [PtrOp.bind 7 (mxio_t.Pipe 7) 0, PtrOp.bind 7 (mxio_t.Pipe 7) 1]) :=
  fun h => h 0 1 (by decide) (by decide) (by decide) (by decide) (by decide) (by decide)

/-! ## C16: the dispatching entry points -/

theorem log_calls_ne (s : State) (c : Call) : (s.log c).calls ≠ s.calls := by
  intro h
  have hl := congrArg List.length h
  simp at hl

theorem fd_to_io_none_iff (s : State) (fd : Int) :
    fd_to_io s fd = none ↔
      (fd < 0 ∨ (MAX_MXIO_FD : Int) ≤ fd ∨ s.mxio_fdtab fd.toNat = none) := by
  unfold fd_to_io
  by_cases hr : fd < 0 ∨ (MAX_MXIO_FD : Int) ≤ fd
  · rw [if_pos hr]
    constructor
    · intro _
      rcases hr with h | h
      · exact Or.inl h
      · exact Or.inr (Or.inl h)
    · intro _; rfl
  · rw [if_neg hr]
    constructor
    · intro h; exact Or.inr (Or.inr h)
    · intro h
      rcases h with h | h | h
      · exact absurd (Or.inl h) hr
      · exact absurd (Or.inr h) hr
      · exact h

/-- C16: a descriptor resolves to nothing exactly when it is outside `[0, 256)`
or its slot is empty. Then each of `read`, `write`, `lseek`, `getdirents`,
`fstat`, `mxio_ioctl`, `mxio_wait_fd` and `mxio_clone_fd` returns
`ERR_BAD_HANDLE` and leaves the state, call log included, as it was. For a
bound descriptor `read` and `write` return `ERR_INVALID_ARGS` without a call
when the buffer is null and otherwise exactly the result of the object's read
or write; `mxio_ioctl` returns `ERR_NOT_SUPPORTED` without a call when the
object has no ioctl operation and otherwise exactly that operation's result;
the others call the object's operation once. Provided `ERR_INVALID_ARGS` and
`ERR_NOT_SUPPORTED` differ from `ERR_BAD_HANDLE`, returning `ERR_BAD_HANDLE`
without any call happens exactly for a descriptor that resolves to nothing.
None of the calls changes a slot of the table. -/
theorem dispatch_contract (K : Consts) (O : Ops) (s : State) (fd : Int) :
    (fd_to_io s fd = none ↔
      (fd < 0 ∨ (MAX_MXIO_FD : Int) ≤ fd ∨ s.mxio_fdtab fd.toNat = none)) ∧
    (fd_to_io s fd = none →
      (∀ buf count, read K O s fd buf count = (K.ERR_BAD_HANDLE, s)) ∧
      (∀ buf count, write K O s fd buf count = (K.ERR_BAD_HANDLE, s)) ∧
      (∀ offset whence, lseek K O s fd offset whence = (K.ERR_BAD_HANDLE, s)) ∧
      (∀ ptr len, getdirents K O s fd ptr len = (K.ERR_BAD_HANDLE, s)) ∧
      (∀ attr, fstat K O s fd attr = (K.ERR_BAD_HANDLE, none, s)) ∧
      (∀ op il ol, mxio_ioctl K O s fd op il ol = (K.ERR_BAD_HANDLE, s)) ∧
      (∀ ev pend, mxio_wait_fd K O s fd ev pend = (K.ERR_BAD_HANDLE, pend, s)) ∧
      (∀ newfd, mxio_clone_fd K O s fd newfd = (K.ERR_BAD_HANDLE, [], s))) ∧
    (∀ io, fd_to_io s fd = some io →
      (∀ count, read K O s fd none count = (K.ERR_INVALID_ARGS, s)) ∧
      (∀ b count, read K O s fd (some b) count
        = (O.read s.calls io b count, s.log (Call.read io))) ∧
      (∀ count, write K O s fd none count = (K.ERR_INVALID_ARGS, s)) ∧
      (∀ b count, write K O s fd (some b) count
        = (O.write s.calls io b count, s.log (Call.write io))) ∧
      (O.ioctl io = none → ∀ op il ol,
        mxio_ioctl K O s fd op il ol = (K.ERR_NOT_SUPPORTED, s)) ∧
      (∀ f, O.ioctl io = some f → ∀ op il ol,
        mxio_ioctl K O s fd op il ol = (f s.calls op il ol, s.log (Call.ioctl io))) ∧
      (∀ offset whence, lseek K O s fd offset whence
        = (O.seek s.calls io offset whence, s.log (Call.seek io))) ∧
      (∀ ptr len, getdirents K O s fd ptr len
        = ((O.misc s.calls io K.MX_RIO_READDIR len ptr).1, s.log (Call.misc io))) ∧
      (∀ attr, (fstat K O s fd attr).2.2 = s.log (Call.misc io)) ∧
      (∀ ev pend, mxio_wait_fd K O s fd ev pend
        = ((O.wait s.calls io ev).1, (O.wait s.calls io ev).2, s.log (Call.wait io))) ∧
      (∀ newfd, (mxio_clone_fd K O s fd newfd).1 = (O.clone s.calls io).1 ∧
        (mxio_clone_fd K O s fd newfd).2.2 = s.log (Call.clone io))) ∧
    (K.ERR_INVALID_ARGS ≠ K.ERR_BAD_HANDLE → K.ERR_NOT_SUPPORTED ≠ K.ERR_BAD_HANDLE →
      (∀ buf count, ((read K O s fd buf count).1 = K.ERR_BAD_HANDLE ∧
        (read K O s fd buf count).2.calls = s.calls) ↔ fd_to_io s fd = none) ∧
      (∀ buf count, ((write K O s fd buf count).1 = K.ERR_BAD_HANDLE ∧
        (write K O s fd buf count).2.calls = s.calls) ↔ fd_to_io s fd = none) ∧
      (∀ offset whence, ((lseek K O s fd offset whence).1 = K.ERR_BAD_HANDLE ∧
        (lseek K O s fd offset whence).2.calls = s.calls) ↔ fd_to_io s fd = none) ∧
      (∀ ptr len, ((getdirents K O s fd ptr len).1 = K.ERR_BAD_HANDLE ∧
        (getdirents K O s fd ptr len).2.calls = s.calls) ↔ fd_to_io s fd = none) ∧
      (∀ attr, ((fstat K O s fd attr).1 = K.ERR_BAD_HANDLE ∧
        (fstat K O s fd attr).2.2.calls = s.calls) ↔ fd_to_io s fd = none) ∧
      (∀ op il ol, ((mxio_ioctl K O s fd op il ol).1 = K.ERR_BAD_HANDLE ∧
        (mxio_ioctl K O s fd op il ol).2.calls = s.calls) ↔ fd_to_io s fd = none) ∧
      (∀ ev pend, ((mxio_wait_fd K O s fd ev pend).1 = K.ERR_BAD_HANDLE ∧
        (mxio_wait_fd K O s fd ev pend).2.2.calls = s.calls) ↔ fd_to_io s fd = none) ∧
      (∀ newfd, ((mxio_clone_fd K O s fd newfd).1 = K.ERR_BAD_HANDLE ∧
        (mxio_clone_fd K O s fd newfd).2.2.calls = s.calls) ↔ fd_to_io s fd = none)) ∧
    ((∀ buf count, (read K O s fd buf count).2.mxio_fdtab = s.mxio_fdtab) ∧
      (∀ buf count, (write K O s fd buf count).2.mxio_fdtab = s.mxio_fdtab) ∧
      (∀ offset whence, (lseek K O s fd offset whence).2.mxio_fdtab = s.mxio_fdtab) ∧
      (∀ ptr len, (getdirents K O s fd ptr len).2.mxio_fdtab = s.mxio_fdtab) ∧
      (∀ attr, (fstat K O s fd attr).2.2.mxio_fdtab = s.mxio_fdtab) ∧
      (∀ op il ol, (mxio_ioctl K O s fd op il ol).2.mxio_fdtab = s.mxio_fdtab) ∧
      (∀ ev pend, (mxio_wait_fd K O s fd ev pend).2.2.mxio_fdtab = s.mxio_fdtab) ∧
      (∀ newfd, (mxio_clone_fd K O s fd newfd).2.2.mxio_fdtab = s.mxio_fdtab)) := by
  have hstat : ∀ (io : mxio_t) (attr : Nat), (mx_stat K O s io attr).2.2 = s.log (Call.misc io) := by
    intro io attr
    unfold mx_stat
    simp only
    split
    · rfl
    · split <;> rfl
  have hclone : ∀ (io : mxio_t) (newfd : Int), fd_to_io s fd = some io →
      (mxio_clone_fd K O s fd newfd).1 = (O.clone s.calls io).1 ∧
      (mxio_clone_fd K O s fd newfd).2.2 = s.log (Call.clone io) := by
    intro io newfd hio
    rw [clone_fd_bound K O s fd newfd io hio]
    split <;> exact ⟨rfl, rfl⟩
  refine ⟨fd_to_io_none_iff s fd, ?_, ?_, ?_, ?_⟩
  · intro hnone
    refine ⟨?_, ?_, ?_, ?_, ?_, ?_, ?_, ?_⟩
    · intro buf count; simp only [read, hnone]
    · intro buf count; simp only [write, hnone]
    · intro offset whence; simp only [lseek, hnone]
    · intro ptr len; simp only [getdirents, hnone]
    · intro attr; simp only [fstat, hnone]
    · intro op il ol; simp only [mxio_ioctl, hnone]
    · intro ev pend; simp only [mxio_wait_fd, hnone]
    · intro newfd; exact clone_fd_unbound K O s fd newfd hnone
  · intro io hio
    refine ⟨?_, ?_, ?_, ?_, ?_, ?_, ?_, ?_, ?_, ?_, ?_⟩
    · intro count; simp only [read, hio]
    · intro b count; simp only [read, hio]
    · intro count; simp only [write, hio]
    · intro b count; simp only [write, hio]
    · intro hi op il ol; simp only [mxio_ioctl, hio, hi]
    · intro f hi op il ol; simp only [mxio_ioctl, hio, hi]
    · intro offset whence; simp only [lseek, hio]
    · intro ptr len; simp only [getdirents, hio]
    · intro attr
      simp only [fstat, hio]
      exact hstat io attr
    · intro ev pend; simp only [mxio_wait_fd, hio]
    · intro newfd; exact hclone io newfd hio
  · intro hia hns
    cases hio : fd_to_io s fd with
    | none =>
      refine ⟨?_, ?_, ?_, ?_, ?_, ?_, ?_, ?_⟩
      · intro buf count; simp [read, hio]
      · intro buf count; simp [write, hio]
      · intro offset whence; simp [lseek, hio]
      · intro ptr len; simp [getdirents, hio]
      · intro attr; simp [fstat, hio]
      · intro op il ol; simp [mxio_ioctl, hio]
      · intro ev pend; simp [mxio_wait_fd, hio]
      · intro newfd; simp [clone_fd_unbound K O s fd newfd hio]
    | some io =>
      have hne : ∀ c : Call, ¬ (s.calls ++ [c] = s.calls) := fun c => log_calls_ne s c
      refine ⟨?_, ?_, ?_, ?_, ?_, ?_, ?_, ?_⟩
      · intro buf count
        cases buf with
        | none => simp [read, hio, hia]
        | some b => simp [read, hio, State.log]
      · intro buf count
        cases buf with
        | none => simp [write, hio, hia]
        | some b => simp [write, hio, State.log]
      · intro offset whence; simp [lseek, hio, State.log]
      · intro ptr len; simp [getdirents, hio, State.log]
      · intro attr
        have h2 : (fstat K O s fd attr).2.2 = s.log (Call.misc io) := by
          simp only [fstat, hio]
          exact hstat io attr
        constructor
        · intro h
          exact absurd (by rw [← h.2, h2]) (log_calls_ne s (Call.misc io))
        · intro h; exact Option.noConfusion h
      · intro op il ol
        cases hi : O.ioctl io with
        | none => simp [mxio_ioctl, hio, hi, hns]
        | some f => simp [mxio_ioctl, hio, hi, State.log]
      · intro ev pend; simp [mxio_wait_fd, hio, State.log]
      · intro newfd
        constructor
        · intro h
          exact absurd (by rw [← h.2, (hclone io newfd hio).2]) (log_calls_ne s (Call.clone io))
        · intro h; exact Option.noConfusion h
  · cases hio : fd_to_io s fd with
    | none =>
      refine ⟨?_, ?_, ?_, ?_, ?_, ?_, ?_, ?_⟩
      · intro buf count; simp only [read, hio]
      · intro buf count; simp only [write, hio]
      · intro offset whence; simp only [lseek, hio]
      · intro ptr len; simp only [getdirents, hio]
      · intro attr; simp only [fstat, hio]
      · intro op il ol; simp only [mxio_ioctl, hio]
      · intro ev pend; simp only [mxio_wait_fd, hio]
      · intro newfd; rw [clone_fd_unbound K O s fd newfd hio]
    | some io =>
      refine ⟨?_, ?_, ?_, ?_, ?_, ?_, ?_, ?_⟩
      · intro buf count
        cases buf with
        | none => simp only [read, hio]
        | some b => simp only [read, hio]; rfl
      · intro buf count
        cases buf with
        | none => simp only [write, hio]
        | some b => simp only [write, hio]; rfl
      · intro offset whence; simp only [lseek, hio]; rfl
      · intro ptr len; simp only [getdirents, hio]; rfl
      · intro attr
        simp only [fstat, hio]
        rw [hstat io attr]
        rfl
      · intro op il ol
        cases hi : O.ioctl io with
        | none => simp only [mxio_ioctl, hio, hi]
        | some f => simp only [mxio_ioctl, hio, hi]; rfl
      · intro ev pend; simp only [mxio_wait_fd, hio]; rfl
      · intro newfd
        rw [(hclone io newfd hio).2]
        rfl

/-- C16 at a concrete input: descriptor 2 of `sampleState` is bound to a Remote
object, descriptor 1 is not: `read` on 2 with a buffer returns the object's
result, with a null buffer `ERR_INVALID_ARGS`, and `read` and `mxio_ioctl` on 1
return `ERR_BAD_HANDLE`. -/
theorem dispatch_contract_witness :
    read sampleConsts sampleOps sampleState 2 (some 64) 10
      = (10, sampleState.log (Call.read (mxio_t.Remote 8 9))) ∧
    read sampleConsts sampleOps sampleState 2 none 10
      = (sampleConsts.ERR_INVALID_ARGS, sampleState) ∧
    read sampleConsts sampleOps sampleState 1 (some 64) 10
      = (sampleConsts.ERR_BAD_HANDLE, sampleState) ∧
    mxio_ioctl sampleConsts sampleOps sampleState 1 3 0 0
      = (sampleConsts.ERR_BAD_HANDLE, sampleState) :=
  ⟨((dispatch_contract sampleConsts sampleOps sampleState 2).2.2.1 (mxio_t.Remote 8 9)
      (by decide)).2.1 64 10,
   ((dispatch_contract sampleConsts sampleOps sampleState 2).2.2.1 (mxio_t.Remote 8 9)
      (by decide)).1 10,
   ((dispatch_contract sampleConsts sampleOps sampleState 1).2.1 (by decide)).1 (some 64) 10,
   ((dispatch_contract sampleConsts sampleOps sampleState 1).2.1 (by decide)).2.2.2.2.2.1 3 0 0⟩

end Mxio
